import Mathlib

/-!
# open62541 `ua_types.c`: the Variant / NumericRange engine and the copy engine

A shallow embedding of the range engine of `src/ua_types.c`
(`computeStrides`, `isStringLike`, `copySubString`, `UA_Variant_copyRange`,
`Variant_setRange` and its two public wrappers), of the leaf helpers
(`UA_String_fromChars`, `UA_String_equal`, `UA_Guid_equal`, `UA_Guid_random`,
`UA_NodeId_isNull`, `UA_NodeId_equal`, `UA_DateTime_toStruct`, `UA_DateTime_toString`),
of the generic copy engine (`UA_copy`, `copy_noInit`, `copyJumpTable` with the copy
functions of the built-in kinds, `UA_Array_new`, `UA_Array_copy`) and of the generic
delete engine (`UA_deleteMembers`, `deleteMembers_noInit`, `deleteMembersJumpTable` with
the delete functions of the built-in kinds, `UA_Array_delete`, `UA_delete`), together
with the properties proved about them.

Conventions of the embedding

* Memory is a sequence of *cells*, one cell per array element.  A C array
  `(pointer, length)` is a `UA_Ptr` holding the list of its cells; byte
  addresses `base + elem_size * i` are cell indices `i`.
* `size_t` is 64 bits wide (the `MAX_SIZE > 0xffffffff` branch of
  `computeStrides`), `UA_UInt32` is 32 bits wide; arithmetic the C code
  performs in these types wraps explicitly (`usize`, `u32`).
* A result `none` stands for undefined behaviour of the C code (a null or
  out-of-bounds access, a division by zero, a cell read at the wrong type) or,
  for the recursive `UA_Variant_copyRange` and the recursive copy engine, for
  exhausted recursion fuel.
* The heap is not tracked beyond the cells a pointer leads to.  The copy and range
  functions give the content of their destination; the delete functions give the
  allocations they hand to `UA_free`.
-/

namespace Open62541

/-! ## Machine integers -/

/-- Largest value of `UA_UInt32`. -/
def UA_UINT32_MAX : Nat := 4294967295

/-- Wrap to the 32 bits of `UA_UInt32`. -/
def u32 (x : Nat) : Nat := x % 4294967296

/-- Wrap to the 64 bits of `size_t`. -/
def usize (x : Nat) : Nat := x % 18446744073709551616

/-- Subtraction `a - b` of two `UA_UInt32` values, wrapping below zero. -/
def u32sub (a b : Nat) : Nat := u32 (a + 4294967296 - u32 b)

/-! ## Status codes -/

abbrev UA_StatusCode := Nat

def UA_STATUSCODE_GOOD : UA_StatusCode := 0x00000000
def UA_STATUSCODE_BADINTERNALERROR : UA_StatusCode := 0x80020000
def UA_STATUSCODE_BADOUTOFMEMORY : UA_StatusCode := 0x80030000
def UA_STATUSCODE_BADINDEXRANGEINVALID : UA_StatusCode := 0x80360000
def UA_STATUSCODE_BADINDEXRANGENODATA : UA_StatusCode := 0x80370000

/-! ## Type descriptors -/

/-- Index of `Byte` in the table `UA_TYPES` (its slot in `copyJumpTable`). -/
def UA_TYPES_BYTE : Nat := 2

/-- Index of `Variant` in the table `UA_TYPES` (its slot in `copyJumpTable`). -/
def UA_TYPES_VARIANT : Nat := 23

structure UA_DataTypeMember where
  memberTypeIndex : Nat
  padding : Nat
  namespaceZero : Bool
  isArray : Bool
deriving DecidableEq, Repr

structure UA_DataType where
  typeIndex : Nat
  memSize : Nat
  builtin : Bool
  fixedSize : Bool
  membersSize : Nat
  members : List UA_DataTypeMember
deriving DecidableEq, Repr

/-! ## Memory -/

/-- A C pointer to an array: `NULL`, the address `UA_EMPTY_ARRAY_SENTINEL`, a
live allocation with its cells, or an allocation that has been freed. -/
inductive UA_Ptr (α : Type) where
  | null
  | sentinel
  | mem (cells : List α)
  | freed
deriving DecidableEq, Repr

/-- A `UA_Guid`; `data4` holds the eight bytes of the C array. -/
structure UA_Guid where
  data1 : Nat
  data2 : Nat
  data3 : Nat
  data4 : List Nat
deriving DecidableEq, Repr

/-- Content of one array cell.  `uninit` is memory fresh from `UA_malloc`,
`zeroed` is memory whose bytes are all zero, `fixed` is a value of a fixed-size
type (its bit pattern), `string` is a `UA_String` / `UA_ByteString`
(`length`, `data`) and also the layout of an array member of a structure (a
`size_t` followed by a pointer), `variant` is a `UA_Variant` (`type`,
`storageType`, `arrayLength`, `data`, `arrayDimensions` with
`arrayDimensionsSize` entries).  `guid`, `nodeId`, `expandedNodeId`,
`localizedText`, `dataValue` and `diagnosticInfo` are the built-in kinds of
these names, a sub-structure or a union member being a cell of its own;
the fields of a `dataValue` or `diagnosticInfo` that own no storage are one bit
pattern `scalars`.  An ExtensionObject is `extensionObjectEncoded` or
`extensionObjectDecoded` according to the member of its `content` union that was
stored.  `struct` is a value of a structured type, one cell per member. -/
inductive UA_Value where
  | uninit
  | zeroed
  | fixed (bits : Nat)
  | string (length : Nat) (data : UA_Ptr UA_Value)
  | variant (type : Option UA_DataType) (storageType : Nat) (arrayLength : Nat)
      (data : UA_Ptr UA_Value) (arrayDimensions : List Nat)
  | guid (g : UA_Guid)
  | nodeId (namespaceIndex : Nat) (identifierType : Nat) (identifier : UA_Value)
  | expandedNodeId (nodeId : UA_Value) (namespaceUri : UA_Value) (serverIndex : Nat)
  | localizedText (locale : UA_Value) (text : UA_Value)
  | extensionObjectEncoded (encoding : Nat) (typeId : UA_Value) (body : UA_Value)
  | extensionObjectDecoded (encoding : Nat) (type : Option UA_DataType)
      (data : UA_Ptr UA_Value)
  | dataValue (scalars : Nat) (value : UA_Value)
  | diagnosticInfo (scalars : Nat) (hasAdditionalInfo : Bool) (hasInnerDiagnosticInfo : Bool)
      (additionalInfo : UA_Value) (innerDiagnosticInfo : UA_Ptr UA_Value)
  | struct (members : List UA_Value)

/-- A `UA_String` (also `UA_ByteString`): a length and a pointer to its bytes,
each byte one cell `fixed b`. -/
structure UA_String where
  length : Nat
  data : UA_Ptr UA_Value

/-- A `UA_Variant`.  `arrayDimensions` holds the `arrayDimensionsSize` entries
of the C array, read as `UA_UInt32` the way `computeStrides` reads them. -/
structure UA_Variant where
  type : Option UA_DataType
  storageType : Nat
  arrayLength : Nat
  data : UA_Ptr UA_Value
  arrayDimensions : List Nat

def UA_Variant.arrayDimensionsSize (v : UA_Variant) : Nat := v.arrayDimensions.length

/-- Storage type `UA_VARIANT_DATA`, the value 0 of the enumeration. -/
def UA_VARIANT_DATA : Nat := 0

/-- The state `UA_Variant_init` leaves: every byte zero. -/
def UA_Variant_init : UA_Variant :=
  { type := none, storageType := UA_VARIANT_DATA, arrayLength := 0, data := .null,
    arrayDimensions := [] }

/-- The constant `UA_STRING_NULL`, also the state `UA_ByteString_init` leaves. -/
def UA_STRING_NULL : UA_String := { length := 0, data := .null }

/-- Store a Variant into a cell. -/
def UA_Value.ofVariant (v : UA_Variant) : UA_Value :=
  .variant v.type v.storageType v.arrayLength v.data v.arrayDimensions

/-- Store a String into a cell. -/
def UA_Value.ofString (s : UA_String) : UA_Value := .string s.length s.data

/-- Read a cell through a `const UA_Variant *`; `none` when the cell does not
hold a Variant. -/
def UA_Value.asVariant : UA_Value → Option UA_Variant
  | .variant t st n d dims =>
      some { type := t, storageType := st, arrayLength := n, data := d, arrayDimensions := dims }
  | .zeroed => some UA_Variant_init
  | _ => none

/-- Read a cell through a `const UA_String *`; `none` when the cell does not
hold a String. -/
def UA_Value.asString : UA_Value → Option UA_String
  | .string n d => some { length := n, data := d }
  | .zeroed => some UA_STRING_NULL
  | _ => none

/-- The cells behind a pointer that may be dereferenced. -/
def UA_Ptr.cells? {α : Type} : UA_Ptr α → Option (List α)
  | .mem cells => some cells
  | _ => none

/-- The call `memcpy(dst + doff, src + soff, n)` in cell units.  Copying nothing is a
no-op whatever the pointers are (`UA_String_fromChars` relies on it); otherwise
both regions have to lie inside live allocations. -/
def memcpy (dst : UA_Ptr UA_Value) (doff : Nat) (src : UA_Ptr UA_Value) (soff n : Nat) :
    Option (UA_Ptr UA_Value) :=
  if n = 0 then some dst
  else
    match dst, src with
    | .mem d, .mem s =>
        if soff + n ≤ s.length ∧ doff + n ≤ d.length then
          some (.mem (d.take doff ++ (s.drop soff).take n ++ d.drop (doff + n)))
        else none
    | _, _ => none

/-- Overwrite the single cell `dst[doff]`. -/
def storeCell (dst : UA_Ptr UA_Value) (doff : Nat) (c : UA_Value) : Option (UA_Ptr UA_Value) :=
  match dst with
  | .mem d => if doff < d.length then some (.mem (d.set doff c)) else none
  | _ => none

/-- Read the single cell `src[soff]`. -/
def loadCell (src : UA_Ptr UA_Value) (soff : Nat) : Option UA_Value :=
  match src with
  | .mem s => s.get? soff
  | _ => none

/-! ## Numeric ranges -/

structure UA_NumericRangeDimension where
  min : Nat
  max : Nat
deriving DecidableEq, Repr

/-- A `UA_NumericRange`: the `dimensionsSize` entries of `dimensions`. -/
abbrev UA_NumericRange := List UA_NumericRangeDimension

/-- Modelled from the spec: the inline helper `UA_Variant_isScalar` of `ua_types.h`,
which is not part of the sources at hand.  A Variant is scalar iff its stored
arrayLength is 0 and its data pointer is neither null nor the empty-array
sentinel. -/
def UA_Variant_isScalar (v : UA_Variant) : Bool :=
  v.arrayLength == 0 &&
    (match v.data with
     | .null => false
     | .sentinel => false
     | _ => true)

/-! ## computeStrides -/

/-- The four values `computeStrides` hands back through its out-parameters. -/
structure Strides where
  total : Nat
  block : Nat
  stride : Nat
  first : Nat
deriving DecidableEq, Repr

/-- First loop of `computeStrides`: test each range dimension against the
dimension of the variant and accumulate `count`. -/
def computeStrides.checkRange :
    UA_NumericRange → List Nat → Nat → Except UA_StatusCode Nat
  | r :: range, d :: dims, count =>
      if r.min > r.max then .error UA_STATUSCODE_BADINDEXRANGEINVALID
      else if r.max ≥ d then .error UA_STATUSCODE_BADINDEXRANGENODATA
      else computeStrides.checkRange range dims (usize (count * u32 (u32sub r.max r.min + 1)))
  | _, _, count => .ok count

/-- Local variables of the second loop of `computeStrides`. -/
structure StrideState where
  block : Nat
  stride : Nat
  first : Nat
  running_dimssize : Nat
  found_contiguous : Bool
deriving DecidableEq, Repr

/-- One pass through the body of the second loop of `computeStrides`, at the
dimension with range `r` and extent `d`. -/
def computeStrides.step (r : UA_NumericRangeDimension) (d : Nat) (s : StrideState) :
    StrideState :=
  let dimrange := u32sub (u32 (1 + r.max)) r.min
  let s1 : StrideState :=
    if !s.found_contiguous && dimrange != d then
      { s with found_contiguous := true,
               block := usize (s.running_dimssize * dimrange),
               stride := usize (s.running_dimssize * d) }
    else s
  { s1 with first := usize (s1.first + usize (s.running_dimssize * r.min)),
            running_dimssize := usize (s.running_dimssize * d) }

/-- The function `computeStrides`.  `Except.error st` is the status it returns when it
rejects the range, `Except.ok` carries the out-parameters of a return with
`UA_STATUSCODE_GOOD`. -/
def computeStrides (v : UA_Variant) (range : UA_NumericRange) : Except UA_StatusCode Strides :=
  if v.arrayLength > UA_UINT32_MAX then .error UA_STATUSCODE_BADINTERNALERROR
  else
    let dims : List Nat :=
      if v.arrayDimensionsSize > 0 then v.arrayDimensions else [u32 v.arrayLength]
    let elements := v.arrayDimensions.foldl (fun e d => usize (e * d)) 1
    if v.arrayDimensionsSize > 0 ∧ elements ≠ v.arrayLength then
      .error UA_STATUSCODE_BADINTERNALERROR
    else if range.length ≠ dims.length then .error UA_STATUSCODE_BADINDEXRANGENODATA
    else
      match computeStrides.checkRange range dims 1 with
      | .error e => .error e
      | .ok count =>
          let init : StrideState :=
            { block := count, stride := v.arrayLength, first := 0, running_dimssize := 1,
              found_contiguous := false }
          let s := (range.zip dims).foldr (fun rd s => computeStrides.step rd.1 rd.2 s) init
          .ok { total := count, block := s.block, stride := s.stride, first := s.first }

/-! ## Releasing storage

Every delete function gives the allocations it hands to `UA_free`, in their order, each
as the list of its cells; `none` stands for undefined behaviour.  What the functions
write into the value they delete is not kept: `UA_deleteMembers` clears the buffer
afterwards. -/

/-- The call `UA_free(p)`: nothing happens for null, a live allocation is released,
the sentinel address and a pointer that was freed before must not be passed. -/
def UA_free (p : UA_Ptr UA_Value) : Option (List (List UA_Value)) :=
  match p with
  | .null => some []
  | .mem cells => some [cells]
  | .sentinel => none
  | .freed => none

/-- The pointer `p & ~UA_EMPTY_ARRAY_SENTINEL`: the sentinel becomes null. -/
def clearSentinel (p : UA_Ptr UA_Value) : UA_Ptr UA_Value :=
  match p with
  | .sentinel => .null
  | q => q

/-- Two deletions one after the other. -/
def andThen (a b : Option (List (List UA_Value))) : Option (List (List UA_Value)) :=
  match a, b with
  | some x, some y => some (x ++ y)
  | _, _ => none

/-- The recursive entry points of the delete engine. -/
structure DeleteFns where
  deleteMembers_noInit : UA_Value → UA_DataType → Option (List (List UA_Value))
  DiagnosticInfo_deleteMembers : UA_Value → Option (List (List UA_Value))

/-- Body of `UA_deleteMembers` as far as storage goes: the `memset` releases nothing. -/
def UA_deleteMembersWith (fns : DeleteFns) (p : UA_Value) (type : UA_DataType) :
    Option (List (List UA_Value)) :=
  fns.deleteMembers_noInit p type

/-- The loop of `UA_Array_delete` over the elements. -/
def UA_Array_delete.elements (fns : DeleteFns) (type : UA_DataType) :
    List UA_Value → Option (List (List UA_Value))
  | [] => some []
  | c :: cs => andThen (UA_deleteMembersWith fns c type) (UA_Array_delete.elements fns type cs)

/-- Body of `UA_Array_delete`. -/
def UA_Array_deleteWith (fns : DeleteFns) (p : UA_Ptr UA_Value) (size : Nat)
    (type : UA_DataType) : Option (List (List UA_Value)) :=
  let elements : Option (List (List UA_Value)) :=
    if !type.fixedSize then
      if size = 0 then some []
      else
        match p with
        | .mem cells =>
            if size ≤ cells.length then UA_Array_delete.elements fns type (cells.take size)
            else none
        | _ => none
    else some []
  andThen elements (UA_free (clearSentinel p))

/-! ## The run-time the range engine calls into -/

/-- The allocator, the generic deep copy and the generic deep delete, as far as the
range engine uses them.  `UA_malloc n` tells whether a request for `n` bytes is served
(`UA_calloc` asks the same allocator).  `UA_copy src type` is the call
`UA_copy(src, dst, type)` on one cell: the status and the content it leaves in `dst` (it
clears `dst` first, so the previous content of `dst` does not matter), `none` when the
call is undefined.  `deleteFns` are the entry points of the delete engine that
`UA_Array_delete` calls on the elements of an array that is not of fixed size. -/
structure UA_Runtime where
  UA_malloc : Nat → Bool
  UA_copy : UA_Value → UA_DataType → Option (UA_StatusCode × UA_Value)
  deleteFns : DeleteFns

/-- Width of `size_t` in bytes. -/
def sizeof_size_t : Nat := 8

/-- Width of `UA_UInt32` in bytes, the `memSize` of `UA_TYPES[UA_TYPES_UINT32]`. -/
def sizeof_UInt32 : Nat := 4

/-- Modelled from the spec: the table `UA_TYPES` is not part of the sources at hand.
The address test `type == &UA_TYPES[UA_TYPES_VARIANT]` (the element type is
Variant) is taken as: the descriptor is the built-in one whose index is
`UA_TYPES_VARIANT`. -/
def isVariantType (type : UA_DataType) : Bool :=
  type.builtin && type.typeIndex == UA_TYPES_VARIANT

/-- Whether `UA_Array_new(size, type)` returns a usable pointer: the sentinel for
`size = 0`, else the result of `UA_calloc(size, type->memSize)`. -/
def UA_Array_new_ok (rt : UA_Runtime) (size memSize : Nat) : Bool :=
  size == 0 || rt.UA_malloc (usize (size * memSize))

/-! ## Strings -/

/-- The function `isStringLike`. -/
def isStringLike (type : UA_DataType) : Bool :=
  match type.members with
  | m :: _ =>
      type.membersSize == 1 && m.isArray && m.namespaceZero &&
        m.memberTypeIndex == UA_TYPES_BYTE
  | [] => false

/-- The store `bs->data = p` into a cell that holds a String; a cell that holds
something else becomes indeterminate. -/
def UA_Value.setStringData : UA_Value → UA_Ptr UA_Value → UA_Value
  | .string n _, p => .string n p
  | .zeroed, p => .string 0 p
  | _, _ => .uninit

/-- The function `UA_ByteString_allocBuffer`: the status and the content of `bs`. -/
def UA_ByteString_allocBuffer (rt : UA_Runtime) (bs : UA_Value) (length : Nat) :
    UA_StatusCode × UA_Value :=
  if length = 0 then (UA_STATUSCODE_GOOD, UA_Value.ofString UA_STRING_NULL)
  else if !rt.UA_malloc length then (UA_STATUSCODE_BADOUTOFMEMORY, bs.setStringData .null)
  else (UA_STATUSCODE_GOOD, .string length (.mem (List.replicate length .uninit)))

/-- The function `copySubString`: the status and the content of `dst`. -/
def copySubString (rt : UA_Runtime) (src : UA_String) (dst : UA_Value)
    (dim : UA_NumericRangeDimension) : Option (UA_StatusCode × UA_Value) :=
  if dim.min > dim.max then some (UA_STATUSCODE_BADINDEXRANGEINVALID, dst)
  else if dim.max ≥ src.length then some (UA_STATUSCODE_BADINDEXRANGENODATA, dst)
  else
    let length := u32 (u32sub dim.max dim.min + 1)
    let (retval, dst1) := UA_ByteString_allocBuffer rt dst length
    if retval ≠ UA_STATUSCODE_GOOD then some (retval, dst1)
    else
      match dst1.asString with
      | none => none
      | some d =>
          match memcpy d.data 0 src.data dim.min length with
          | none => none
          | some data => some (UA_STATUSCODE_GOOD, .string d.length data)

/-! ## Block loops -/

/-- The loop `for(i = 0; i < block_count; i++) { memcpy(nextdst, nextsrc, block); nextdst += dstep;
nextsrc += sstep; }` shared by `UA_Variant_copyRange` (`dstep = block`,
`sstep = stride`) and `Variant_setRange` (`dstep = stride`, `sstep = block`). -/
def memcpyBlocks (src : UA_Ptr UA_Value) (block dstep sstep : Nat) :
    Nat → Nat → Nat → UA_Ptr UA_Value → Option (UA_Ptr UA_Value)
  | 0, _, _, dst => some dst
  | n + 1, nextdst, nextsrc, dst =>
      match memcpy dst nextdst src nextsrc block with
      | none => none
      | some dst1 => memcpyBlocks src block dstep sstep n (nextdst + dstep) (nextsrc + sstep) dst1

/-- Cursor state of the element-wise loops: the status and the two cursors, with
the destination memory. -/
structure LoopState where
  retval : UA_StatusCode
  nextdst : Nat
  nextsrc : Nat
  dst : UA_Ptr UA_Value

/-- The inner loop `for(j = 0; j < block; j++)` of the element-wise copies.  `body`
is the call made on the source cell and the destination cell, `combine old new`
is how its status enters `retval` (plain assignment or `|=`), `whileGood` says
whether the loop condition also asks for `retval == UA_STATUSCODE_GOOD`. -/
def elementLoop (body : UA_Value → UA_Value → Option (UA_StatusCode × UA_Value))
    (combine : UA_StatusCode → UA_StatusCode → UA_StatusCode) (whileGood : Bool)
    (src : UA_Ptr UA_Value) : Nat → LoopState → Option LoopState
  | 0, s => some s
  | j + 1, s =>
      if whileGood && s.retval != UA_STATUSCODE_GOOD then some s
      else
        match loadCell src s.nextsrc, loadCell s.dst s.nextdst with
        | some c, some d =>
            match body c d with
            | none => none
            | some (rv, d1) =>
                match storeCell s.dst s.nextdst d1 with
                | none => none
                | some dst1 =>
                    elementLoop body combine whileGood src j
                      { retval := combine s.retval rv, nextdst := s.nextdst + 1,
                        nextsrc := s.nextsrc + 1, dst := dst1 }
        | _, _ => none

/-- The outer loop `for(i = 0; i < block_count; i++)` around `elementLoop`; after each
block the cursor named by `skipSrc` (`nextsrc` in `UA_Variant_copyRange`, `nextdst`
in `Variant_setRange`) advances by `stride - block`. -/
def blockLoop (body : UA_Value → UA_Value → Option (UA_StatusCode × UA_Value))
    (combine : UA_StatusCode → UA_StatusCode → UA_StatusCode) (whileGood skipSrc : Bool)
    (src : UA_Ptr UA_Value) (block stride : Nat) : Nat → LoopState → Option LoopState
  | 0, s => some s
  | i + 1, s =>
      match elementLoop body combine whileGood src block s with
      | none => none
      | some s1 =>
          blockLoop body combine whileGood skipSrc src block stride i
            (if skipSrc then { s1 with nextsrc := s1.nextsrc + (stride - block) }
             else { s1 with nextdst := s1.nextdst + (stride - block) })

/-! ## UA_Variant_copyRange -/

/-- The function `Variant_deletemembers`, as far as it changes the Variant itself: the
data array is released and `arrayLength` 0 is set to 1 on the way. -/
def Variant_deletemembers (p : UA_Variant) : UA_Variant :=
  if p.storageType != UA_VARIANT_DATA then p
  else
    match p.type, p.data with
    | some _, .mem _ =>
        { p with arrayLength := if p.arrayLength = 0 then 1 else p.arrayLength, data := .freed }
    | _, _ => p

/-- Number of range dimensions an array source consumes at this level: the local
`dims` of `UA_Variant_copyRange`. -/
def copyRange.dims (orig_src : UA_Variant) : Nat :=
  if orig_src.arrayDimensionsSize = 0 then 1 else orig_src.arrayDimensionsSize

/-- The local `src` of `UA_Variant_copyRange`: a scalar is replaced by an array of
length 1. -/
def copyRange.src (orig_src : UA_Variant) : UA_Variant :=
  if UA_Variant_isScalar orig_src then { orig_src with arrayLength := 1 } else orig_src

/-- The local `thisrange` of `UA_Variant_copyRange`: the single entry `{0, 0}` for a
scalar, else the leading `dims` dimensions of the range. -/
def copyRange.thisrange (orig_src : UA_Variant) (range : UA_NumericRange) : UA_NumericRange :=
  if UA_Variant_isScalar orig_src then [⟨0, 0⟩] else range.take (copyRange.dims orig_src)

/-- The local `nextrange` of `UA_Variant_copyRange`: the whole range for a scalar,
else what is left after the leading `dims` dimensions. -/
def copyRange.nextrange (orig_src : UA_Variant) (range : UA_NumericRange) : UA_NumericRange :=
  if UA_Variant_isScalar orig_src then range else range.drop (copyRange.dims orig_src)

/-- Body of `UA_Variant_copyRange`, the recursive call on an element being `self`.
The result is the status and the content of `dst`. -/
def copyRangeBody (rt : UA_Runtime)
    (self : UA_Variant → UA_Value → UA_NumericRange → Option (UA_StatusCode × UA_Value))
    (orig_src : UA_Variant) (dst : UA_Value) (range : UA_NumericRange) :
    Option (UA_StatusCode × UA_Value) :=
  let isScalar := UA_Variant_isScalar orig_src
  match orig_src.type with
  | none => none
  | some type =>
    let stringLike := isStringLike type
    /- Extract the range for copying at this level. -/
    if !isScalar && copyRange.dims orig_src > range.length then
      some (UA_STATUSCODE_BADINDEXRANGEINVALID, dst)
    else
      let src := copyRange.src orig_src
      let thisrange := copyRange.thisrange orig_src range
      let nextrange := copyRange.nextrange orig_src range
      /- Compute the strides. -/
      match computeStrides src thisrange with
      | .error retval => some (retval, dst)
      | .ok st =>
        let count := st.total
        let block := st.block
        let stride := st.stride
        let first := st.first
        /- Allocate the array. -/
        let elem_size := type.memSize
        if !rt.UA_malloc (usize (elem_size * count)) then
          some (UA_STATUSCODE_BADOUTOFMEMORY, UA_Value.ofVariant UA_Variant_init)
        else
          let dstdata : UA_Ptr UA_Value := .mem (List.replicate count .uninit)
          /- Copy the range. -/
          if block = 0 then none
          else
            let block_count := count / block
            let start : LoopState :=
              { retval := UA_STATUSCODE_GOOD, nextdst := 0, nextsrc := first, dst := dstdata }
            let copied : Option LoopState :=
              if nextrange.length = 0 then
                if type.fixedSize then
                  (memcpyBlocks src.data block block stride block_count 0 first dstdata).map
                    (fun d => { start with dst := d })
                else
                  blockLoop (fun c _ => rt.UA_copy c type) (fun _ rv => rv) false true
                    src.data block stride block_count start
              else
                let retval :=
                  if isVariantType type then UA_STATUSCODE_GOOD
                  else if !stringLike || nextrange.length != 1 then
                    UA_STATUSCODE_BADINDEXRANGENODATA
                  else UA_STATUSCODE_GOOD
                blockLoop
                  (fun c d =>
                    if stringLike then
                      match c.asString, nextrange.head? with
                      | some s, some dim => copySubString rt s d dim
                      | _, _ => none
                    else
                      match c.asVariant with
                      | some v => self v d nextrange
                      | none => none)
                  (fun _ rv => rv) true true src.data block stride block_count
                  { start with retval := retval }
            match copied with
            | none => none
            | some fin =>
              /- Clean up if copying failed: `UA_Array_delete(dst->data, count, src->type)`. -/
              if fin.retval ≠ UA_STATUSCODE_GOOD then
                match UA_Array_deleteWith rt.deleteFns fin.dst count type with
                | none => none
                | some _ => some (fin.retval, UA_Value.ofVariant UA_Variant_init)
              else
                /- Done if scalar. -/
                let dst1 : UA_Variant :=
                  { UA_Variant_init with data := fin.dst, type := some type }
                if isScalar then some (UA_STATUSCODE_GOOD, UA_Value.ofVariant dst1)
                else
                  /- Copy array dimensions. -/
                  let dst2 : UA_Variant := { dst1 with arrayLength := count }
                  if src.arrayDimensionsSize > 0 then
                    if !UA_Array_new_ok rt thisrange.length sizeof_UInt32 then
                      some (UA_STATUSCODE_BADOUTOFMEMORY,
                        UA_Value.ofVariant (Variant_deletemembers dst2))
                    else
                      some (UA_STATUSCODE_GOOD, UA_Value.ofVariant
                        { dst2 with arrayDimensions :=
                            thisrange.map (fun d => u32 (u32sub d.max d.min + 1)) })
                  else some (UA_STATUSCODE_GOOD, UA_Value.ofVariant dst2)

/-- The function `UA_Variant_copyRange`.  The first argument bounds the depth of the
recursion into nested Variants; `none` is returned when it is used up. -/
def UA_Variant_copyRange (rt : UA_Runtime) :
    Nat → UA_Variant → UA_Value → UA_NumericRange → Option (UA_StatusCode × UA_Value)
  | 0 => fun _ _ _ => none
  | fuel + 1 => copyRangeBody rt (UA_Variant_copyRange rt fuel)

/-! ## Variant_setRange -/

/-- The call `memset(array, 0, nbytes)` on an array whose cells take `elem_size` bytes
each: a cell that lies wholly inside the first `nbytes` bytes is zeroed, a cell
that is covered in part becomes indeterminate, the others keep their content. -/
def memsetZero (array : UA_Ptr UA_Value) (elem_size nbytes : Nat) : UA_Ptr UA_Value :=
  match array with
  | .mem cells =>
      .mem (cells.enum.map (fun ic =>
        if (ic.1 + 1) * elem_size ≤ nbytes then UA_Value.zeroed
        else if ic.1 * elem_size < nbytes then UA_Value.uninit
        else ic.2))
  | p => p

/-- The function `Variant_setRange`: the status, the Variant `v` and the source
array afterwards.  The call `deleteMembers_noInit(nextdst, v->type)` of the deep-copy
loop only releases heap storage owned by the cell that `UA_copy` overwrites next;
it leaves no trace in the state kept here. -/
def Variant_setRange (rt : UA_Runtime) (v : UA_Variant) (array : UA_Ptr UA_Value)
    (arraySize : Nat) (range : UA_NumericRange) (copy : Bool) :
    Option (UA_StatusCode × UA_Variant × UA_Ptr UA_Value) :=
  /- Compute the strides. -/
  match computeStrides v range with
  | .error retval => some (retval, v, array)
  | .ok st =>
    let count := st.total
    let block := st.block
    let stride := st.stride
    let first := st.first
    if count ≠ arraySize then some (UA_STATUSCODE_BADINDEXRANGEINVALID, v, array)
    else
      /- Move/copy the elements. -/
      if block = 0 then none
      else
        let block_count := count / block
        match v.type with
        | none => none
        | some type =>
          let elem_size := type.memSize
          let moved : Option (UA_StatusCode × UA_Ptr UA_Value) :=
            if type.fixedSize || !copy then
              (memcpyBlocks array block stride block block_count first 0 v.data).map
                (fun d => (UA_STATUSCODE_GOOD, d))
            else
              (blockLoop (fun c _ => rt.UA_copy c type) (fun old rv => old ||| rv) false false
                array block stride block_count
                { retval := UA_STATUSCODE_GOOD, nextdst := first, nextsrc := 0,
                  dst := v.data }).map
                (fun s => (s.retval, s.dst))
          match moved with
          | none => none
          | some (retval, data) =>
            /- If members were moved, initialize original array to prevent reuse. -/
            let array1 :=
              if !copy && !type.fixedSize then memsetZero array elem_size (sizeof_size_t * arraySize)
              else array
            some (retval, { v with data := data }, array1)

/-- The function `UA_Variant_setRange`. -/
def UA_Variant_setRange (rt : UA_Runtime) (v : UA_Variant) (array : UA_Ptr UA_Value)
    (arraySize : Nat) (range : UA_NumericRange) :
    Option (UA_StatusCode × UA_Variant × UA_Ptr UA_Value) :=
  Variant_setRange rt v array arraySize range false

/-- The function `UA_Variant_setRangeCopy`. -/
def UA_Variant_setRangeCopy (rt : UA_Runtime) (v : UA_Variant) (array : UA_Ptr UA_Value)
    (arraySize : Nat) (range : UA_NumericRange) :
    Option (UA_StatusCode × UA_Variant × UA_Ptr UA_Value) :=
  Variant_setRange rt v array arraySize range true

/-! ## Built-in leaf types -/

/-- Index of `String` in the table `UA_TYPES` (its slot in `copyJumpTable`). -/
def UA_TYPES_STRING : Nat := 11

/-- Index of `Guid` in the table `UA_TYPES` (its slot in `copyJumpTable`). -/
def UA_TYPES_GUID : Nat := 13

/-- Index of `ByteString` in the table `UA_TYPES` (its slot in `copyJumpTable`). -/
def UA_TYPES_BYTESTRING : Nat := 14

/-- Number of built-in types: the jump tables have `UA_BUILTIN_TYPES_COUNT + 1`
entries. -/
def UA_BUILTIN_TYPES_COUNT : Nat := 25

/-- Modelled from the spec: the enumeration `UA_NodeIdType` of `ua_types.h`, which is not
part of the sources at hand.  A NodeId is a tagged union over Numeric, String,
Guid and ByteString; the discriminants are the values of the binary encoding. -/
def UA_NODEIDTYPE_NUMERIC : Nat := 0

/-- Modelled from the spec: discriminant of a String NodeId. -/
def UA_NODEIDTYPE_STRING : Nat := 3

/-- Modelled from the spec: discriminant of a Guid NodeId. -/
def UA_NODEIDTYPE_GUID : Nat := 4

/-- Modelled from the spec: discriminant of a ByteString NodeId. -/
def UA_NODEIDTYPE_BYTESTRING : Nat := 5

/-- Modelled from the spec: the enumeration of the ExtensionObject encodings of
`ua_types.h`, which is not part of the sources at hand: encoded without body, with a
ByteString body, with an XML body, decoded, decoded and not owned. -/
def UA_EXTENSIONOBJECT_ENCODED_NOBODY : Nat := 0

/-- Modelled from the spec: encoded with a ByteString body. -/
def UA_EXTENSIONOBJECT_ENCODED_BYTESTRING : Nat := 1

/-- Modelled from the spec: encoded with an XML body. -/
def UA_EXTENSIONOBJECT_ENCODED_XML : Nat := 2

/-- Modelled from the spec: decoded, the payload owned. -/
def UA_EXTENSIONOBJECT_DECODED : Nat := 3

/-- Modelled from the spec: decoded, the payload borrowed ("no-delete"). -/
def UA_EXTENSIONOBJECT_DECODED_NODELETE : Nat := 4

/-- The constant `UA_GUID_NULL`. -/
def UA_GUID_NULL : UA_Guid :=
  { data1 := 0, data2 := 0, data3 := 0, data4 := [0, 0, 0, 0, 0, 0, 0, 0] }

/-- A `UA_NodeId`; `identifier` is the cell of the union. -/
structure UA_NodeId where
  namespaceIndex : Nat
  identifierType : Nat
  identifier : UA_Value

/-- The constant `UA_NODEID_NULL`. -/
def UA_NODEID_NULL : UA_NodeId :=
  { namespaceIndex := 0, identifierType := UA_NODEIDTYPE_NUMERIC, identifier := .fixed 0 }

/-- Store a NodeId into a cell. -/
def UA_Value.ofNodeId (n : UA_NodeId) : UA_Value :=
  .nodeId n.namespaceIndex n.identifierType n.identifier

/-- Read a cell through a `const UA_NodeId *`; `none` when the cell does not hold a
NodeId. -/
def UA_Value.asNodeId : UA_Value → Option UA_NodeId
  | .nodeId ns t i => some { namespaceIndex := ns, identifierType := t, identifier := i }
  | .zeroed => some { namespaceIndex := 0, identifierType := 0, identifier := .zeroed }
  | _ => none

/-- Read a cell as a `UA_UInt32` (the member `identifier.numeric`). -/
def UA_Value.asNumeric : UA_Value → Option Nat
  | .fixed n => some n
  | .zeroed => some 0
  | _ => none

/-- Read a cell as a `UA_Guid` (the member `identifier.guid`). -/
def UA_Value.asGuid : UA_Value → Option UA_Guid
  | .guid g => some g
  | .zeroed => some UA_GUID_NULL
  | _ => none

/-- Read a cell as one byte. -/
def UA_Value.asByte : UA_Value → Option Nat
  | .fixed b => some b
  | .zeroed => some 0
  | _ => none

/-- The bytes of the first `n` cells behind a pointer; `none` when fewer than `n` cells
can be read as bytes. -/
def readBytes (p : UA_Ptr UA_Value) (n : Nat) : Option (List Nat) :=
  match p with
  | .mem cells => if n ≤ cells.length then (cells.take n).mapM UA_Value.asByte else none
  | _ => none

/-- The test `memcmp(p1, p2, n) == 0`.  Comparing nothing gives equality whatever the
pointers are. -/
def memcmpEq (p1 p2 : UA_Ptr UA_Value) (n : Nat) : Option Bool :=
  if n = 0 then some true
  else
    match readBytes p1 n, readBytes p2 n with
    | some b1, some b2 => some (decide (b1 = b2))
    | _, _ => none

/-- The function `strlen` on a char array: the number of bytes before the first NUL,
`none` when the array holds no NUL. -/
def strlen (src : List Nat) : Option Nat :=
  if src.contains 0 then some (src.takeWhile (fun c => c != 0)).length else none

/-- The function `UA_String_fromChars` on the char array `src`. -/
def UA_String_fromChars (malloc : Nat → Bool) (src : List Nat) : Option UA_String :=
  match strlen src with
  | none => none
  | some length =>
      if length > 0 then
        if !malloc length then some UA_STRING_NULL
        else some { length := length, data := .mem ((src.take length).map UA_Value.fixed) }
      else some { length := length, data := .sentinel }

/-- The function `UA_String_equal`. -/
def UA_String_equal (string1 string2 : UA_String) : Option Bool :=
  if string1.length ≠ string2.length then some false
  else memcmpEq string1.data string2.data string1.length

/-- Modelled from the spec: the inline helper `UA_ByteString_equal` of `ua_types.h`, which is
not part of the sources at hand; a ByteString is a String and is compared as one. -/
def UA_ByteString_equal (string1 string2 : UA_String) : Option Bool :=
  UA_String_equal string1 string2

/-- The function `UA_Guid_equal`: `memcmp` over the sixteen bytes of the struct. -/
def UA_Guid_equal (g1 g2 : UA_Guid) : Bool :=
  g1.data1 == g2.data1 && g1.data2 == g2.data2 && g1.data3 == g2.data3 &&
    (List.range 8).all (fun i => g1.data4.getD i 0 == g2.data4.getD i 0)

/-- The function `UA_NodeId_isNull`. -/
def UA_NodeId_isNull (p : UA_NodeId) : Option Bool :=
  if p.namespaceIndex ≠ 0 then some false
  else if p.identifierType = UA_NODEIDTYPE_NUMERIC then
    p.identifier.asNumeric.map (fun numeric => numeric == 0)
  else if p.identifierType = UA_NODEIDTYPE_GUID then
    p.identifier.asGuid.map (fun guid =>
      guid.data1 == 0 && guid.data2 == 0 && guid.data3 == 0 &&
        guid.data4.getD 0 0 == 0 && guid.data4.getD 1 0 == 0 && guid.data4.getD 2 0 == 0 &&
        guid.data4.getD 3 0 == 0 && guid.data4.getD 4 0 == 0 && guid.data4.getD 5 0 == 0 &&
        guid.data4.getD 6 0 == 0 && guid.data4.getD 7 0 == 0)
  else p.identifier.asString.map (fun string => string.length == 0)

/-- The function `UA_NodeId_equal`. -/
def UA_NodeId_equal (n1 n2 : UA_NodeId) : Option Bool :=
  if n1.namespaceIndex ≠ n2.namespaceIndex ∨ n1.identifierType ≠ n2.identifierType then
    some false
  else if n1.identifierType = UA_NODEIDTYPE_NUMERIC then
    match n1.identifier.asNumeric, n2.identifier.asNumeric with
    | some a, some b => some (a == b)
    | _, _ => none
  else if n1.identifierType = UA_NODEIDTYPE_STRING then
    match n1.identifier.asString, n2.identifier.asString with
    | some a, some b => UA_String_equal a b
    | _, _ => none
  else if n1.identifierType = UA_NODEIDTYPE_GUID then
    match n1.identifier.asGuid, n2.identifier.asGuid with
    | some a, some b => some (UA_Guid_equal a b)
    | _, _ => none
  else if n1.identifierType = UA_NODEIDTYPE_BYTESTRING then
    match n1.identifier.asString, n2.identifier.asString with
    | some a, some b => UA_ByteString_equal a b
    | _, _ => none
  else some false

/-! ## The generic traversal engine: copy

Every copy function below is entered with its destination all zero: `UA_copy` clears
it, `UA_Array_copy` allocates it with `UA_calloc`, and the callers in between write
only what they return.  The functions therefore take the source and give back the
status with the content of the destination.  The recursive calls go through
`CopyFns`, the entry points one level of recursion further down. -/

/-- The tables of type descriptors.  `UA_TYPES` is the table of namespace zero,
`tableOf type` is the table the descriptor `type` is an element of (the C
expression `&type[-type->typeIndex]`).  Neither is part of the sources at hand. -/
structure UA_TypeSystem where
  UA_TYPES : Nat → UA_DataType
  tableOf : UA_DataType → Nat → UA_DataType

/-- The descriptor `mt` of a member: `&typelists[!m->namespaceZero][m->memberTypeIndex]`. -/
def memberType (ts : UA_TypeSystem) (type : UA_DataType) (m : UA_DataTypeMember) :
    UA_DataType :=
  if m.namespaceZero then ts.UA_TYPES m.memberTypeIndex else ts.tableOf type m.memberTypeIndex

/-- The recursive entry points of the copy engine. -/
structure CopyFns where
  copy_noInit : UA_Value → UA_DataType → Option (UA_StatusCode × UA_Value)
  DiagnosticInfo_copy : UA_Value → Option (UA_StatusCode × UA_Value)

/-- The function `UA_deleteMembers` as far as the buffer is concerned: whatever
`deleteMembers_noInit` releases on the heap, the `memset` leaves every byte zero. -/
def UA_deleteMembers (_p : UA_Value) (_type : UA_DataType) : UA_Value := .zeroed

/-- Body of `UA_copy`, after the `memset` of the destination. -/
def UA_copyWith (fns : CopyFns) (src : UA_Value) (type : UA_DataType) :
    Option (UA_StatusCode × UA_Value) :=
  match fns.copy_noInit src type with
  | none => none
  | some (retval, dst) =>
      if retval ≠ UA_STATUSCODE_GOOD then some (retval, UA_deleteMembers dst type)
      else some (retval, dst)

/-- The function `UA_Array_new`. -/
def UA_Array_new (malloc : Nat → Bool) (size : Nat) (type : UA_DataType) : UA_Ptr UA_Value :=
  if size = 0 then .sentinel
  else if malloc (size * type.memSize) then .mem (List.replicate size .zeroed)
  else .null

/-- Body of `UA_Array_copy`: the status and the pointer left in `*dst`, which held
`dst` before. -/
def UA_Array_copyWith (malloc : Nat → Bool) (fns : CopyFns) (src : UA_Ptr UA_Value)
    (src_size : Nat) (dst : UA_Ptr UA_Value) (type : Option UA_DataType) :
    Option (UA_StatusCode × UA_Ptr UA_Value) :=
  if src_size = 0 then
    match src with
    | .null => some (UA_STATUSCODE_GOOD, .null)
    | _ => some (UA_STATUSCODE_GOOD, .sentinel)
  else
    match type with
    | none => some (UA_STATUSCODE_BADINTERNALERROR, dst)
    | some type =>
        /- calloc, so we don't have to check retval in every iteration of copying -/
        if !malloc (src_size * type.memSize) then some (UA_STATUSCODE_BADOUTOFMEMORY, .null)
        else
          let fresh : UA_Ptr UA_Value := .mem (List.replicate src_size .zeroed)
          if type.fixedSize then
            match memcpy fresh 0 src 0 src_size with
            | none => none
            | some d => some (UA_STATUSCODE_GOOD, d)
          else
            match elementLoop (fun c _ => UA_copyWith fns c type) (fun old rv => old ||| rv)
                false src src_size
                { retval := UA_STATUSCODE_GOOD, nextdst := 0, nextsrc := 0, dst := fresh } with
            | none => none
            | some s =>
                if s.retval ≠ UA_STATUSCODE_GOOD then some (s.retval, .null)
                else some (s.retval, s.dst)

/-- Modelled from the spec: the generated inline helper `UA_String_copy` of
`ua_types_generated_handling.h`, which is not part of the sources at hand: the generic
`UA_copy` with the String descriptor of `UA_TYPES`. -/
def UA_String_copyWith (ts : UA_TypeSystem) (fns : CopyFns) (src : UA_Value) :
    Option (UA_StatusCode × UA_Value) :=
  UA_copyWith fns src (ts.UA_TYPES UA_TYPES_STRING)

/-- Modelled from the spec: the generated inline helper `UA_ByteString_copy`, which is not
part of the sources at hand: the generic `UA_copy` with the ByteString descriptor of
`UA_TYPES`. -/
def UA_ByteString_copyWith (ts : UA_TypeSystem) (fns : CopyFns) (src : UA_Value) :
    Option (UA_StatusCode × UA_Value) :=
  UA_copyWith fns src (ts.UA_TYPES UA_TYPES_BYTESTRING)

/-- Modelled from the spec: the generated inline helper `UA_Guid_copy`, which is not part
of the sources at hand: the generic `UA_copy` with the Guid descriptor of `UA_TYPES`. -/
def UA_Guid_copyWith (ts : UA_TypeSystem) (fns : CopyFns) (src : UA_Value) :
    Option (UA_StatusCode × UA_Value) :=
  UA_copyWith fns src (ts.UA_TYPES UA_TYPES_GUID)

/-- Body of `NodeId_copy`. -/
def NodeId_copyWith (ts : UA_TypeSystem) (fns : CopyFns) (src : UA_NodeId) :
    Option (UA_StatusCode × UA_Value) :=
  let member (r : Option (UA_StatusCode × UA_Value)) : Option (UA_StatusCode × UA_Value) :=
    match r with
    | none => none
    | some (rv, identifier) =>
        some (UA_STATUSCODE_GOOD ||| rv,
          .nodeId src.namespaceIndex src.identifierType identifier)
  if src.identifierType = UA_NODEIDTYPE_NUMERIC then
    some (UA_STATUSCODE_GOOD, UA_Value.ofNodeId src)
  else if src.identifierType = UA_NODEIDTYPE_STRING then
    member (UA_String_copyWith ts fns src.identifier)
  else if src.identifierType = UA_NODEIDTYPE_GUID then
    member (UA_Guid_copyWith ts fns src.identifier)
  else if src.identifierType = UA_NODEIDTYPE_BYTESTRING then
    member (UA_ByteString_copyWith ts fns src.identifier)
  else some (UA_STATUSCODE_BADINTERNALERROR, .zeroed)

/-- Body of `ExpandedNodeId_copy`. -/
def ExpandedNodeId_copyWith (ts : UA_TypeSystem) (fns : CopyFns) (src : UA_Value) :
    Option (UA_StatusCode × UA_Value) :=
  match src with
  | .expandedNodeId nodeId namespaceUri serverIndex =>
      match nodeId.asNodeId with
      | none => none
      | some n =>
          match NodeId_copyWith ts fns n, UA_String_copyWith ts fns namespaceUri with
          | some (retval, dnode), some (rv, duri) =>
              some (retval ||| rv, .expandedNodeId dnode duri serverIndex)
          | _, _ => none
  | .zeroed =>
      match NodeId_copyWith ts fns UA_NODEID_NULL, UA_String_copyWith ts fns .zeroed with
      | some (retval, dnode), some (rv, duri) =>
          some (retval ||| rv, .expandedNodeId dnode duri 0)
      | _, _ => none
  | _ => none

/-- Body of `LocalizedText_copy`. -/
def LocalizedText_copyWith (ts : UA_TypeSystem) (fns : CopyFns) (src : UA_Value) :
    Option (UA_StatusCode × UA_Value) :=
  let both (locale text : UA_Value) : Option (UA_StatusCode × UA_Value) :=
    match UA_String_copyWith ts fns locale, UA_String_copyWith ts fns text with
    | some (retval, dlocale), some (rv, dtext) =>
        some (retval ||| rv, .localizedText dlocale dtext)
    | _, _ => none
  match src with
  | .localizedText locale text => both locale text
  | .zeroed => both .zeroed .zeroed
  | _ => none

/-- Body of `ExtensionObject_copy`. -/
def ExtensionObject_copyWith (ts : UA_TypeSystem) (malloc : Nat → Bool) (fns : CopyFns)
    (src : UA_Value) : Option (UA_StatusCode × UA_Value) :=
  let encoded (encoding : Nat) (typeId body : UA_Value) : Option (UA_StatusCode × UA_Value) :=
    match typeId.asNodeId with
    | none => none
    | some n =>
        match NodeId_copyWith ts fns n, UA_ByteString_copyWith ts fns body with
        | some (retval, dtype), some (rv, dbody) =>
            some (retval ||| rv, .extensionObjectEncoded encoding dtype dbody)
        | _, _ => none
  let decoded (type : Option UA_DataType) (data : UA_Ptr UA_Value) :
      Option (UA_StatusCode × UA_Value) :=
    match type, data with
    | none, _ => some (UA_STATUSCODE_BADINTERNALERROR, .zeroed)
    | _, .null => some (UA_STATUSCODE_BADINTERNALERROR, .zeroed)
    | some t, _ =>
        match UA_Array_copyWith malloc fns data 1 .null (some t) with
        | none => none
        | some (retval, ddata) =>
            some (retval, .extensionObjectDecoded UA_EXTENSIONOBJECT_DECODED (some t) ddata)
  match src with
  | .extensionObjectEncoded encoding typeId body =>
      if encoding = UA_EXTENSIONOBJECT_ENCODED_NOBODY ∨
          encoding = UA_EXTENSIONOBJECT_ENCODED_BYTESTRING ∨
          encoding = UA_EXTENSIONOBJECT_ENCODED_XML then encoded encoding typeId body
      else if encoding = UA_EXTENSIONOBJECT_DECODED ∨
          encoding = UA_EXTENSIONOBJECT_DECODED_NODELETE then none
      else some (UA_STATUSCODE_GOOD, .zeroed)
  | .extensionObjectDecoded encoding type data =>
      if encoding = UA_EXTENSIONOBJECT_ENCODED_NOBODY ∨
          encoding = UA_EXTENSIONOBJECT_ENCODED_BYTESTRING ∨
          encoding = UA_EXTENSIONOBJECT_ENCODED_XML then none
      else if encoding = UA_EXTENSIONOBJECT_DECODED ∨
          encoding = UA_EXTENSIONOBJECT_DECODED_NODELETE then decoded type data
      else some (UA_STATUSCODE_GOOD, .zeroed)
  | .zeroed => encoded UA_EXTENSIONOBJECT_ENCODED_NOBODY .zeroed .zeroed
  | _ => none

/-- Body of `Variant_copy`. -/
def Variant_copyWith (malloc : Nat → Bool) (fns : CopyFns) (src : UA_Variant) :
    Option (UA_StatusCode × UA_Variant) :=
  let length := if UA_Variant_isScalar src then 1 else src.arrayLength
  match UA_Array_copyWith malloc fns src.data length .null src.type with
  | none => none
  | some (retval, data) =>
      if retval ≠ UA_STATUSCODE_GOOD then some (retval, { UA_Variant_init with data := data })
      else
        let dst : UA_Variant :=
          { UA_Variant_init with data := data, arrayLength := src.arrayLength, type := src.type }
        /- `if(src->arrayDimensions)`: an `arrayDimensions` array is present -/
        if src.arrayDimensionsSize > 0 then
          if !malloc (src.arrayDimensionsSize * sizeof_UInt32) then
            some (UA_STATUSCODE_BADOUTOFMEMORY, dst)
          else some (UA_STATUSCODE_GOOD, { dst with arrayDimensions := src.arrayDimensions })
        else some (UA_STATUSCODE_GOOD, dst)

/-- Body of `DataValue_copy`. -/
def DataValue_copyWith (malloc : Nat → Bool) (fns : CopyFns) (src : UA_Value) :
    Option (UA_StatusCode × UA_Value) :=
  let run (scalars : Nat) (value : UA_Value) : Option (UA_StatusCode × UA_Value) :=
    match value.asVariant with
    | none => none
    | some v =>
        match Variant_copyWith malloc fns v with
        | none => none
        | some (retval, dvalue) =>
            if retval ≠ UA_STATUSCODE_GOOD then
              some (retval, .dataValue scalars (UA_Value.ofVariant (Variant_deletemembers dvalue)))
            else some (retval, .dataValue scalars (UA_Value.ofVariant dvalue))
  match src with
  | .dataValue scalars value => run scalars value
  | .zeroed => run 0 .zeroed
  | _ => none

/-- Size of `UA_DiagnosticInfo` in bytes on the 64-bit platform. -/
def sizeof_DiagnosticInfo : Nat := 56

/-- Body of `DiagnosticInfo_copy`. -/
def DiagnosticInfo_copyWith (ts : UA_TypeSystem) (malloc : Nat → Bool) (fns : CopyFns)
    (src : UA_Value) : Option (UA_StatusCode × UA_Value) :=
  let run (scalars : Nat) (hasAdditionalInfo hasInnerDiagnosticInfo : Bool)
      (additionalInfo : UA_Value) (innerDiagnosticInfo : UA_Ptr UA_Value) :
      Option (UA_StatusCode × UA_Value) :=
    let info : Option (UA_StatusCode × UA_Value) :=
      if hasAdditionalInfo then UA_String_copyWith ts fns additionalInfo
      else some (UA_STATUSCODE_GOOD, UA_Value.ofString UA_STRING_NULL)
    match info with
    | none => none
    | some (retval, dinfo) =>
        let withInner : Bool :=
          hasInnerDiagnosticInfo &&
            (match innerDiagnosticInfo with
             | .null => false
             | _ => true)
        if withInner then
          if malloc sizeof_DiagnosticInfo then
            match loadCell innerDiagnosticInfo 0 with
            | none => none
            | some inner =>
                match fns.DiagnosticInfo_copy inner with
                | none => none
                | some (rv, dinner) =>
                    some (retval ||| rv,
                      .diagnosticInfo scalars hasAdditionalInfo true dinfo (.mem [dinner]))
          else
            some (retval ||| UA_STATUSCODE_BADOUTOFMEMORY,
              .diagnosticInfo scalars hasAdditionalInfo false dinfo .null)
        else
          some (retval,
            .diagnosticInfo scalars hasAdditionalInfo hasInnerDiagnosticInfo dinfo .null)
  match src with
  | .diagnosticInfo scalars hasInfo hasInner additionalInfo inner =>
      run scalars hasInfo hasInner additionalInfo inner
  | .zeroed => run 0 false false .zeroed .null
  | _ => none

/-- The functions `copyByte`, `copy2Byte`, `copy4Byte` and `copy8Byte`: `*dst = *src`. -/
def copyScalar (src : UA_Value) : Option (UA_StatusCode × UA_Value) :=
  match src with
  | .fixed b => some (UA_STATUSCODE_GOOD, .fixed b)
  | .zeroed => some (UA_STATUSCODE_GOOD, .zeroed)
  | _ => none

/-- The function `copyGuid`: `*dst = *src`. -/
def copyGuid (src : UA_Value) : Option (UA_StatusCode × UA_Value) :=
  match src with
  | .guid g => some (UA_STATUSCODE_GOOD, .guid g)
  | .zeroed => some (UA_STATUSCODE_GOOD, .zeroed)
  | _ => none

/-- The table `copyJumpTable`, entry `fi`, called on the member `src` of type `mt`. -/
def copyJumpTable (ts : UA_TypeSystem) (malloc : Nat → Bool) (fns : CopyFns) (fi : Nat)
    (src : UA_Value) (mt : UA_DataType) : Option (UA_StatusCode × UA_Value) :=
  match fi with
  | 0 => copyScalar src /- Boolean -/
  | 1 => copyScalar src /- SByte -/
  | 2 => copyScalar src /- Byte -/
  | 3 => copyScalar src /- Int16 -/
  | 4 => copyScalar src /- UInt16 -/
  | 5 => copyScalar src /- Int32 -/
  | 6 => copyScalar src /- UInt32 -/
  | 7 => copyScalar src /- Int64 -/
  | 8 => copyScalar src /- UInt64 -/
  | 9 => copyScalar src /- Float -/
  | 10 => copyScalar src /- Double -/
  | 11 => fns.copy_noInit src mt /- String -/
  | 12 => copyScalar src /- DateTime -/
  | 13 => copyGuid src /- Guid -/
  | 14 => fns.copy_noInit src mt /- ByteString -/
  | 15 => fns.copy_noInit src mt /- XmlElement -/
  | 16 =>
      match src.asNodeId with
      | none => none
      | some n => NodeId_copyWith ts fns n
  | 17 => ExpandedNodeId_copyWith ts fns src
  | 18 => copyScalar src /- StatusCode -/
  | 19 => fns.copy_noInit src mt /- QualifiedName -/
  | 20 => LocalizedText_copyWith ts fns src
  | 21 => ExtensionObject_copyWith ts malloc fns src
  | 22 => DataValue_copyWith malloc fns src
  | 23 =>
      match src.asVariant with
      | none => none
      | some v => (Variant_copyWith malloc fns v).map (fun r => (r.1, UA_Value.ofVariant r.2))
  | 24 => DiagnosticInfo_copyWith ts malloc fns src
  | 25 => fns.copy_noInit src mt /- all others -/
  | _ => none

/-- The cells of the members of a value of a type with `membersSize` members: the
cells of a `struct`, all-zero cells for zeroed memory; a value of a type with a
single member is laid out as that member. -/
def memberCells (src : UA_Value) (membersSize : Nat) : Option (List UA_Value) :=
  match src with
  | .struct members => if members.length = membersSize then some members else none
  | .zeroed => some (List.replicate membersSize .zeroed)
  | c => if membersSize = 1 then some [c] else none

/-- The destination assembled from the cells of its members, in the layout of the
source. -/
def joinMembers (src : UA_Value) (members : List UA_Value) : UA_Value :=
  match src, members with
  | .struct _, ms => .struct ms
  | _, [m] => m
  | _, [] => .zeroed
  | _, ms => .struct ms

/-- The loop over the members in `copy_noInit`. -/
def copy_noInit.members (ts : UA_TypeSystem) (malloc : Nat → Bool) (fns : CopyFns)
    (type : UA_DataType) :
    List UA_DataTypeMember → List UA_Value → UA_StatusCode →
      Option (UA_StatusCode × List UA_Value)
  | [], _, retval => some (retval, [])
  | _ :: _, [], _ => none
  | m :: ms, c :: cs, retval =>
      let mt := memberType ts type m
      if !m.isArray then
        let fi := if mt.builtin then mt.typeIndex else UA_BUILTIN_TYPES_COUNT
        match copyJumpTable ts malloc fns fi c mt with
        | none => none
        | some (rv, d) =>
            match copy_noInit.members ts malloc fns type ms cs (retval ||| rv) with
            | none => none
            | some (r, ds) => some (r, d :: ds)
      else
        match c.asString with
        | none => none
        | some a =>
            match UA_Array_copyWith malloc fns a.data a.length .null (some mt) with
            | none => none
            | some (rv, p) =>
                let retval1 := retval ||| rv
                let dst_size := if retval1 = UA_STATUSCODE_GOOD then a.length else 0
                match copy_noInit.members ts malloc fns type ms cs retval1 with
                | none => none
                | some (r, ds) => some (r, .string dst_size p :: ds)

/-- Body of `copy_noInit`. -/
def copy_noInitWith (ts : UA_TypeSystem) (malloc : Nat → Bool) (fns : CopyFns)
    (src : UA_Value) (type : UA_DataType) : Option (UA_StatusCode × UA_Value) :=
  if type.members.length < type.membersSize then none
  else
    match memberCells src type.membersSize with
    | none => none
    | some cells =>
        match copy_noInit.members ts malloc fns type (type.members.take type.membersSize) cells
            UA_STATUSCODE_GOOD with
        | none => none
        | some (retval, ds) => some (retval, joinMembers src ds)

/-- The recursive entry points with the given bound on the depth of recursion;
with none left the calls are undefined. -/
def copyFns (ts : UA_TypeSystem) (malloc : Nat → Bool) : Nat → CopyFns
  | 0 => { copy_noInit := fun _ _ => none, DiagnosticInfo_copy := fun _ => none }
  | fuel + 1 =>
      { copy_noInit := copy_noInitWith ts malloc (copyFns ts malloc fuel),
        DiagnosticInfo_copy := DiagnosticInfo_copyWith ts malloc (copyFns ts malloc fuel) }

/-- The function `copy_noInit`. -/
def copy_noInit (ts : UA_TypeSystem) (malloc : Nat → Bool) (fuel : Nat) (src : UA_Value)
    (type : UA_DataType) : Option (UA_StatusCode × UA_Value) :=
  (copyFns ts malloc fuel).copy_noInit src type

/-- The function `UA_copy`: the status and the content of `dst`, whose previous content the
opening `memset` wipes out. -/
def UA_copy (ts : UA_TypeSystem) (malloc : Nat → Bool) (fuel : Nat) (src _dst : UA_Value)
    (type : UA_DataType) : Option (UA_StatusCode × UA_Value) :=
  UA_copyWith (copyFns ts malloc fuel) src type

/-- The function `UA_Array_copy`. -/
def UA_Array_copy (ts : UA_TypeSystem) (malloc : Nat → Bool) (fuel : Nat)
    (src : UA_Ptr UA_Value) (src_size : Nat) (dst : UA_Ptr UA_Value)
    (type : Option UA_DataType) : Option (UA_StatusCode × UA_Ptr UA_Value) :=
  UA_Array_copyWith malloc (copyFns ts malloc fuel) src src_size dst type

/-- The function `NodeId_copy` into a zero-initialised destination. -/
def NodeId_copy (ts : UA_TypeSystem) (malloc : Nat → Bool) (fuel : Nat) (src : UA_NodeId) :
    Option (UA_StatusCode × UA_Value) :=
  NodeId_copyWith ts (copyFns ts malloc fuel) src

/-- The function `ExtensionObject_copy` into a zero-initialised destination. -/
def ExtensionObject_copy (ts : UA_TypeSystem) (malloc : Nat → Bool) (fuel : Nat)
    (src : UA_Value) : Option (UA_StatusCode × UA_Value) :=
  ExtensionObject_copyWith ts malloc (copyFns ts malloc fuel) src

/-! ## DateTime -/

/-- Smallest value of `UA_DateTime`, an `int64_t`. -/
def INT64_MIN : Int := -9223372036854775808

/-- Largest value of `UA_DateTime`, an `int64_t`. -/
def INT64_MAX : Int := 9223372036854775807

/-- Modelled from the spec: the constant `UA_SEC_TO_DATETIME` of `ua_types.h`, which is not
part of the sources at hand: the number of 100-ns ticks in a second. -/
def UA_SEC_TO_DATETIME : Int := 10000000

/-- Modelled from the spec: the constant `UA_DATETIME_UNIX_EPOCH` of `ua_types.h`, which is
not part of the sources at hand: the ticks from 1601-01-01 to 1970-01-01. -/
def UA_DATETIME_UNIX_EPOCH : Int := 11644473600 * UA_SEC_TO_DATETIME

/-- The cast `(UA_UInt16)x`. -/
def u16 (x : Int) : Nat := (x % 65536).toNat

/-- The fields of `struct tm` that `UA_DateTime_toStruct` reads. -/
structure tm where
  tm_sec : Int
  tm_min : Int
  tm_hour : Int
  tm_mday : Int
  tm_mon : Int
  tm_year : Int
deriving DecidableEq, Repr

/-- The structure `UA_DateTimeStruct`; every field is a `UA_UInt16`. -/
structure UA_DateTimeStruct where
  nanoSec : Nat
  microSec : Nat
  milliSec : Nat
  sec : Nat
  min : Nat
  hour : Nat
  day : Nat
  month : Nat
  year : Nat
deriving DecidableEq, Repr

/-- The function `UA_DateTime_toStruct` on a `UA_DateTime` `t`.  `secs_to_tm` is the
function `__secs_to_tm` of `libc_time.h`, which is not part of the sources at hand: it
gives the content of `ts` after the call.  The operators `%` and `/` of C truncate
towards zero; the result is `none` when `t - UA_DATETIME_UNIX_EPOCH` overflows
`int64_t`. -/
def UA_DateTime_toStruct (secs_to_tm : Int → tm) (t : Int) : Option UA_DateTimeStruct :=
  if t - UA_DATETIME_UNIX_EPOCH < INT64_MIN then none
  else
    /- Calculating the unix time -/
    let secSinceUnixEpoch := Int.tdiv (t - UA_DATETIME_UNIX_EPOCH) UA_SEC_TO_DATETIME
    let ts := secs_to_tm secSinceUnixEpoch
    some
      { nanoSec := u16 (Int.tmod t 10 * 100),
        microSec := u16 (Int.tdiv (Int.tmod t 10000) 10),
        milliSec := u16 (Int.tdiv (Int.tmod t 10000000) 10000),
        sec := u16 ts.tm_sec,
        min := u16 ts.tm_min,
        hour := u16 ts.tm_hour,
        day := u16 ts.tm_mday,
        month := u16 (ts.tm_mon + 1),
        year := u16 (ts.tm_year + 1900) }

/-- The function `printNumber`: the `digits` cells from index `pos` of the buffer `data`
receive the low decimal digits of `n`, the last cell first. -/
def printNumber (n : Nat) (data : UA_Ptr UA_Value) (pos digits : Nat) :
    Option (UA_Ptr UA_Value) :=
  match digits with
  | 0 => some data
  | i + 1 =>
      match storeCell data (pos + i) (.fixed (n % 10 + 48)) with
      | none => none
      | some data1 => printNumber (n / 10) data1 pos i

/-- The statements of `UA_DateTime_toString` after the allocation, in their order: each
writes into the buffer. -/
def UA_DateTime_toString.writes (tSt : UA_DateTimeStruct) :
    List (UA_Ptr UA_Value → Option (UA_Ptr UA_Value)) :=
  [fun d => printNumber tSt.month d 0 2,
   fun d => storeCell d 2 (.fixed 47),
   fun d => printNumber tSt.day d 3 2,
   fun d => storeCell d 5 (.fixed 47),
   fun d => printNumber tSt.year d 6 4,
   fun d => storeCell d 10 (.fixed 32),
   fun d => printNumber tSt.hour d 11 2,
   fun d => storeCell d 13 (.fixed 58),
   fun d => printNumber tSt.min d 14 2,
   fun d => storeCell d 16 (.fixed 58),
   fun d => printNumber tSt.sec d 17 2,
   fun d => storeCell d 19 (.fixed 46),
   fun d => printNumber tSt.milliSec d 20 3,
   fun d => storeCell d 23 (.fixed 46),
   fun d => printNumber tSt.microSec d 24 3,
   fun d => storeCell d 27 (.fixed 46),
   fun d => printNumber tSt.nanoSec d 28 3]

/-- Run a sequence of writes on a buffer; an undefined write makes the whole
sequence undefined. -/
def runWrites : List (UA_Ptr UA_Value → Option (UA_Ptr UA_Value)) → UA_Ptr UA_Value →
    Option (UA_Ptr UA_Value)
  | [], d => some d
  | w :: ws, d =>
      match w d with
      | none => none
      | some d1 => runWrites ws d1

/-- The function `UA_DateTime_toString`. -/
def UA_DateTime_toString (malloc : Nat → Bool) (secs_to_tm : Int → tm) (t : Int) :
    Option UA_String :=
  /- length of the string is 31 (plus \0 at the end) -/
  if !malloc 32 then some UA_STRING_NULL
  else
    match UA_DateTime_toStruct secs_to_tm t with
    | none => none
    | some tSt =>
        match runWrites (UA_DateTime_toString.writes tSt) (.mem (List.replicate 32 .uninit)) with
        | none => none
        | some data => some { length := 31, data := data }

/-! ## Guid -/

/-- The function `UA_Guid_random`.  `pcg32_random_r` is the generator of `pcg_basic.h`,
which is not part of the sources at hand: a step from the state `UA_rng` to a
number and the next state.  The result is the Guid and the state after the four
draws. -/
def UA_Guid_random {σ : Type} (pcg32_random_r : σ → Nat × σ) (UA_rng : σ) : UA_Guid × σ :=
  let (r0, rng1) := pcg32_random_r UA_rng
  let data1 := u32 r0
  let (r1, rng2) := pcg32_random_r rng1
  let r := u32 r1
  let data2 := r % 65536
  let data3 := (r >>> 16) % 65536
  let (r2, rng3) := pcg32_random_r rng2
  let r := u32 r2
  let low := [r % 256, (r >>> 4) % 256, (r >>> 8) % 256, (r >>> 12) % 256]
  let (r3, rng4) := pcg32_random_r rng3
  let r := u32 r3
  let high := [r % 256, (r >>> 4) % 256, (r >>> 8) % 256, (r >>> 12) % 256]
  ({ data1 := data1, data2 := data2, data3 := data3, data4 := low ++ high }, rng4)

/-! ## The generic traversal engine: delete

The delete functions of the built-in kinds and the traversal of a descriptor, on the
footing of `UA_free`, `DeleteFns` and `UA_Array_delete` defined with the memory model:
every function gives the allocations it hands to `UA_free`, `none` stands for
undefined behaviour. -/

/-- The function `String_deleteMembers`. -/
def String_deleteMembers (s : UA_Value) : Option (List (List UA_Value)) :=
  match s.asString with
  | none => none
  | some str => UA_free (clearSentinel str.data)

/-- The function `NodeId_deleteMembers`. -/
def NodeId_deleteMembers (p : UA_Value) : Option (List (List UA_Value)) :=
  match p.asNodeId with
  | none => none
  | some n =>
      if n.identifierType = UA_NODEIDTYPE_STRING ∨
          n.identifierType = UA_NODEIDTYPE_BYTESTRING then
        String_deleteMembers n.identifier
      else some []

/-- The function `ExpandedNodeId_deleteMembers`. -/
def ExpandedNodeId_deleteMembers (p : UA_Value) : Option (List (List UA_Value)) :=
  match p with
  | .expandedNodeId nodeId namespaceUri _ =>
      andThen (NodeId_deleteMembers nodeId) (String_deleteMembers namespaceUri)
  | .zeroed => andThen (NodeId_deleteMembers .zeroed) (String_deleteMembers .zeroed)
  | _ => none

/-- The function `LocalizedText_deleteMembers`. -/
def LocalizedText_deleteMembers (p : UA_Value) : Option (List (List UA_Value)) :=
  match p with
  | .localizedText locale text => andThen (String_deleteMembers locale) (String_deleteMembers text)
  | .zeroed => andThen (String_deleteMembers .zeroed) (String_deleteMembers .zeroed)
  | _ => none

/-- Body of `UA_delete` on a pointer to one value. -/
def UA_deleteWith (fns : DeleteFns) (p : UA_Ptr UA_Value) (type : UA_DataType) :
    Option (List (List UA_Value)) :=
  match loadCell p 0 with
  | none => none
  | some c => andThen (fns.deleteMembers_noInit c type) (UA_free p)

/-- Body of `Variant_deletemembers`, the storage it releases: the data array with its
elements, and the `arrayDimensions` array when there is one. -/
def Variant_deletemembersWith (fns : DeleteFns) (p : UA_Variant) :
    Option (List (List UA_Value)) :=
  if p.storageType != UA_VARIANT_DATA then some []
  else
    let data : Option (List (List UA_Value)) :=
      match p.type, p.data with
      | some type, .mem _ =>
          UA_Array_deleteWith fns p.data (if p.arrayLength = 0 then 1 else p.arrayLength) type
      | some type, .freed =>
          UA_Array_deleteWith fns p.data (if p.arrayLength = 0 then 1 else p.arrayLength) type
      | _, _ => some []
    let dimensions : Option (List (List UA_Value)) :=
      if p.arrayDimensionsSize > 0 then some [p.arrayDimensions.map UA_Value.fixed] else some []
    andThen data dimensions

/-- Body of `ExtensionObject_deleteMembers`. -/
def ExtensionObject_deleteMembersWith (fns : DeleteFns) (p : UA_Value) :
    Option (List (List UA_Value)) :=
  match p with
  | .extensionObjectEncoded encoding typeId body =>
      if encoding = UA_EXTENSIONOBJECT_ENCODED_NOBODY ∨
          encoding = UA_EXTENSIONOBJECT_ENCODED_BYTESTRING ∨
          encoding = UA_EXTENSIONOBJECT_ENCODED_XML then
        andThen (NodeId_deleteMembers typeId) (String_deleteMembers body)
      else if encoding = UA_EXTENSIONOBJECT_DECODED then none
      else some []
  | .extensionObjectDecoded encoding type data =>
      if encoding = UA_EXTENSIONOBJECT_ENCODED_NOBODY ∨
          encoding = UA_EXTENSIONOBJECT_ENCODED_BYTESTRING ∨
          encoding = UA_EXTENSIONOBJECT_ENCODED_XML then none
      else if encoding = UA_EXTENSIONOBJECT_DECODED then
        match data, type with
        | .null, _ => some []
        | _, none => none
        | _, some t => UA_deleteWith fns data t
      else some []
  | .zeroed => andThen (NodeId_deleteMembers .zeroed) (String_deleteMembers .zeroed)
  | _ => none

/-- Body of `DataValue_deleteMembers`. -/
def DataValue_deleteMembersWith (fns : DeleteFns) (p : UA_Value) :
    Option (List (List UA_Value)) :=
  match p with
  | .dataValue _ value =>
      match value.asVariant with
      | none => none
      | some v => Variant_deletemembersWith fns v
  | .zeroed => Variant_deletemembersWith fns UA_Variant_init
  | _ => none

/-- Body of `DiagnosticInfo_deleteMembers`. -/
def DiagnosticInfo_deleteMembersWith (fns : DeleteFns) (p : UA_Value) :
    Option (List (List UA_Value)) :=
  let run (hasInnerDiagnosticInfo : Bool) (additionalInfo : UA_Value)
      (innerDiagnosticInfo : UA_Ptr UA_Value) : Option (List (List UA_Value)) :=
    let withInner : Bool :=
      hasInnerDiagnosticInfo &&
        (match innerDiagnosticInfo with
         | .null => false
         | _ => true)
    andThen (String_deleteMembers additionalInfo)
      (if withInner then
        match loadCell innerDiagnosticInfo 0 with
        | none => none
        | some inner =>
            andThen (fns.DiagnosticInfo_deleteMembers inner) (UA_free innerDiagnosticInfo)
      else some [])
  match p with
  | .diagnosticInfo _ _ hasInner additionalInfo inner => run hasInner additionalInfo inner
  | .zeroed => run false .zeroed .null
  | _ => none

/-- The table `deleteMembersJumpTable`, entry `fi`, called on the member `p` of type `mt`. -/
def deleteMembersJumpTable (fns : DeleteFns) (fi : Nat) (p : UA_Value) (mt : UA_DataType) :
    Option (List (List UA_Value)) :=
  match fi with
  | 0 => some [] /- Boolean -/
  | 1 => some [] /- SByte -/
  | 2 => some [] /- Byte -/
  | 3 => some [] /- Int16 -/
  | 4 => some [] /- UInt16 -/
  | 5 => some [] /- Int32 -/
  | 6 => some [] /- UInt32 -/
  | 7 => some [] /- Int64 -/
  | 8 => some [] /- UInt64 -/
  | 9 => some [] /- Float -/
  | 10 => some [] /- Double -/
  | 11 => String_deleteMembers p /- String -/
  | 12 => some [] /- DateTime -/
  | 13 => some [] /- Guid -/
  | 14 => String_deleteMembers p /- ByteString -/
  | 15 => String_deleteMembers p /- XmlElement -/
  | 16 => NodeId_deleteMembers p
  | 17 => ExpandedNodeId_deleteMembers p
  | 18 => some [] /- StatusCode -/
  | 19 => fns.deleteMembers_noInit p mt /- QualifiedName -/
  | 20 => LocalizedText_deleteMembers p
  | 21 => ExtensionObject_deleteMembersWith fns p
  | 22 => DataValue_deleteMembersWith fns p
  | 23 =>
      match p.asVariant with
      | none => none
      | some v => Variant_deletemembersWith fns v
  | 24 => DiagnosticInfo_deleteMembersWith fns p
  | 25 => fns.deleteMembers_noInit p mt
  | _ => none

/-- The loop over the members in `deleteMembers_noInit`. -/
def deleteMembers_noInit.members (ts : UA_TypeSystem) (fns : DeleteFns) (type : UA_DataType) :
    List UA_DataTypeMember → List UA_Value → Option (List (List UA_Value))
  | [], _ => some []
  | _ :: _, [] => none
  | m :: ms, c :: cs =>
      let mt := memberType ts type m
      if !m.isArray then
        let fi := if mt.builtin then mt.typeIndex else UA_BUILTIN_TYPES_COUNT
        andThen (deleteMembersJumpTable fns fi c mt)
          (deleteMembers_noInit.members ts fns type ms cs)
      else
        match c.asString with
        | none => none
        | some a =>
            andThen (UA_Array_deleteWith fns a.data a.length mt)
              (deleteMembers_noInit.members ts fns type ms cs)

/-- Body of `deleteMembers_noInit`. -/
def deleteMembers_noInitWith (ts : UA_TypeSystem) (fns : DeleteFns) (p : UA_Value)
    (type : UA_DataType) : Option (List (List UA_Value)) :=
  if type.members.length < type.membersSize then none
  else
    match memberCells p type.membersSize with
    | none => none
    | some cells =>
        deleteMembers_noInit.members ts fns type (type.members.take type.membersSize) cells

/-- The recursive entry points with the given bound on the depth of recursion;
with none left the calls are undefined. -/
def deleteFns (ts : UA_TypeSystem) : Nat → DeleteFns
  | 0 => { deleteMembers_noInit := fun _ _ => none, DiagnosticInfo_deleteMembers := fun _ => none }
  | fuel + 1 =>
      { deleteMembers_noInit := deleteMembers_noInitWith ts (deleteFns ts fuel),
        DiagnosticInfo_deleteMembers := DiagnosticInfo_deleteMembersWith (deleteFns ts fuel) }

/-- The function `deleteMembers_noInit`: the allocations it releases. -/
def deleteMembers_noInit (ts : UA_TypeSystem) (fuel : Nat) (p : UA_Value) (type : UA_DataType) :
    Option (List (List UA_Value)) :=
  (deleteFns ts fuel).deleteMembers_noInit p type

/-- The function `UA_Array_delete`: the allocations it releases. -/
def UA_Array_delete (ts : UA_TypeSystem) (fuel : Nat) (p : UA_Ptr UA_Value) (size : Nat)
    (type : UA_DataType) : Option (List (List UA_Value)) :=
  UA_Array_deleteWith (deleteFns ts fuel) p size type

/-- The function `UA_delete`: the allocations it releases. -/
def UA_delete (ts : UA_TypeSystem) (fuel : Nat) (p : UA_Ptr UA_Value) (type : UA_DataType) :
    Option (List (List UA_Value)) :=
  UA_deleteWith (deleteFns ts fuel) p type

/-! ## The run-time of the range engine -/

/-- The run-time of the range engine made of an allocator, the generic `UA_copy` and the
generic delete engine. -/
def engineRuntime (ts : UA_TypeSystem) (malloc : Nat → Bool) (fuel : Nat) : UA_Runtime :=
  { UA_malloc := malloc,
    UA_copy := fun src type => UA_copy ts malloc fuel src .uninit type,
    deleteFns := deleteFns ts fuel }

/-! ## Shapes, ranges and the outputs of computeStrides -/

/-- Number of indices in the closed interval of one range dimension. -/
def rangeWidth (r : UA_NumericRangeDimension) : Nat := r.max - r.min + 1

/-- Number of elements a range selects: the product of its widths. -/
def rangeCount (range : UA_NumericRange) : Nat := (range.map rangeWidth).prod

/-- The dimensions `computeStrides` works with: `arrayDimensions`, or the single
dimension `arrayLength` when the Variant has none. -/
def dimsOf (v : UA_Variant) : List Nat :=
  if v.arrayDimensionsSize > 0 then v.arrayDimensions else [v.arrayLength]

/-- The range lies inside the shape: same number of dimensions, and
`min ≤ max < dim` in each. -/
def RangeWithin : UA_NumericRange → List Nat → Prop
  | [], [] => True
  | r :: range, d :: dims => (r.min ≤ r.max ∧ r.max < d) ∧ RangeWithin range dims
  | _, _ => False

instance decRangeWithin :
    (range : UA_NumericRange) → (dims : List Nat) → Decidable (RangeWithin range dims)
  | [], [] => isTrue trivial
  | [], _ :: _ => isFalse (fun h => h)
  | _ :: _, [] => isFalse (fun h => h)
  | r :: range, d :: dims =>
      have := decRangeWithin range dims
      inferInstanceAs (Decidable ((r.min ≤ r.max ∧ r.max < d) ∧ RangeWithin range dims))

/-- Row-major offset of the lowest corner of a range inside a shape. -/
def cornerOffset : UA_NumericRange → List Nat → Nat
  | r :: range, _ :: dims => r.min * dims.prod + cornerOffset range dims
  | _, _ => 0

/-- Every dimension of the range spans its whole extent. -/
def RangeFull : UA_NumericRange → List Nat → Prop
  | r :: range, d :: dims => (r.min = 0 ∧ r.max + 1 = d) ∧ RangeFull range dims
  | _, _ => True

/-- The second loop of `computeStrides`, started from `block = c`, `stride = A`. -/
def strideLoop (c A : Nat) (range : UA_NumericRange) (dims : List Nat) : StrideState :=
  (range.zip dims).foldr (fun rd s => computeStrides.step rd.1 rd.2 s)
    { block := c, stride := A, first := 0, running_dimssize := 1, found_contiguous := false }

/-- The range splits at its innermost dimension that is not spanned in full:
`block` and `stride` are frozen there. -/
def FrozenAt (range : UA_NumericRange) (dims : List Nat) (block stride : Nat) : Prop :=
  ∃ (pre : UA_NumericRange) (r : UA_NumericRangeDimension) (post : UA_NumericRange)
    (dpre : List Nat) (d : Nat) (dpost : List Nat),
    range = pre ++ r :: post ∧ dims = dpre ++ d :: dpost ∧
    RangeWithin pre dpre ∧ RangeWithin post dpost ∧ RangeFull post dpost ∧
    r.min ≤ r.max ∧ r.max < d ∧ rangeWidth r ≠ d ∧
    block = dpost.prod * rangeWidth r ∧ stride = dpost.prod * d

/-- The dimension-product invariant of the data model: when `arrayDimensions` is
present, its product is `arrayLength`. -/
def DimensionProduct (v : UA_Variant) : Prop :=
  v.arrayDimensionsSize > 0 → v.arrayDimensions.prod = v.arrayLength

instance decDimensionProduct (v : UA_Variant) : Decidable (DimensionProduct v) := by
  unfold DimensionProduct; exact inferInstance

/-- The out-parameters of `computeStrides` written with the loop. -/
def stridesOf (v : UA_Variant) (range : UA_NumericRange) : Strides :=
  let s := strideLoop (rangeCount range) v.arrayLength range (dimsOf v)
  { total := rangeCount range, block := s.block, stride := s.stride, first := s.first }

/-- The facts about the four outputs that the copy loops rely on. -/
structure StridesSound (arrayLength : Nat) (st : Strides) : Prop where
  block_pos : 1 ≤ st.block
  block_le_stride : st.block ≤ st.stride
  stride_le : st.stride ≤ arrayLength
  block_dvd : st.block ∣ st.total
  last_le : st.first + (st.total / st.block - 1) * st.stride + st.block ≤ arrayLength

/-- The list `memcpy` leaves in the destination. -/
def spliced (d : List UA_Value) (doff : Nat) (s : List UA_Value) (soff n : Nat) :
    List UA_Value :=
  d.take doff ++ (s.drop soff).take n ++ d.drop (doff + n)

/-- The widths the destination records as its `arrayDimensions`. -/
def widthsOf (range : UA_NumericRange) : List Nat :=
  range.map (fun d => u32 (u32sub d.max d.min + 1))

/-- The destination `UA_Variant_copyRange` builds from an array source. -/
def slicedVariant (src : UA_Variant) (type : UA_DataType) (range : UA_NumericRange)
    (count : Nat) (data : List UA_Value) : UA_Variant :=
  { type := some type, storageType := UA_VARIANT_DATA, arrayLength := count, data := .mem data,
    arrayDimensions := if src.arrayDimensionsSize > 0 then widthsOf range else [] }

/-! ## Fixtures of the scenarios -/

/-- Modelled from the spec: the descriptor of UInt32 in the table `UA_TYPES`, which is
not part of the sources at hand: a built-in, fixed-size kind of four bytes whose
single member is itself. -/
def typeUInt32 : UA_DataType :=
  { typeIndex := 6, memSize := 4, builtin := true, fixedSize := true, membersSize := 1,
    members := [{ memberTypeIndex := 6, padding := 0, namespaceZero := true, isArray := false }] }

/-- Modelled from the spec: the descriptor of String in the table `UA_TYPES`, which is
not part of the sources at hand: a one-member array-of-Byte structure that owns
heap storage. -/
def typeString : UA_DataType :=
  { typeIndex := 11, memSize := 16, builtin := true, fixedSize := false, membersSize := 1,
    members := [{ memberTypeIndex := UA_TYPES_BYTE, padding := 0, namespaceZero := true,
                  isArray := true }] }

/-- An array of UInt32 cells with the given values. -/
def uint32Cells (xs : List Nat) : List UA_Value := xs.map UA_Value.fixed

/-- The Variant of scenarios S3 and S4: the UInt32 array `[10,20,30,40,50,60]` with
`arrayDimensions = [2,3]`. -/
def scenarioArray : UA_Variant :=
  { type := some typeUInt32, storageType := UA_VARIANT_DATA, arrayLength := 6,
    data := .mem (uint32Cells [10, 20, 30, 40, 50, 60]), arrayDimensions := [2, 3] }

/-- The range `[{0,0},{1,2}]` of scenario S3. -/
def scenarioS3Range : UA_NumericRange := [⟨0, 0⟩, ⟨1, 2⟩]

/-- The range `[{0,1},{0,0}]` of scenario S4. -/
def scenarioS4Range : UA_NumericRange := [⟨0, 1⟩, ⟨0, 0⟩]

/-- Row-major position of a multi-index inside a shape. -/
def rowMajor : List Nat → List Nat → Nat
  | _ :: shape, i :: idx => i * shape.prod + rowMajor shape idx
  | _, _ => 0

/-- The multi-index lies inside the range: one index per dimension, each between
`min` and `max`. -/
def IndexWithin : UA_NumericRange → List Nat → Prop
  | [], [] => True
  | r :: range, i :: idx => (r.min ≤ i ∧ i ≤ r.max) ∧ IndexWithin range idx
  | _, _ => False

/-- The multi-index counted from the lowest corner of the range. -/
def relativeIndex : UA_NumericRange → List Nat → List Nat
  | r :: range, i :: idx => (i - r.min) :: relativeIndex range idx
  | _, _ => []

/-- A UInt32 array of eight cells `[100,...,107]` with `arrayDimensions = [2,2,2]`. -/
def cubeArray : UA_Variant :=
  { type := some typeUInt32, storageType := UA_VARIANT_DATA, arrayLength := 8,
    data := .mem (uint32Cells [100, 101, 102, 103, 104, 105, 106, 107]),
    arrayDimensions := [2, 2, 2] }

/-- The range `[{0,1},{0,0},{0,0}]`: both planes, first row, first column. -/
def cubeRange : UA_NumericRange := [⟨0, 1⟩, ⟨0, 0⟩, ⟨0, 0⟩]

/-- A UInt32 array of 4294967296 cells (one more than `UA_UINT32_MAX`), all zero,
without `arrayDimensions`. -/
def bigArray : UA_Variant :=
  { type := some typeUInt32, storageType := UA_VARIANT_DATA, arrayLength := 4294967296,
    data := .mem (List.replicate 4294967296 (UA_Value.fixed 0)), arrayDimensions := [] }

/-- The UInt32 array `[10,20,30,40,50,60]` without `arrayDimensions`. -/
def plainArray : UA_Variant :=
  { type := some typeUInt32, storageType := UA_VARIANT_DATA, arrayLength := 6,
    data := .mem (uint32Cells [10, 20, 30, 40, 50, 60]), arrayDimensions := [] }

/-- The bytes of a text as cells. -/
def byteCells (s : String) : List UA_Value := s.toList.map (fun c => UA_Value.fixed c.toNat)

/-- A scalar Variant that holds the given String. -/
def scalarString (s : UA_String) : UA_Variant :=
  { type := some typeString, storageType := UA_VARIANT_DATA, arrayLength := 0,
    data := .mem [UA_Value.ofString s], arrayDimensions := [] }

/-- The String `"abcdefg"` of scenario S5. -/
def scenarioS5String : UA_String := { length := 7, data := .mem (byteCells "abcdefg") }

/-- A String of 4294967296 bytes, all zero. -/
def hugeString : UA_String :=
  { length := 4294967296, data := .mem (List.replicate 4294967296 (UA_Value.fixed 0)) }

/-! ## Fixtures of the copy engine -/

/-- Modelled from the spec: the descriptor of a built-in kind in the table `UA_TYPES`,
which is not part of the sources at hand, for the kinds that are copied by a function
of their own: a structure whose single member is the kind itself. -/
def builtinLeaf (typeIndex memSize : Nat) (fixedSize : Bool) : UA_DataType :=
  { typeIndex := typeIndex, memSize := memSize, builtin := true, fixedSize := fixedSize,
    membersSize := 1,
    members := [{ memberTypeIndex := typeIndex, padding := 0, namespaceZero := true,
                  isArray := false }] }

/-- Modelled from the spec: the descriptor of a built-in kind with the layout of a
String (String, ByteString, XmlElement): a one-member array-of-Byte structure. -/
def builtinBytes (typeIndex : Nat) : UA_DataType :=
  { typeIndex := typeIndex, memSize := 16, builtin := true, fixedSize := false, membersSize := 1,
    members := [{ memberTypeIndex := UA_TYPES_BYTE, padding := 0, namespaceZero := true,
                  isArray := true }] }

/-- Modelled from the spec: the descriptor of Byte in the table `UA_TYPES`. -/
def typeByte : UA_DataType := builtinLeaf UA_TYPES_BYTE 1 true

/-- Modelled from the spec: the descriptor of Guid in the table `UA_TYPES`. -/
def typeGuid : UA_DataType := builtinLeaf UA_TYPES_GUID 16 true

/-- Modelled from the spec: the descriptor of ByteString in the table `UA_TYPES`. -/
def typeByteString : UA_DataType := builtinBytes UA_TYPES_BYTESTRING

/-- Modelled from the spec: the descriptor of NodeId in the table `UA_TYPES`. -/
def typeNodeId : UA_DataType := builtinLeaf 16 24 false

/-- Modelled from the spec: the descriptor of QualifiedName in the table `UA_TYPES`: a
UInt16 namespace index and a String name. -/
def typeQualifiedName : UA_DataType :=
  { typeIndex := 19, memSize := 24, builtin := true, fixedSize := false, membersSize := 2,
    members := [{ memberTypeIndex := 4, padding := 0, namespaceZero := true, isArray := false },
                { memberTypeIndex := UA_TYPES_STRING, padding := 6, namespaceZero := true,
                  isArray := false }] }

/-- Modelled from the spec: the descriptor of LocalizedText in the table `UA_TYPES`. -/
def typeLocalizedText : UA_DataType := builtinLeaf 20 32 false

/-- Modelled from the spec: the table `UA_TYPES` of namespace zero, which is generated
and not part of the sources at hand, as far as the twenty-five built-in kinds go.
The order is that of `copyJumpTable`. -/
def standardTable : Nat → UA_DataType
  | 0 => builtinLeaf 0 1 true /- Boolean -/
  | 1 => builtinLeaf 1 1 true /- SByte -/
  | 2 => typeByte
  | 3 => builtinLeaf 3 2 true /- Int16 -/
  | 4 => builtinLeaf 4 2 true /- UInt16 -/
  | 5 => builtinLeaf 5 4 true /- Int32 -/
  | 6 => typeUInt32
  | 7 => builtinLeaf 7 8 true /- Int64 -/
  | 8 => builtinLeaf 8 8 true /- UInt64 -/
  | 9 => builtinLeaf 9 4 true /- Float -/
  | 10 => builtinLeaf 10 8 true /- Double -/
  | 11 => typeString
  | 12 => builtinLeaf 12 8 true /- DateTime -/
  | 13 => typeGuid
  | 14 => typeByteString
  | 15 => builtinBytes 15 /- XmlElement -/
  | 16 => typeNodeId
  | 17 => builtinLeaf 17 48 false /- ExpandedNodeId -/
  | 18 => builtinLeaf 18 4 true /- StatusCode -/
  | 19 => typeQualifiedName
  | 20 => typeLocalizedText
  | 21 => builtinLeaf 21 48 false /- ExtensionObject -/
  | 22 => builtinLeaf 22 80 false /- DataValue -/
  | 23 => builtinLeaf 23 48 false /- Variant -/
  | 24 => builtinLeaf 24 56 false /- DiagnosticInfo -/
  | i => { typeIndex := i, memSize := 0, builtin := false, fixedSize := true, membersSize := 0,
           members := [] }

/-- The type system of a server without custom types: every descriptor is an element
of `UA_TYPES`. -/
def standardTypes : UA_TypeSystem :=
  { UA_TYPES := standardTable, tableOf := fun _ => standardTable }

/-- A run-time whose allocator serves every request.  Its `UA_copy` is never
reached on the fixed-size and string paths the scenarios take; its delete engine is
the one of the table `standardTypes`. -/
def servingRuntime : UA_Runtime :=
  { UA_malloc := fun _ => true, UA_copy := fun _ _ => none,
    deleteFns := deleteFns standardTypes 4 }

/-- An allocator that serves every request. -/
def servingMalloc : Nat → Bool := fun _ => true

/-- The NodeId kinds the code distinguishes: Numeric, String, Guid, ByteString. -/
def NodeIdKind (identifierType : Nat) : Prop :=
  identifierType = UA_NODEIDTYPE_NUMERIC ∨ identifierType = UA_NODEIDTYPE_STRING ∨
    identifierType = UA_NODEIDTYPE_GUID ∨ identifierType = UA_NODEIDTYPE_BYTESTRING

instance decNodeIdKind (identifierType : Nat) : Decidable (NodeIdKind identifierType) := by
  unfold NodeIdKind
  exact inferInstance

/-- Whether the bytes of a String can be read: nothing is read of a String of
length 0, else the buffer holds `length` initialised bytes. -/
def stringReadable (s : UA_String) : Bool :=
  s.length == 0 || (readBytes s.data s.length).isSome

/-- Whether the union of a NodeId holds a value of the kind its discriminant names:
a number for Numeric, a String with readable bytes for String and ByteString, a
Guid for Guid. -/
def nodeIdReadable (p : UA_NodeId) : Bool :=
  if p.identifierType = UA_NODEIDTYPE_NUMERIC then p.identifier.asNumeric.isSome
  else if p.identifierType = UA_NODEIDTYPE_GUID then p.identifier.asGuid.isSome
  else if p.identifierType = UA_NODEIDTYPE_STRING ∨
      p.identifierType = UA_NODEIDTYPE_BYTESTRING then
    match p.identifier.asString with
    | some s => stringReadable s
    | none => false
  else false

/-- The payload of a NodeId is zero or empty, in the words of the specification:
numeric 0 for Numeric, all eleven components zero for Guid, length 0 for String
and ByteString. -/
def payloadEmpty (p : UA_NodeId) : Bool :=
  if p.identifierType = UA_NODEIDTYPE_NUMERIC then p.identifier.asNumeric == some 0
  else if p.identifierType = UA_NODEIDTYPE_GUID then
    match p.identifier.asGuid with
    | some g =>
        g.data1 == 0 && g.data2 == 0 && g.data3 == 0 &&
          (List.range 8).all (fun i => g.data4.getD i 0 == 0)
    | none => false
  else
    match p.identifier.asString with
    | some s => s.length == 0
    | none => false

/-- A numeric NodeId. -/
def numericNodeId (namespaceIndex numeric : Nat) : UA_NodeId :=
  { namespaceIndex := namespaceIndex, identifierType := UA_NODEIDTYPE_NUMERIC,
    identifier := .fixed numeric }

/-- A String NodeId with the given text. -/
def stringNodeId (namespaceIndex : Nat) (s : String) : UA_NodeId :=
  { namespaceIndex := namespaceIndex, identifierType := UA_NODEIDTYPE_STRING,
    identifier := .string s.length (if s.length = 0 then .sentinel else .mem (byteCells s)) }

/-- A NodeId whose discriminant 1 names none of the four kinds. -/
def strayNodeId : UA_NodeId :=
  { namespaceIndex := 0, identifierType := 1, identifier := .fixed 0 }

/-- The char array of a C string literal: the bytes of the text and the final NUL. -/
def cstring (s : String) : List Nat := s.toList.map Char.toNat ++ [0]

/-- The entries of `UA_TYPES` the leaf copies go through have the generated layout:
Byte is of fixed size, String and ByteString are one-member arrays of Byte, Guid
is the built-in kind whose copy function is `copyGuid`. -/
structure StandardLeaves (ts : UA_TypeSystem) : Prop where
  byte_fixed : (ts.UA_TYPES UA_TYPES_BYTE).fixedSize = true
  string_like : isStringLike (ts.UA_TYPES UA_TYPES_STRING) = true
  byteString_like : isStringLike (ts.UA_TYPES UA_TYPES_BYTESTRING) = true
  guid_leaf : ts.UA_TYPES UA_TYPES_GUID = typeGuid

/-- The pointer `UA_Array_copy` leaves for an array of no elements: null for null, the
sentinel for everything else. -/
def emptyCopy (src : UA_Ptr UA_Value) : UA_Ptr UA_Value :=
  match src with
  | .null => .null
  | _ => .sentinel

/-- The content `UA_copy` leaves in the destination for a String (or ByteString) with
readable bytes: the representation of the empty String is kept, an allocation
failure leaves the zeroed state, else the bytes are in a fresh buffer. -/
def copiedString (malloc : Nat → Bool) (byteSize : Nat) (s : UA_String) :
    UA_StatusCode × UA_Value :=
  if s.length = 0 then (UA_STATUSCODE_GOOD, .string 0 (emptyCopy s.data))
  else if !malloc (s.length * byteSize) then (UA_STATUSCODE_BADOUTOFMEMORY, .zeroed)
  else (UA_STATUSCODE_GOOD, .string s.length (.mem ((s.data.cells?.getD []).take s.length)))

/-- Whether `UA_Variant_copyRange` turns the range down before it touches the
destination: an array source with more dimensions than the range has, or a range
that `computeStrides` rejects. -/
def rangeRejected (orig_src : UA_Variant) (range : UA_NumericRange) : Bool :=
  (!UA_Variant_isScalar orig_src && decide (copyRange.dims orig_src > range.length)) ||
    (match computeStrides (copyRange.src orig_src) (copyRange.thisrange orig_src range) with
     | .error _ => true
     | .ok _ => false)

/-- An array of two NodeIds without `arrayDimensions`: the first has the discriminant 1
of no kind, the second is the numeric NodeId `i=5`. -/
def nodeIdArray : UA_Variant :=
  { type := some typeNodeId, storageType := UA_VARIANT_DATA, arrayLength := 2,
    data := .mem [UA_Value.ofNodeId strayNodeId, UA_Value.ofNodeId (numericNodeId 0 5)],
    arrayDimensions := [] }

/-- A cell that holds the String with the given text in a buffer of its own. -/
def stringCell (s : String) : UA_Value := .string s.length (.mem (byteCells s))

/-- An array Variant of the two Strings `"x"` and `"y"`. -/
def stringArray : UA_Variant :=
  { type := some typeString, storageType := UA_VARIANT_DATA, arrayLength := 2,
    data := .mem [stringCell "x", stringCell "y"], arrayDimensions := [] }

/-- A source array of the two Strings `"a"` and `"b"`. -/
def movedStrings : UA_Ptr UA_Value := .mem [stringCell "a", stringCell "b"]

/-- The LocalizedText `{locale "en", text "hello"}`. -/
def helloText : UA_Value := .localizedText (stringCell "en") (stringCell "hello")

/-- An allocator that fails exactly the requests for five bytes. -/
def failingMalloc : Nat → Bool := fun n => n != 5

/-! ## Fixtures of the stride checks -/

/-- A Variant of 65536 elements whose `arrayDimensions` `[65536, 65537, 4294901761]`
multiply to `2^64 + 65536`, not to `arrayLength`. -/
def wrappedDims : UA_Variant :=
  { type := some typeUInt32, storageType := UA_VARIANT_DATA, arrayLength := 65536,
    data := .mem (List.replicate 65536 (UA_Value.fixed 0)),
    arrayDimensions := [65536, 65537, 4294901761] }

/-! ## DateTime and Guid on the side of the specification -/

/-- Modelled from the spec: the function `__secs_to_tm` of `libc_time.h`, which is not part
of the sources at hand: seconds since 1970-01-01 00:00:00 UTC broken down into the
date of the Gregorian calendar and the time of day. -/
def utcCalendar (secs : Int) : tm :=
  let days := secs / 86400
  let rem := secs % 86400
  let z := days + 719468
  let era := z / 146097
  let doe := z % 146097
  let yoe := (doe - doe / 1460 + doe / 36524 - doe / 146096) / 365
  let doy := doe - (365 * yoe + yoe / 4 - yoe / 100)
  let mp := (5 * doy + 2) / 153
  let month := if mp < 10 then mp + 3 else mp - 9
  let year := yoe + era * 400 + (if month ≤ 2 then 1 else 0)
  { tm_sec := rem % 60, tm_min := rem / 60 % 60, tm_hour := rem / 3600,
    tm_mday := doy - (153 * mp + 2) / 5 + 1, tm_mon := month - 1, tm_year := year - 1900 }

/-- The decimal rendering of `n` in `width` ASCII digits, zero-padded on the left; of a
number with more digits the low `width` digits are kept. -/
def zeroPadded : Nat → Nat → List Nat
  | 0, _ => []
  | width + 1, n => zeroPadded width (n / 10) ++ [n % 10 + 48]

/-- The number a sequence of ASCII digits stands for. -/
def decimalValue (digits : List Nat) : Nat :=
  digits.foldl (fun acc c => acc * 10 + (c - 48)) 0

/-- The layout `MM/DD/YYYY HH:MM:SS.mmm.uuu.nnn` filled with the fields of a
`UA_DateTimeStruct`. -/
def dateTimeLayout (tSt : UA_DateTimeStruct) : List Nat :=
  zeroPadded 2 tSt.month ++ [47] ++ zeroPadded 2 tSt.day ++ [47] ++ zeroPadded 4 tSt.year ++
    [32] ++ zeroPadded 2 tSt.hour ++ [58] ++ zeroPadded 2 tSt.min ++ [58] ++
    zeroPadded 2 tSt.sec ++ [46] ++ zeroPadded 3 tSt.milliSec ++ [46] ++
    zeroPadded 3 tSt.microSec ++ [46] ++ zeroPadded 3 tSt.nanoSec

/-- The Guid as a function of four 32-bit draws, in the words of the specification:
`data1 = r0`, `data2` the low and `data3` the high 16 bits of `r1`, `data4[i]` the low
byte of `r2 >> 4i` and `data4[4+i]` the low byte of `r3 >> 4i`. -/
def guidOfDraws (r0 r1 r2 r3 : Nat) : UA_Guid :=
  { data1 := r0 % 2 ^ 32, data2 := r1 % 2 ^ 32 % 2 ^ 16, data3 := r1 % 2 ^ 32 / 2 ^ 16,
    data4 := (List.range 4).map (fun i => r2 % 2 ^ 32 / 2 ^ (4 * i) % 256) ++
      (List.range 4).map (fun i => r3 % 2 ^ 32 / 2 ^ (4 * i) % 256) }

/-- A generator that counts: each draw returns the state and steps it by
`0x11111111`. -/
def countingRng (s : Nat) : Nat × Nat := (s, s + 286331153)

/-- The QualifiedName `{namespaceIndex 3, name "hi"}`. -/
def helloName : UA_Value := .struct [.fixed 3, stringCell "hi"]

/-! ## Lemmas -/

theorem u32_width (lo hi : Nat) (h1 : lo ≤ hi) (h2 : hi < 4294967295) :
    u32 (u32sub hi lo + 1) = hi - lo + 1 := by
  unfold u32sub u32
  omega

theorem u32_dimrange (lo hi : Nat) (h1 : lo ≤ hi) (h2 : hi < 4294967295) :
    u32sub (u32 (1 + hi)) lo = hi - lo + 1 := by
  unfold u32sub u32
  omega

theorem usize_of_lt {x : Nat} (h : x < 18446744073709551616) : usize x = x := by
  unfold usize
  omega

theorem RangeWithin.length_eq : ∀ {range : UA_NumericRange} {dims : List Nat},
    RangeWithin range dims → range.length = dims.length
  | [], [], _ => rfl
  | [], _ :: _, h => h.elim
  | _ :: _, [], h => h.elim
  | _ :: range, _ :: dims, h => by
      simp [@RangeWithin.length_eq range dims h.2]

theorem RangeWithin.dims_pos : ∀ {range : UA_NumericRange} {dims : List Nat},
    RangeWithin range dims → ∀ d ∈ dims, 0 < d
  | [], [], _ => by simp
  | [], _ :: _, h => h.elim
  | _ :: _, [], h => h.elim
  | r :: range, d :: dims, h => by
      intro x hx
      rcases List.mem_cons.1 hx with rfl | hx
      · have := h.1; omega
      · exact @RangeWithin.dims_pos range dims h.2 x hx

theorem RangeWithin.prod_pos {range : UA_NumericRange} {dims : List Nat}
    (h : RangeWithin range dims) : 0 < dims.prod :=
  List.prod_pos (fun d hd => h.dims_pos d hd)

theorem rangeCount_pos (range : UA_NumericRange) : 0 < rangeCount range := by
  unfold rangeCount
  apply List.prod_pos
  intro a ha
  rcases List.mem_map.1 ha with ⟨r, _, rfl⟩
  unfold rangeWidth
  omega

theorem rangeCount_cons (r : UA_NumericRangeDimension) (range : UA_NumericRange) :
    rangeCount (r :: range) = rangeWidth r * rangeCount range := by
  simp [rangeCount]

/-- A range inside a shape selects at most as many elements as the shape has, even
when shifted to its corner: `cornerOffset + rangeCount ≤ prod dims`. -/
theorem RangeWithin.corner_add_count_le : ∀ {range : UA_NumericRange} {dims : List Nat},
    RangeWithin range dims → cornerOffset range dims + rangeCount range ≤ dims.prod
  | [], [], _ => by simp [cornerOffset, rangeCount]
  | [], _ :: _, h => h.elim
  | _ :: _, [], h => h.elim
  | r :: range, d :: dims, h => by
      have ih := @RangeWithin.corner_add_count_le range dims h.2
      have hw : 1 ≤ rangeWidth r := by unfold rangeWidth; omega
      have hd : r.min + rangeWidth r ≤ d := by unfold rangeWidth; have := h.1; omega
      rw [rangeCount_cons, List.prod_cons]
      simp only [cornerOffset]
      have h1 : cornerOffset range dims + rangeWidth r * rangeCount range
          ≤ rangeWidth r * dims.prod := by
        calc cornerOffset range dims + rangeWidth r * rangeCount range
            ≤ rangeWidth r * cornerOffset range dims + rangeWidth r * rangeCount range := by
              have := Nat.le_mul_of_pos_left (cornerOffset range dims) hw
              omega
          _ = rangeWidth r * (cornerOffset range dims + rangeCount range) := by ring
          _ ≤ rangeWidth r * dims.prod := Nat.mul_le_mul_left _ ih
      calc r.min * dims.prod + cornerOffset range dims + rangeWidth r * rangeCount range
          ≤ r.min * dims.prod + rangeWidth r * dims.prod := by omega
        _ = (r.min + rangeWidth r) * dims.prod := by ring
        _ ≤ d * dims.prod := Nat.mul_le_mul_right _ hd

theorem RangeWithin.count_le {range : UA_NumericRange} {dims : List Nat}
    (h : RangeWithin range dims) : rangeCount range ≤ dims.prod := by
  have := h.corner_add_count_le
  omega

theorem RangeWithin.append : ∀ {pre : UA_NumericRange} {dpre : List Nat}
    {post : UA_NumericRange} {dpost : List Nat},
    RangeWithin pre dpre → RangeWithin post dpost → RangeWithin (pre ++ post) (dpre ++ dpost)
  | [], [], _, _, _, h => by simpa using h
  | [], _ :: _, _, _, h, _ => h.elim
  | _ :: _, [], _, _, h, _ => h.elim
  | _ :: pre, _ :: dpre, _, _, h1, h2 =>
      ⟨h1.1, @RangeWithin.append pre dpre _ _ h1.2 h2⟩

theorem rangeCount_append (pre post : UA_NumericRange) :
    rangeCount (pre ++ post) = rangeCount pre * rangeCount post := by
  simp [rangeCount]

theorem cornerOffset_append : ∀ (pre : UA_NumericRange) (dpre : List Nat)
    (post : UA_NumericRange) (dpost : List Nat), pre.length = dpre.length →
    cornerOffset (pre ++ post) (dpre ++ dpost)
      = cornerOffset pre dpre * dpost.prod + cornerOffset post dpost
  | [], [], _, _, _ => by simp [cornerOffset]
  | [], _ :: _, _, _, h => by simp at h
  | _ :: _, [], _, _, h => by simp at h
  | r :: pre, d :: dpre, post, dpost, h => by
      have ih := cornerOffset_append pre dpre post dpost (by simpa using h)
      show r.min * (dpre ++ dpost).prod + cornerOffset (pre ++ post) (dpre ++ dpost)
        = (r.min * dpre.prod + cornerOffset pre dpre) * dpost.prod + cornerOffset post dpost
      rw [ih, List.prod_append]
      ring

theorem RangeFull.count_eq : ∀ {range : UA_NumericRange} {dims : List Nat},
    range.length = dims.length → RangeFull range dims → rangeCount range = dims.prod
  | [], [], _, _ => by simp [rangeCount]
  | [], _ :: _, h, _ => by simp at h
  | _ :: _, [], h, _ => by simp at h
  | r :: range, d :: dims, h, hf => by
      have ih := @RangeFull.count_eq range dims (by simpa using h) hf.2
      have := hf.1
      rw [rangeCount_cons, List.prod_cons, ih]
      unfold rangeWidth
      congr 1
      omega

theorem RangeFull.corner_eq : ∀ {range : UA_NumericRange} {dims : List Nat},
    RangeFull range dims → cornerOffset range dims = 0
  | [], _, _ => by simp [cornerOffset]
  | _ :: _, [], _ => by simp [cornerOffset]
  | r :: range, d :: dims, hf => by
      have ih := @RangeFull.corner_eq range dims hf.2
      simp [cornerOffset, ih, hf.1.1]

theorem elements_eq (dims : List Nat) (e : Nat) :
    dims.foldl (fun e d => usize (e * d)) (usize e) = usize (e * dims.prod) := by
  induction dims generalizing e with
  | nil => simp
  | cons d dims ih =>
      simp only [List.foldl_cons, List.prod_cons]
      rw [ih (usize e * d)]
      unfold usize
      rw [Nat.mul_assoc, Nat.mul_mod, Nat.mod_mod, ← Nat.mul_mod]

theorem checkRange_within : ∀ (range : UA_NumericRange) (dims : List Nat) (c count : Nat),
    range.length = dims.length → computeStrides.checkRange range dims c = .ok count →
    RangeWithin range dims
  | [], [], _, _, _, _ => trivial
  | [], _ :: _, _, _, h, _ => by simp at h
  | _ :: _, [], _, _, h, _ => by simp at h
  | r :: range, d :: dims, c, count, h, hc => by
      simp only [computeStrides.checkRange] at hc
      split at hc
      · cases hc
      · split at hc
        · cases hc
        · exact ⟨⟨by omega, by omega⟩,
            checkRange_within range dims _ count (by simpa using h) hc⟩

theorem checkRange_of_within : ∀ (range : UA_NumericRange) (dims : List Nat) (c : Nat),
    RangeWithin range dims → 0 < c → c * dims.prod ≤ UA_UINT32_MAX →
    computeStrides.checkRange range dims c = .ok (c * rangeCount range)
  | [], [], c, _, _, _ => by simp [computeStrides.checkRange, rangeCount]
  | [], _ :: _, _, h, _, _ => h.elim
  | _ :: _, [], _, h, _, _ => h.elim
  | r :: range, d :: dims, c, h, hc, hb => by
      have hpos := h.2.prod_pos
      have h1 := h.1
      rw [List.prod_cons] at hb
      have hcd : c * d ≤ UA_UINT32_MAX :=
        le_trans (Nat.le_mul_of_pos_right _ hpos) (by rw [Nat.mul_assoc]; exact hb)
      have hd : d ≤ UA_UINT32_MAX := le_trans (Nat.le_mul_of_pos_left _ hc) hcd
      have hw : rangeWidth r ≤ d := by unfold rangeWidth; omega
      have hcw : c * rangeWidth r ≤ c * d := Nat.mul_le_mul_left _ hw
      unfold UA_UINT32_MAX at hb hcd hd
      have hwid : u32 (u32sub r.max r.min + 1) = rangeWidth r := by
        unfold rangeWidth; exact u32_width _ _ h1.1 (by omega)
      simp only [computeStrides.checkRange]
      rw [if_neg (by omega), if_neg (by omega), hwid, usize_of_lt (by omega)]
      rw [checkRange_of_within range dims (c * rangeWidth r) h.2
        (Nat.mul_pos hc (by unfold rangeWidth; omega))
        (by
          unfold UA_UINT32_MAX
          calc c * rangeWidth r * dims.prod ≤ c * d * dims.prod :=
                Nat.mul_le_mul_right _ hcw
            _ ≤ 4294967295 := by rw [Nat.mul_assoc]; exact hb)]
      rw [rangeCount_cons, Nat.mul_assoc]

theorem strideLoop_cons (c A : Nat) (r : UA_NumericRangeDimension) (range : UA_NumericRange)
    (d : Nat) (dims : List Nat) :
    strideLoop c A (r :: range) (d :: dims)
      = computeStrides.step r d (strideLoop c A range dims) := rfl

theorem strideLoop_spec (c A : Nat) : ∀ (range : UA_NumericRange) (dims : List Nat),
    RangeWithin range dims → dims.prod ≤ UA_UINT32_MAX →
    (strideLoop c A range dims).running_dimssize = dims.prod ∧
    (strideLoop c A range dims).first = cornerOffset range dims ∧
    ((strideLoop c A range dims).found_contiguous = false →
      RangeFull range dims ∧ (strideLoop c A range dims).block = c ∧
        (strideLoop c A range dims).stride = A) ∧
    ((strideLoop c A range dims).found_contiguous = true →
      FrozenAt range dims (strideLoop c A range dims).block (strideLoop c A range dims).stride)
  | [], [], _, _ => by simp [strideLoop, cornerOffset, RangeFull]
  | [], _ :: _, h, _ => h.elim
  | _ :: _, [], h, _ => h.elim
  | r :: range, d :: dims, h, hb => by
      have hpos := h.2.prod_pos
      have h1 := h.1
      rw [List.prod_cons] at hb
      have hd : d ≤ UA_UINT32_MAX := le_trans (Nat.le_mul_of_pos_right _ hpos) hb
      have hdpos : 0 < d := by omega
      have hp : dims.prod ≤ UA_UINT32_MAX := le_trans (Nat.le_mul_of_pos_left _ hdpos) hb
      obtain ⟨ihr, ihf, ihn, ihy⟩ := strideLoop_spec c A range dims h.2 hp
      have hcor := h.2.corner_add_count_le
      have hcnt := rangeCount_pos range
      unfold UA_UINT32_MAX at hb hd hp
      have hdr : u32sub (u32 (1 + r.max)) r.min = rangeWidth r := by
        unfold rangeWidth; exact u32_dimrange _ _ h1.1 (by omega)
      have hw : rangeWidth r ≤ d := by unfold rangeWidth; omega
      have hmin : dims.prod * r.min ≤ d * dims.prod := by
        rw [Nat.mul_comm]; exact Nat.mul_le_mul_right _ (by omega)
      have hblk : dims.prod * rangeWidth r ≤ d * dims.prod := by
        rw [Nat.mul_comm]; exact Nat.mul_le_mul_right _ hw
      rw [strideLoop_cons]
      generalize strideLoop c A range dims = s at ihr ihf ihn ihy
      obtain ⟨blk, str, fst, run, fnd⟩ := s
      subst ihr ihf
      cases fnd with
      | false =>
          obtain ⟨hfull, hblk0, hstr0⟩ := ihn rfl
          subst hblk0 hstr0
          by_cases hne : rangeWidth r = d
          · have hz : r.min = 0 ∧ r.max + 1 = d := by unfold rangeWidth at hne; omega
            simp only [computeStrides.step, hdr, hne, bne_self_eq_false, Bool.and_false,
              Bool.false_eq_true, if_false]
            refine ⟨?_, ?_, ?_, ?_⟩
            · rw [usize_of_lt (by rw [Nat.mul_comm]; omega), List.prod_cons, Nat.mul_comm]
            · rw [usize_of_lt (x := dims.prod * r.min) (by omega), usize_of_lt (by omega)]
              simp only [cornerOffset]
              rw [Nat.mul_comm]; omega
            · intro _
              exact ⟨⟨hz, hfull⟩, trivial, trivial⟩
            · intro hc; cases hc
          · have hbne : (rangeWidth r != d) = true := by simpa using hne
            simp only [computeStrides.step, hdr, hbne, Bool.not_false, Bool.and_self, if_true]
            refine ⟨?_, ?_, ?_, ?_⟩
            · rw [usize_of_lt (by rw [Nat.mul_comm]; omega), List.prod_cons, Nat.mul_comm]
            · rw [usize_of_lt (x := dims.prod * r.min) (by omega), usize_of_lt (by omega)]
              simp only [cornerOffset]
              rw [Nat.mul_comm]; omega
            · intro hc; cases hc
            · intro _
              refine ⟨[], r, range, [], d, dims, rfl, rfl, trivial, h.2, hfull, h1.1, h1.2,
                hne, ?_, ?_⟩
              · exact usize_of_lt (by omega)
              · exact usize_of_lt (by rw [Nat.mul_comm]; omega)
      | true =>
          obtain ⟨pre, r0, post, dpre, d0, dpost, e1, e2, hpre, hpost, hfull, hlo, hhi, hne,
            hb1, hs1⟩ := ihy rfl
          simp only [computeStrides.step, Bool.not_true, Bool.false_and, Bool.false_eq_true,
            if_false]
          refine ⟨?_, ?_, ?_, ?_⟩
          · rw [usize_of_lt (by rw [Nat.mul_comm]; omega), List.prod_cons, Nat.mul_comm]
          · rw [usize_of_lt (x := dims.prod * r.min) (by omega), usize_of_lt (by omega)]
            simp only [cornerOffset]
            rw [Nat.mul_comm]; omega
          · intro hc; cases hc
          · intro _
            exact ⟨r :: pre, r0, post, d :: dpre, d0, dpost, by rw [e1]; rfl, by rw [e2]; rfl,
              ⟨h1, hpre⟩, hpost, hfull, hlo, hhi, hne, hb1, hs1⟩

theorem DimensionProduct.dimsOf_prod {v : UA_Variant} (h : DimensionProduct v) :
    (dimsOf v).prod = v.arrayLength := by
  unfold dimsOf
  split
  · next hpos => exact h hpos
  · simp

theorem computeStrides_unfold (v : UA_Variant) (range : UA_NumericRange)
    (hlen : v.arrayLength ≤ UA_UINT32_MAX) :
    computeStrides v range =
      if v.arrayDimensionsSize > 0 ∧ usize v.arrayDimensions.prod ≠ v.arrayLength then
        .error UA_STATUSCODE_BADINTERNALERROR
      else if range.length ≠ (dimsOf v).length then .error UA_STATUSCODE_BADINDEXRANGENODATA
      else
        match computeStrides.checkRange range (dimsOf v) 1 with
        | .error e => .error e
        | .ok count =>
            let s := strideLoop count v.arrayLength range (dimsOf v)
            .ok { total := count, block := s.block, stride := s.stride, first := s.first } := by
  have hu : u32 v.arrayLength = v.arrayLength := by
    unfold u32; unfold UA_UINT32_MAX at hlen; omega
  have he : v.arrayDimensions.foldl (fun e d => usize (e * d)) 1 = usize v.arrayDimensions.prod := by
    have := elements_eq v.arrayDimensions 1
    simpa [usize] using this
  unfold computeStrides
  rw [if_neg (by omega)]
  simp only [hu, he]
  rfl

theorem computeStrides_ok_within {v : UA_Variant} {range : UA_NumericRange} {st : Strides}
    (h : computeStrides v range = .ok st) :
    v.arrayLength ≤ UA_UINT32_MAX ∧ RangeWithin range (dimsOf v) := by
  have hlen : v.arrayLength ≤ UA_UINT32_MAX := by
    by_contra hc
    unfold computeStrides at h
    rw [if_pos (by omega)] at h
    cases h
  refine ⟨hlen, ?_⟩
  rw [computeStrides_unfold v range hlen] at h
  split at h
  · cases h
  · split at h
    · cases h
    · next hl =>
        split at h
        · cases h
        · next count hc => exact checkRange_within _ _ _ _ (by simpa using hl) hc

theorem computeStrides_of_within {v : UA_Variant} {range : UA_NumericRange}
    (hlen : v.arrayLength ≤ UA_UINT32_MAX) (hprod : DimensionProduct v)
    (hin : RangeWithin range (dimsOf v)) :
    computeStrides v range = .ok (stridesOf v range) := by
  have hp := hprod.dimsOf_prod
  rw [computeStrides_unfold v range hlen]
  have h1 : ¬ (v.arrayDimensionsSize > 0 ∧ usize v.arrayDimensions.prod ≠ v.arrayLength) := by
    rintro ⟨hpos, hne⟩
    apply hne
    rw [hprod hpos]
    exact usize_of_lt (by unfold UA_UINT32_MAX at hlen; omega)
  rw [if_neg h1, if_neg (by simpa using hin.length_eq)]
  rw [checkRange_of_within range (dimsOf v) 1 hin (by omega) (by rw [hp]; omega)]
  simp [stridesOf]

theorem computeStrides_ok_eq {v : UA_Variant} {range : UA_NumericRange} {st : Strides}
    (hprod : DimensionProduct v) (h : computeStrides v range = .ok st) :
    st = stridesOf v range := by
  obtain ⟨hlen, hin⟩ := computeStrides_ok_within h
  rw [computeStrides_of_within hlen hprod hin] at h
  cases h
  rfl

theorem stridesOf_sound {v : UA_Variant} {range : UA_NumericRange}
    (hlen : v.arrayLength ≤ UA_UINT32_MAX) (hprod : DimensionProduct v)
    (hin : RangeWithin range (dimsOf v)) :
    StridesSound v.arrayLength (stridesOf v range) := by
  have hp := hprod.dimsOf_prod
  obtain ⟨_, hfirst, hno, hyes⟩ :=
    strideLoop_spec (rangeCount range) v.arrayLength range (dimsOf v) hin (by rw [hp]; exact hlen)
  have hcnt := rangeCount_pos range
  have hcor := hin.corner_add_count_le
  rw [hp] at hcor
  unfold stridesOf
  generalize strideLoop (rangeCount range) v.arrayLength range (dimsOf v) = s at hfirst hno hyes ⊢
  obtain ⟨blk, str, fst, run, fnd⟩ := s
  cases fnd with
  | false =>
      obtain ⟨hfull, hb, hs⟩ := hno rfl
      simp only at hb hs hfirst
      have hce := hfull.count_eq hin.length_eq
      rw [hp] at hce
      have hz := hfull.corner_eq
      subst hb hs hfirst
      constructor <;> simp only
      · omega
      · omega
      · exact le_refl _
      · exact dvd_refl _
      · rw [Nat.div_self (by omega)]; omega
  | true =>
      obtain ⟨pre, r, post, dpre, d, dpost, e1, e2, hpre, hpost, hfull, hlo, hhi, hne, hb, hs⟩ :=
        hyes rfl
      simp only at hb hs hfirst
      have hpp := hpost.prod_pos
      have hw : 1 ≤ rangeWidth r := by unfold rangeWidth; omega
      have hwd : r.min + rangeWidth r ≤ d := by unfold rangeWidth; omega
      have hcpost := hfull.count_eq hpost.length_eq
      have hzpost := hfull.corner_eq
      have hprepos := rangeCount_pos pre
      have hprecor := hpre.corner_add_count_le
      have hA : v.arrayLength = dpre.prod * (dpost.prod * d) := by
        rw [← hp, e2, List.prod_append, List.prod_cons]; ring
      have htot : rangeCount range = rangeCount pre * (dpost.prod * rangeWidth r) := by
        rw [e1, rangeCount_append, rangeCount_cons, hcpost]; ring
      have hfst : cornerOffset range (dimsOf v)
          = cornerOffset pre dpre * (dpost.prod * d) + r.min * dpost.prod := by
        rw [e1, e2, cornerOffset_append _ _ _ _ hpre.length_eq]
        simp only [cornerOffset, hzpost, List.prod_cons]
        ring
      have hbpos : 0 < dpost.prod * rangeWidth r := Nat.mul_pos hpp hw
      have hbs : dpost.prod * rangeWidth r ≤ dpost.prod * d :=
        Nat.mul_le_mul_left _ (by omega)
      subst hb hs hfirst
      constructor <;> simp only
      · omega
      · exact hbs
      · rw [hA]; exact Nat.le_mul_of_pos_left _ hpre.prod_pos
      · rw [htot]; exact Dvd.intro_left _ rfl
      · rw [htot, Nat.mul_div_cancel _ hbpos, hfst, hA]
        have h1 : r.min * dpost.prod + dpost.prod * rangeWidth r ≤ dpost.prod * d := by
          calc r.min * dpost.prod + dpost.prod * rangeWidth r
              = dpost.prod * (r.min + rangeWidth r) := by ring
            _ ≤ dpost.prod * d := Nat.mul_le_mul_left _ hwd
        have h2 : (cornerOffset pre dpre + rangeCount pre) * (dpost.prod * d)
            ≤ dpre.prod * (dpost.prod * d) := Nat.mul_le_mul_right _ hprecor
        have h3 : (cornerOffset pre dpre + rangeCount pre) * (dpost.prod * d)
            = cornerOffset pre dpre * (dpost.prod * d)
              + (rangeCount pre - 1) * (dpost.prod * d) + dpost.prod * d := by
          obtain ⟨k, hk⟩ : ∃ k, rangeCount pre = k + 1 := ⟨rangeCount pre - 1, by omega⟩
          rw [hk]; simp only [Nat.add_sub_cancel]; ring
        omega

theorem computeStrides_sound {v : UA_Variant} {range : UA_NumericRange} {st : Strides}
    (hprod : DimensionProduct v) (h : computeStrides v range = .ok st) :
    StridesSound v.arrayLength st := by
  obtain ⟨hlen, hin⟩ := computeStrides_ok_within h
  rw [computeStrides_ok_eq hprod h]
  exact stridesOf_sound hlen hprod hin

theorem memcpy_mem (d s : List UA_Value) (doff soff n : Nat)
    (hs : soff + n ≤ s.length) (hd : doff + n ≤ d.length) :
    memcpy (.mem d) doff (.mem s) soff n = some (.mem (spliced d doff s soff n)) := by
  unfold memcpy spliced
  by_cases hn : n = 0
  · subst hn
    simp
  · rw [if_neg hn]
    simp [hs, hd]

theorem spliced_length (d s : List UA_Value) (doff soff n : Nat)
    (hs : soff + n ≤ s.length) (hd : doff + n ≤ d.length) :
    (spliced d doff s soff n).length = d.length := by
  simp only [spliced, List.length_append, List.length_take, List.length_drop]
  omega

theorem spliced_inside (d s : List UA_Value) (doff soff n j : Nat)
    (hs : soff + n ≤ s.length) (hd : doff + n ≤ d.length) (hj : j < n) :
    (spliced d doff s soff n)[doff + j]? = s[soff + j]? := by
  unfold spliced
  have h1 : (d.take doff).length = doff := by simp; omega
  have h2 : ((s.drop soff).take n).length = n := by simp; omega
  rw [List.append_assoc, List.getElem?_append_right (by omega), h1,
    List.getElem?_append_left (by omega)]
  simp [List.getElem?_take, hj]

theorem spliced_outside (d s : List UA_Value) (doff soff n p : Nat)
    (hs : soff + n ≤ s.length) (hd : doff + n ≤ d.length) (hp : p < doff ∨ doff + n ≤ p) :
    (spliced d doff s soff n)[p]? = d[p]? := by
  unfold spliced
  have h1 : (d.take doff).length = doff := by simp; omega
  have h2 : ((s.drop soff).take n).length = n := by simp; omega
  rcases hp with hp | hp
  · rw [List.append_assoc, List.getElem?_append_left (by omega)]
    simp [List.getElem?_take, hp]
  · rw [List.getElem?_append_right (by simp; omega)]
    simp only [List.length_append, h1, h2, List.getElem?_drop]
    congr 1
    omega

/-- The block loop on live memory: when every block lies inside both arrays and the
destination blocks do not overlap, the loop succeeds, copies block `i` of the
source onto block `i` of the destination, and leaves every other cell alone. -/
theorem memcpyBlocks_spec (s : List UA_Value) (b dstep sstep : Nat) (hds : b ≤ dstep) :
    ∀ (n nd ns : Nat) (d : List UA_Value),
    (∀ i < n, ns + i * sstep + b ≤ s.length ∧ nd + i * dstep + b ≤ d.length) →
    ∃ d', memcpyBlocks (.mem s) b dstep sstep n nd ns (.mem d) = some (.mem d') ∧
      d'.length = d.length ∧
      (∀ i < n, ∀ j < b, d'[nd + i * dstep + j]? = s[ns + i * sstep + j]?) ∧
      (∀ p, (∀ i < n, p < nd + i * dstep ∨ nd + i * dstep + b ≤ p) → d'[p]? = d[p]?)
  | 0, nd, ns, d, _ => ⟨d, rfl, rfl, by intro i hi; omega, by intro p _; rfl⟩
  | n + 1, nd, ns, d, hin => by
      have h0 := hin 0 (by omega)
      simp only [Nat.zero_mul, Nat.add_zero] at h0
      have hlen := spliced_length d s nd ns b h0.1 h0.2
      obtain ⟨d', hrun, hl, hcopy, hframe⟩ :=
        memcpyBlocks_spec s b dstep sstep hds n (nd + dstep) (ns + sstep)
          (spliced d nd s ns b) (by
            intro i hi
            have := hin (i + 1) (by omega)
            rw [hlen]
            rw [Nat.add_mul, Nat.add_mul] at this
            omega)
      refine ⟨d', ?_, by rw [hl, hlen], ?_, ?_⟩
      · simp only [memcpyBlocks]
        rw [memcpy_mem d s nd ns b h0.1 h0.2]
        exact hrun
      · intro i hi j hj
        cases i with
        | zero =>
            simp only [Nat.zero_mul, Nat.add_zero]
            rw [hframe (nd + j) (by
              intro i _
              left
              have : 0 ≤ i * dstep := Nat.zero_le _
              omega)]
            exact spliced_inside d s nd ns b j h0.1 h0.2 hj
        | succ i =>
            have := hcopy i (by omega) j hj
            rw [Nat.add_mul, Nat.add_mul]
            rw [show nd + (i * dstep + 1 * dstep) + j = nd + dstep + i * dstep + j by omega,
              show ns + (i * sstep + 1 * sstep) + j = ns + sstep + i * sstep + j by omega]
            exact this
      · intro p hp
        rw [hframe p (by
          intro i hi
          have := hp (i + 1) (by omega)
          rw [Nat.add_mul] at this
          omega)]
        have := hp 0 (by omega)
        simp only [Nat.zero_mul, Nat.add_zero] at this
        exact spliced_outside d s nd ns b p h0.1 h0.2 this

theorem dimsOf_length (v : UA_Variant) :
    (dimsOf v).length = if v.arrayDimensionsSize = 0 then 1 else v.arrayDimensionsSize := by
  unfold dimsOf
  by_cases h : v.arrayDimensionsSize = 0
  · simp [h]
  · rw [if_pos (by omega), if_neg h]; rfl

theorem copyRange_fixed (rt : UA_Runtime) (hm : ∀ n, rt.UA_malloc n = true) (fuel : Nat)
    (src : UA_Variant) (dst : UA_Value) (range : UA_NumericRange) (type : UA_DataType)
    (cells : List UA_Value) (st : Strides)
    (hty : src.type = some type) (hfix : type.fixedSize = true)
    (hprod : DimensionProduct src)
    (hdata : src.data = .mem cells) (hcells : cells.length = src.arrayLength)
    (hst : computeStrides src range = .ok st) :
    ∃ d', UA_Variant_copyRange rt (fuel + 1) src dst range
        = some (UA_STATUSCODE_GOOD, UA_Value.ofVariant (slicedVariant src type range st.total d')) ∧
      d'.length = st.total ∧
      ∀ p < st.total, d'[p]? = cells[st.first + (p / st.block) * st.stride + p % st.block]? := by
  obtain ⟨hlen, hin⟩ := computeStrides_ok_within hst
  have hsound := computeStrides_sound hprod hst
  obtain ⟨hb1, hbs, hsl, hdvd, hlast⟩ := hsound
  have hrl : range.length = if src.arrayDimensionsSize = 0 then 1 else src.arrayDimensionsSize := by
    rw [← dimsOf_length]; exact hin.length_eq
  have htot : st.total / st.block * st.block = st.total := Nat.div_mul_cancel hdvd
  have htpos : 0 < st.total := by
    rw [computeStrides_ok_eq hprod hst]; exact rangeCount_pos range
  have hbc : 0 < st.total / st.block := by
    rcases Nat.eq_zero_or_pos (st.total / st.block) with h | h
    · rw [h] at htot; omega
    · exact h
  -- the array is not a scalar
  have hApos : 0 < src.arrayLength := by omega
  have hns : UA_Variant_isScalar src = false := by
    unfold UA_Variant_isScalar
    have : (src.arrayLength == 0) = false := by simp; omega
    rw [this]; rfl
  obtain ⟨d', hrun, hl, hcopy, _⟩ :=
    memcpyBlocks_spec cells st.block st.block st.stride (le_refl _) (st.total / st.block) 0 st.first
      (List.replicate st.total UA_Value.uninit) (by
        intro i hi
        have h1 : i * st.stride ≤ (st.total / st.block - 1) * st.stride :=
          Nat.mul_le_mul_right _ (by omega)
        have h2 : (i + 1) * st.block ≤ st.total / st.block * st.block :=
          Nat.mul_le_mul_right _ (by omega)
        rw [Nat.add_mul] at h2
        simp only [List.length_replicate]
        omega)
  simp only [List.length_replicate] at hl
  refine ⟨d', ?_, hl, ?_⟩
  · have hdims : copyRange.dims src = range.length := by
      rw [hrl]; rfl
    have hsrc : copyRange.src src = src := by simp [copyRange.src, hns]
    have hthis : copyRange.thisrange src range = range := by
      simp [copyRange.thisrange, hns, hdims]
    have hnext : copyRange.nextrange src range = [] := by
      simp [copyRange.nextrange, hns, hdims]
    have hnb : st.block ≠ 0 := by omega
    simp only [UA_Variant_copyRange, copyRangeBody, hty, hns, hsrc, hthis, hnext, hdims]
    simp only [Bool.not_false, Bool.true_and, decide_eq_true_eq, Bool.false_eq_true, if_false]
    rw [if_neg (by omega)]
    simp only [hst, hm, Bool.not_true, Bool.false_eq_true, if_false, hnb, List.length_nil,
      if_true, hfix, hdata, hrun, Option.map_some']
    by_cases hd : src.arrayDimensionsSize > 0
    · simp [hd, UA_Variant_init, UA_Array_new_ok, hm, slicedVariant, widthsOf]
    · simp [hd, UA_Variant_init, slicedVariant]
  · intro p hp
    have hi : p / st.block < st.total / st.block := by
      apply Nat.div_lt_of_lt_mul
      rw [Nat.mul_comm, htot]; exact hp
    have hj : p % st.block < st.block := Nat.mod_lt _ (by omega)
    have := hcopy (p / st.block) hi (p % st.block) hj
    rw [Nat.zero_add, Nat.div_add_mod'] at this
    exact this

/-! ## setRange on an array of a fixed-size type -/

theorem checkRange_error : ∀ (range : UA_NumericRange) (dims : List Nat) (c : Nat)
    (e : UA_StatusCode), computeStrides.checkRange range dims c = .error e →
    e = UA_STATUSCODE_BADINDEXRANGEINVALID ∨ e = UA_STATUSCODE_BADINDEXRANGENODATA
  | [], _, _, _, h => by simp [computeStrides.checkRange] at h
  | _ :: _, [], _, _, h => by simp [computeStrides.checkRange] at h
  | r :: range, d :: dims, c, e, h => by
      simp only [computeStrides.checkRange] at h
      split at h
      · left; cases h; rfl
      · split at h
        · right; cases h; rfl
        · exact checkRange_error range dims _ e h

/-- Every status with which `computeStrides` rejects is one of the three bad codes. -/
theorem computeStrides_error {v : UA_Variant} {range : UA_NumericRange} {e : UA_StatusCode}
    (h : computeStrides v range = .error e) :
    e = UA_STATUSCODE_BADINTERNALERROR ∨ e = UA_STATUSCODE_BADINDEXRANGEINVALID ∨
      e = UA_STATUSCODE_BADINDEXRANGENODATA := by
  by_cases hlen : v.arrayLength ≤ UA_UINT32_MAX
  · rw [computeStrides_unfold v range hlen] at h
    split at h
    · left; cases h; rfl
    · split at h
      · right; right; cases h; rfl
      · split at h
        · next e' he =>
            cases h
            right
            exact checkRange_error _ _ _ _ he
        · cases h
  · unfold computeStrides at h
    rw [if_pos (by omega)] at h
    left; cases h; rfl

theorem computeStrides_error_ne_good {v : UA_Variant} {range : UA_NumericRange}
    {e : UA_StatusCode} (h : computeStrides v range = .error e) : e ≠ UA_STATUSCODE_GOOD := by
  rcases computeStrides_error h with rfl | rfl | rfl <;> decide

/-- The function `computeStrides` looks at `arrayLength` and `arrayDimensions` only. -/
theorem computeStrides_congr (v w : UA_Variant) (range : UA_NumericRange)
    (h1 : w.arrayLength = v.arrayLength) (h2 : w.arrayDimensions = v.arrayDimensions) :
    computeStrides w range = computeStrides v range := by
  unfold computeStrides UA_Variant.arrayDimensionsSize
  rw [h1, h2]

theorem setRange_fixed (rt : UA_Runtime) (v : UA_Variant) (range : UA_NumericRange)
    (copy : Bool) (type : UA_DataType) (cells a : List UA_Value) (st : Strides)
    (hty : v.type = some type) (hfix : type.fixedSize = true) (hprod : DimensionProduct v)
    (hdata : v.data = .mem cells) (hcells : cells.length = v.arrayLength)
    (hst : computeStrides v range = .ok st) (ha : a.length = st.total) :
    ∃ d', Variant_setRange rt v (.mem a) st.total range copy
        = some (UA_STATUSCODE_GOOD, { v with data := .mem d' }, .mem a) ∧
      d'.length = cells.length ∧
      (∀ i < st.total / st.block, ∀ j < st.block,
        d'[st.first + i * st.stride + j]? = a[i * st.block + j]?) ∧
      (∀ p, (∀ i < st.total / st.block,
          p < st.first + i * st.stride ∨ st.first + i * st.stride + st.block ≤ p) →
        d'[p]? = cells[p]?) := by
  obtain ⟨hb1, hbs, hsl, hdvd, hlast⟩ := computeStrides_sound hprod hst
  have htot : st.total / st.block * st.block = st.total := Nat.div_mul_cancel hdvd
  obtain ⟨d', hrun, hl, hcopy, hframe⟩ :=
    memcpyBlocks_spec a st.block st.stride st.block hbs (st.total / st.block) st.first 0
      cells (by
        intro i hi
        have h1 : i * st.stride ≤ (st.total / st.block - 1) * st.stride :=
          Nat.mul_le_mul_right _ (by omega)
        have h2 : (i + 1) * st.block ≤ st.total / st.block * st.block :=
          Nat.mul_le_mul_right _ (by omega)
        rw [Nat.add_mul] at h2
        omega)
  refine ⟨d', ?_, hl, ?_, hframe⟩
  · have hnb : st.block ≠ 0 := by omega
    simp only [Variant_setRange, hst, hty, hfix, hdata, hrun, hnb, ne_eq, not_true_eq_false,
      if_false, Bool.true_or, if_true, Option.map_some', Bool.not_true, Bool.and_false,
      Bool.false_eq_true]
  · intro i hi j hj
    have := hcopy i hi j hj
    rw [Nat.zero_add] at this
    exact this

/-! ## Row-major positions -/

theorem rowMajor_relative_lt : ∀ (range : UA_NumericRange) (idx : List Nat),
    IndexWithin range idx →
    rowMajor (range.map rangeWidth) (relativeIndex range idx) < rangeCount range
  | [], [], _ => by simp [rowMajor, rangeCount]
  | [], _ :: _, h => h.elim
  | _ :: _, [], h => h.elim
  | r :: range, i :: idx, h => by
      have ih := rowMajor_relative_lt range idx h.2
      have h1 := h.1
      simp only [List.map_cons, relativeIndex, rowMajor, rangeCount_cons]
      have hp : (List.map rangeWidth range).prod = rangeCount range := rfl
      rw [hp]
      have hw : i - r.min + 1 ≤ rangeWidth r := by unfold rangeWidth; omega
      calc (i - r.min) * rangeCount range
            + rowMajor (List.map rangeWidth range) (relativeIndex range idx)
          < (i - r.min) * rangeCount range + rangeCount range := by omega
        _ = (i - r.min + 1) * rangeCount range := by ring
        _ ≤ rangeWidth r * rangeCount range := Nat.mul_le_mul_right _ hw

theorem rowMajor_relative_full : ∀ (range : UA_NumericRange) (dims idx : List Nat),
    range.length = dims.length → RangeFull range dims → IndexWithin range idx →
    rowMajor (range.map rangeWidth) (relativeIndex range idx) = rowMajor dims idx
  | [], [], [], _, _, _ => rfl
  | [], _, _ :: _, _, _, h => h.elim
  | _ :: _, _, [], _, _, h => h.elim
  | [], _ :: _, [], h, _, _ => by simp at h
  | _ :: _, [], _ :: _, h, _, _ => by simp at h
  | r :: range, d :: dims, i :: idx, hl, hf, h => by
      have hl' : range.length = dims.length := by simpa using hl
      have ih := rowMajor_relative_full range dims idx hl' hf.2 h.2
      have hc := @RangeFull.count_eq range dims hl' hf.2
      have hp : (List.map rangeWidth range).prod = rangeCount range := rfl
      simp only [List.map_cons, relativeIndex, rowMajor, hp, hc, ih, hf.1.1, Nat.sub_zero]

/-- With at most two dimensions, the cell the block traversal reaches for the
destination position of a multi-index is the cell at the row-major position of
that multi-index in the source. -/
theorem strideLoop_position (range : UA_NumericRange) (dims idx : List Nat)
    (hin : RangeWithin range dims) (hb : dims.prod ≤ UA_UINT32_MAX) (h2 : dims.length ≤ 2)
    (hidx : IndexWithin range idx) :
    (strideLoop (rangeCount range) dims.prod range dims).first
        + rowMajor (range.map rangeWidth) (relativeIndex range idx)
            / (strideLoop (rangeCount range) dims.prod range dims).block
          * (strideLoop (rangeCount range) dims.prod range dims).stride
        + rowMajor (range.map rangeWidth) (relativeIndex range idx)
            % (strideLoop (rangeCount range) dims.prod range dims).block
      = rowMajor dims idx := by
  obtain ⟨_, hfirst, hno, hyes⟩ := strideLoop_spec (rangeCount range) dims.prod range dims hin hb
  have hplt := rowMajor_relative_lt range idx hidx
  generalize strideLoop (rangeCount range) dims.prod range dims = s at hfirst hno hyes ⊢
  obtain ⟨blk, str, fst, run, fnd⟩ := s
  cases fnd with
  | false =>
      obtain ⟨hfull, hbk, hs⟩ := hno rfl
      simp only at hbk hs hfirst
      subst hbk hs hfirst
      simp only
      rw [hfull.corner_eq, Nat.div_eq_of_lt hplt, Nat.mod_eq_of_lt hplt,
        rowMajor_relative_full range dims idx hin.length_eq hfull hidx]
      simp
  | true =>
      obtain ⟨pre, r, post, dpre, d, dpost, e1, e2, hpre, hpost, hfull, hlo, hhi, hne, hbk, hs⟩ :=
        hyes rfl
      simp only at hbk hs hfirst
      subst hbk hs hfirst
      simp only
      have hcp := hfull.count_eq hpost.length_eq
      have hpp := hpost.prod_pos
      have hmp : (List.map rangeWidth post).prod = dpost.prod := hcp
      have hwpos : 0 < dpost.prod * rangeWidth r :=
        Nat.mul_pos hpp (by unfold rangeWidth; omega)
      have hblock : ∀ (i : Nat) (ipost : List Nat), r.min ≤ i → i ≤ r.max →
          IndexWithin post ipost →
          (i - r.min) * dpost.prod + rowMajor dpost ipost < dpost.prod * rangeWidth r := by
        intro i ipost h1 h2 hip
        have hq := rowMajor_relative_lt post ipost hip
        rw [rowMajor_relative_full post dpost ipost hpost.length_eq hfull hip, hcp] at hq
        have hw : i - r.min + 1 ≤ rangeWidth r := by unfold rangeWidth; omega
        calc (i - r.min) * dpost.prod + rowMajor dpost ipost
            < (i - r.min) * dpost.prod + dpost.prod := by omega
          _ = dpost.prod * (i - r.min + 1) := by ring
          _ ≤ dpost.prod * rangeWidth r := Nat.mul_le_mul_left _ hw
      rcases pre with _ | ⟨r0, pre'⟩ <;> rcases dpre with _ | ⟨d0, dpre'⟩
      · simp only [List.nil_append] at e1 e2
        subst e1 e2
        rcases idx with _ | ⟨i, ipost⟩
        · exact hidx.elim
        · have hqe := rowMajor_relative_full post dpost ipost hpost.length_eq hfull hidx.2
          have hi := hidx.1
          have hlt := hblock i ipost hi.1 hi.2 hidx.2
          simp only [List.map_cons, relativeIndex, rowMajor, hmp, hqe, cornerOffset,
            hfull.corner_eq, Nat.add_zero]
          rw [Nat.div_eq_of_lt hlt, Nat.mod_eq_of_lt hlt]
          have : r.min * dpost.prod + (i - r.min) * dpost.prod = i * dpost.prod := by
            rw [← Nat.add_mul]; congr 1; omega
          omega
      · exact hpre.elim
      · exact hpre.elim
      · have hd' : dpre' = [] := by
          simp only [e2, List.length_append, List.length_cons] at h2
          exact List.eq_nil_of_length_eq_zero (by omega)
        subst hd'
        have hp' : pre' = [] := by
          rcases pre' with _ | ⟨_, _⟩
          · rfl
          · exact hpre.2.elim
        subst hp'
        simp only [List.cons_append, List.nil_append] at e1 e2
        subst e1 e2
        rcases idx with _ | ⟨i0, _ | ⟨i, ipost⟩⟩
        · exact hidx.elim
        · exact hidx.2.elim
        · have hqe := rowMajor_relative_full post dpost ipost hpost.length_eq hfull hidx.2.2
          have hi0 := hidx.1
          have hi := hidx.2.1
          have hr0 := hpre.1
          have hlt := hblock i ipost hi.1 hi.2 hidx.2.2
          simp only [List.map_cons, relativeIndex, rowMajor, hmp, hqe, cornerOffset,
            hfull.corner_eq, Nat.add_zero, List.prod_cons]
          have hsplit : (i0 - r0.min) * (rangeWidth r * dpost.prod)
                + ((i - r.min) * dpost.prod + rowMajor dpost ipost)
              = ((i - r.min) * dpost.prod + rowMajor dpost ipost)
                + dpost.prod * rangeWidth r * (i0 - r0.min) := by ring
          rw [hsplit, Nat.add_mul_div_left _ _ hwpos, Nat.add_mul_mod_self_left,
            Nat.div_eq_of_lt hlt, Nat.mod_eq_of_lt hlt, Nat.zero_add]
          have e1 : r.min * dpost.prod + (i - r.min) * dpost.prod = i * dpost.prod := by
            rw [← Nat.add_mul]; congr 1; omega
          have e2 : r0.min * (d * dpost.prod) + (i0 - r0.min) * (dpost.prod * d)
              = i0 * (d * dpost.prod) := by
            rw [Nat.mul_comm dpost.prod d, ← Nat.add_mul]; congr 1; omega
          omega

/-! ## What a good return of copyRange on an array says -/

theorem copyRange_good_array (rt : UA_Runtime) (fuel : Nat) (src : UA_Variant) (dst d : UA_Value)
    (range : UA_NumericRange) (hns : UA_Variant_isScalar src = false)
    (h : UA_Variant_copyRange rt fuel src dst range = some (UA_STATUSCODE_GOOD, d)) :
    ∃ type st data, src.type = some type ∧ copyRange.dims src ≤ range.length ∧
      computeStrides src (range.take (copyRange.dims src)) = .ok st ∧
      d = UA_Value.ofVariant
        { type := some type, storageType := UA_VARIANT_DATA, arrayLength := st.total,
          data := data,
          arrayDimensions :=
            if src.arrayDimensionsSize > 0 then widthsOf (range.take (copyRange.dims src))
            else [] } := by
  cases fuel with
  | zero => simp [UA_Variant_copyRange] at h
  | succ fuel =>
    cases hty : src.type with
    | none => simp [UA_Variant_copyRange, copyRangeBody, hty] at h
    | some type =>
      simp only [UA_Variant_copyRange, copyRangeBody, hty, hns, copyRange.src,
        copyRange.thisrange, copyRange.nextrange, Bool.not_false, Bool.true_and,
        decide_eq_true_eq, Bool.false_eq_true, if_false] at h
      split at h
      · simp [UA_STATUSCODE_BADINDEXRANGEINVALID, UA_STATUSCODE_GOOD] at h
      · next hdims =>
        split at h
        · next e he =>
          have := computeStrides_error_ne_good he
          simp only [Option.some.injEq, Prod.mk.injEq] at h
          exact absurd h.1 this
        · next st hst =>
          split at h
          · simp [UA_STATUSCODE_BADOUTOFMEMORY, UA_STATUSCODE_GOOD, UA_Variant_init] at h
          · split at h
            · cases h
            · split at h
              · cases h
              · next fin _ =>
                split at h
                · next hbad =>
                  split at h
                  · cases h
                  · simp only [Option.some.injEq, Prod.mk.injEq] at h
                    exact absurd h.1 hbad
                · split at h
                  · next hd =>
                    split at h
                    · simp [UA_STATUSCODE_BADOUTOFMEMORY, UA_STATUSCODE_GOOD] at h
                    · simp only [Option.some.injEq, Prod.mk.injEq, true_and] at h
                      refine ⟨type, st, fin.dst, rfl, by omega, hst, ?_⟩
                      rw [← h, if_pos hd]
                      rfl
                  · next hd =>
                    simp only [Option.some.injEq, Prod.mk.injEq, true_and] at h
                    refine ⟨type, st, fin.dst, rfl, by omega, hst, ?_⟩
                    rw [← h, if_neg hd]
                    rfl

theorem RangeWithin.dims_le_prod : ∀ {range : UA_NumericRange} {dims : List Nat},
    RangeWithin range dims → ∀ d ∈ dims, d ≤ dims.prod
  | [], [], _ => by simp
  | [], _ :: _, h => h.elim
  | _ :: _, [], h => h.elim
  | r :: range, d :: dims, h => by
      intro x hx
      have hpos := h.2.prod_pos
      have hd : 0 < d := by have := h.1; omega
      rw [List.prod_cons]
      rcases List.mem_cons.1 hx with rfl | hx
      · exact Nat.le_mul_of_pos_right _ hpos
      · exact le_trans (@RangeWithin.dims_le_prod range dims h.2 x hx)
          (Nat.le_mul_of_pos_left _ hd)

/-- Inside a shape of UInt32 extents the widths stored in the destination are the
widths `max - min + 1`: the 32-bit arithmetic does not wrap. -/
theorem widthsOf_eq : ∀ (range : UA_NumericRange) (dims : List Nat),
    RangeWithin range dims → (∀ d ∈ dims, d ≤ UA_UINT32_MAX) →
    widthsOf range = range.map rangeWidth
  | [], _, _, _ => rfl
  | _ :: _, [], h, _ => h.elim
  | r :: range, d :: dims, h, hd => by
      have ih := widthsOf_eq range dims h.2 (fun x hx => hd x (List.mem_cons_of_mem _ hx))
      have h1 := h.1
      have hdm := hd d (List.mem_cons_self _ _)
      unfold UA_UINT32_MAX at hdm
      unfold widthsOf at ih ⊢
      simp only [List.map_cons, ih]
      congr 1
      unfold rangeWidth
      exact u32_width _ _ h1.1 (by omega)

theorem dimsOf_le_max (v : UA_Variant) (hlen : v.arrayLength ≤ UA_UINT32_MAX)
    (htyped : ∀ d ∈ v.arrayDimensions, d ≤ UA_UINT32_MAX) :
    ∀ d ∈ dimsOf v, d ≤ UA_UINT32_MAX := by
  unfold dimsOf
  split
  · exact htyped
  · intro d hd
    rw [List.mem_singleton.1 hd]
    exact hlen

theorem thisrange_array (src : UA_Variant) (range : UA_NumericRange)
    (hns : UA_Variant_isScalar src = false) :
    copyRange.thisrange src range = range.take (copyRange.dims src) := by
  simp [copyRange.thisrange, hns]

theorem elementLoop_bad (body : UA_Value → UA_Value → Option (UA_StatusCode × UA_Value))
    (combine : UA_StatusCode → UA_StatusCode → UA_StatusCode) (src : UA_Ptr UA_Value)
    (n : Nat) (s : LoopState) (hbad : s.retval ≠ UA_STATUSCODE_GOOD) :
    elementLoop body combine true src n s = some s := by
  cases n with
  | zero => rfl
  | succ n => simp [elementLoop, hbad]

/-- Once `retval` is bad before the copy loops of the nested-range branch, they copy
nothing: the status and the destination memory come out as they went in. -/
theorem blockLoop_bad (body : UA_Value → UA_Value → Option (UA_StatusCode × UA_Value))
    (combine : UA_StatusCode → UA_StatusCode → UA_StatusCode) (skipSrc : Bool)
    (src : UA_Ptr UA_Value) (block stride : Nat) :
    ∀ (n : Nat) (s : LoopState), s.retval ≠ UA_STATUSCODE_GOOD →
    ∃ s', blockLoop body combine true skipSrc src block stride n s = some s' ∧
      s'.retval = s.retval ∧ s'.dst = s.dst
  | 0, s, _ => ⟨s, rfl, rfl, rfl⟩
  | n + 1, s, hbad => by
      simp only [blockLoop, elementLoop_bad body combine src block s hbad]
      cases skipSrc with
      | true =>
          obtain ⟨s', h1, h2, h3⟩ :=
            blockLoop_bad body combine true src block stride n
              { s with nextsrc := s.nextsrc + (stride - block) } hbad
          exact ⟨s', h1, h2, h3⟩
      | false =>
          obtain ⟨s', h1, h2, h3⟩ :=
            blockLoop_bad body combine false src block stride n
              { s with nextdst := s.nextdst + (stride - block) } hbad
          exact ⟨s', h1, h2, h3⟩

/-- The clean-up `UA_Array_delete` of an array of a fixed-size type only frees the
array: the elements are not looked at. -/
theorem UA_Array_deleteWith_fixed (fns : DeleteFns) (cells : List UA_Value) (size : Nat)
    (type : UA_DataType) (hfix : type.fixedSize = true) :
    UA_Array_deleteWith fns (.mem cells) size type = some [cells] := by
  simp [UA_Array_deleteWith, hfix, andThen, UA_free, clearSentinel]

/-- The nested-range branch of `UA_Variant_copyRange` on a fixed-size element type, which
cannot take the remaining range: index-range-no-data, destination zeroed. -/
theorem copyRange_nextrange_rejected (rt : UA_Runtime) (hm : ∀ n, rt.UA_malloc n = true)
    (fuel : Nat) (orig_src : UA_Variant) (dst : UA_Value) (range : UA_NumericRange)
    (type : UA_DataType) (st : Strides)
    (hty : orig_src.type = some type) (hfix : type.fixedSize = true)
    (hnv : isVariantType type = false)
    (hcase : isStringLike type = false ∨ (copyRange.nextrange orig_src range).length ≠ 1)
    (hnext : copyRange.nextrange orig_src range ≠ [])
    (hst : computeStrides (copyRange.src orig_src) (copyRange.thisrange orig_src range) = .ok st)
    (hprod : DimensionProduct (copyRange.src orig_src)) :
    UA_Variant_copyRange rt (fuel + 1) orig_src dst range
      = some (UA_STATUSCODE_BADINDEXRANGENODATA, UA_Value.ofVariant UA_Variant_init) := by
  obtain ⟨hb1, _, _, _, _⟩ := computeStrides_sound hprod hst
  have hnb : st.block ≠ 0 := by omega
  have hlen : (copyRange.nextrange orig_src range).length ≠ 0 := by
    intro h; exact hnext (List.eq_nil_of_length_eq_zero h)
  have hearly : ¬ ((!UA_Variant_isScalar orig_src
      && decide (copyRange.dims orig_src > range.length)) = true) := by
    cases hs : UA_Variant_isScalar orig_src with
    | true => simp
    | false =>
        simp only [copyRange.nextrange, hs, Bool.false_eq_true, if_false, List.length_drop]
          at hlen
        simp only [Bool.not_false, Bool.true_and, decide_eq_true_eq]
        omega
  have hret : (if isVariantType type = true then UA_STATUSCODE_GOOD
      else if (!isStringLike type || (copyRange.nextrange orig_src range).length != 1) = true
        then UA_STATUSCODE_BADINDEXRANGENODATA else UA_STATUSCODE_GOOD)
      = UA_STATUSCODE_BADINDEXRANGENODATA := by
    rw [if_neg (by simp [hnv])]
    rcases hcase with h | h
    · simp [h]
    · have : ((copyRange.nextrange orig_src range).length != 1) = true := by simpa using h
      simp [this]
  simp only [UA_Variant_copyRange, copyRangeBody, hty]
  rw [if_neg hearly]
  simp only [hst, hm, Bool.not_true, Bool.false_eq_true, if_false, hnb, hlen, hret]
  obtain ⟨s', hrun, hr, hdst⟩ := blockLoop_bad
    (fun c d =>
      if isStringLike type = true then
        match c.asString, (copyRange.nextrange orig_src range).head? with
        | some s, some dim => copySubString rt s d dim
        | _, _ => none
      else
        match c.asVariant with
        | some v => UA_Variant_copyRange rt fuel v d (copyRange.nextrange orig_src range)
        | none => none)
    (fun _ rv => rv) true (copyRange.src orig_src).data st.block st.stride
    (st.total / st.block)
    { retval := UA_STATUSCODE_BADINDEXRANGENODATA, nextdst := 0, nextsrc := st.first,
      dst := .mem (List.replicate st.total .uninit) }
    (show UA_STATUSCODE_BADINDEXRANGENODATA ≠ UA_STATUSCODE_GOOD by decide)
  rw [hrun]
  simp only [hr, hdst]
  rw [if_pos (by decide), UA_Array_deleteWith_fixed _ _ _ _ hfix]

theorem computeStrides_count_mismatch (v : UA_Variant) (range : UA_NumericRange)
    (hlen : v.arrayLength ≤ UA_UINT32_MAX) (hprod : DimensionProduct v)
    (hmis : range.length ≠ (dimsOf v).length) :
    computeStrides v range = .error UA_STATUSCODE_BADINDEXRANGENODATA := by
  rw [computeStrides_unfold v range hlen]
  have h1 : ¬ (v.arrayDimensionsSize > 0 ∧ usize v.arrayDimensions.prod ≠ v.arrayLength) := by
    rintro ⟨hpos, hne⟩
    apply hne
    rw [hprod hpos]
    exact usize_of_lt (by unfold UA_UINT32_MAX at hlen; omega)
  rw [if_neg h1, if_pos hmis]

/-! ## Substrings -/

/-- Scenario S5: the scalar String `"abcdefg"` with the range `[{2,4}]` gives the
one-element array `["cde"]`. -/
theorem scenario_S5_substring (fuel : Nat) (dst : UA_Value) :
    UA_Variant_copyRange servingRuntime (fuel + 1) (scalarString scenarioS5String) dst [⟨2, 4⟩]
      = some (UA_STATUSCODE_GOOD, UA_Value.ofVariant
          { type := some typeString, storageType := UA_VARIANT_DATA, arrayLength := 0,
            data := .mem [UA_Value.string 3 (.mem (byteCells "cde"))],
            arrayDimensions := [] }) := rfl

/-- The function `copySubString` inside the string, with a serving allocator and a width
below 2^32: good, and the destination is the substring `src[a..b]`. -/
theorem copySubString_spec (rt : UA_Runtime) (hm : ∀ n, rt.UA_malloc n = true) (s : UA_String)
    (dst : UA_Value) (bytes : List UA_Value) (a b : Nat)
    (hdata : s.data = .mem bytes) (hbytes : bytes.length = s.length)
    (hab : a ≤ b) (hb : b < s.length) (hw : b - a < UA_UINT32_MAX) :
    copySubString rt s dst ⟨a, b⟩
      = some (UA_STATUSCODE_GOOD,
          UA_Value.string (b - a + 1) (.mem ((bytes.drop a).take (b - a + 1)))) := by
  unfold UA_UINT32_MAX at hw
  have hlen : u32 (u32sub b a + 1) = b - a + 1 := by
    unfold u32sub u32
    omega
  have hn : b - a + 1 ≠ 0 := by omega
  have hmc : memcpy (.mem (List.replicate (b - a + 1) UA_Value.uninit)) 0 (.mem bytes) a (b - a + 1)
      = some (.mem ((bytes.drop a).take (b - a + 1))) := by
    rw [memcpy_mem _ _ _ _ _ (by omega) (by simp)]
    simp [spliced]
  simp only [copySubString, UA_ByteString_allocBuffer, hlen, hm, hdata, UA_Value.asString]
  rw [if_neg (by omega), if_neg (by omega)]
  simp [hn, hmc]

/-- Slicing a scalar string-like Variant with a one-dimensional range of width below
2^32: good, and the destination holds the one substring. -/
theorem copyRange_scalar_substring (rt : UA_Runtime) (hm : ∀ n, rt.UA_malloc n = true)
    (fuel : Nat) (v : UA_Variant) (dst : UA_Value) (type : UA_DataType) (s : UA_String)
    (bytes : List UA_Value) (a b : Nat)
    (hty : v.type = some type) (hsl : isStringLike type = true)
    (hlen0 : v.arrayLength = 0) (hvdata : v.data = .mem [UA_Value.ofString s])
    (hdims : v.arrayDimensions = [])
    (hdata : s.data = .mem bytes) (hbytes : bytes.length = s.length)
    (hab : a ≤ b) (hb : b < s.length) (hw : b - a < UA_UINT32_MAX) :
    UA_Variant_copyRange rt (fuel + 1) v dst [⟨a, b⟩]
      = some (UA_STATUSCODE_GOOD, UA_Value.ofVariant
          { type := some type, storageType := UA_VARIANT_DATA, arrayLength := 0,
            data := .mem [UA_Value.string (b - a + 1) (.mem ((bytes.drop a).take (b - a + 1)))],
            arrayDimensions := [] }) := by
  have hsc : UA_Variant_isScalar v = true := by
    simp [UA_Variant_isScalar, hlen0, hvdata]
  have hcs : computeStrides (copyRange.src v) [⟨0, 0⟩]
      = .ok { total := 1, block := 1, stride := 1, first := 0 } := by
    rw [computeStrides_congr { UA_Variant_init with arrayLength := 1 } (copyRange.src v) _
      (by simp [copyRange.src, hsc]) (by simp [copyRange.src, hsc, hdims, UA_Variant_init])]
    rfl
  have hsub := copySubString_spec rt hm s UA_Value.uninit bytes a b hdata hbytes hab hb hw
  have hsd : (copyRange.src v).data = .mem [UA_Value.ofString s] := by
    simp [copyRange.src, hsc, hvdata]
  have hsz : (copyRange.src v).arrayDimensionsSize = 0 := by
    simp [copyRange.src, hsc, UA_Variant.arrayDimensionsSize, hdims]
  have has : (UA_Value.ofString s).asString = some s := rfl
  simp only [UA_Variant_copyRange, copyRangeBody, hty, hsc, copyRange.thisrange,
    copyRange.nextrange, if_true, Bool.not_true, Bool.false_and, Bool.false_eq_true, if_false,
    hcs, hm, hsd, hsl]
  simp [blockLoop, elementLoop, loadCell, storeCell, has, hsub, UA_STATUSCODE_GOOD,
    UA_Variant_init]

/-! ## Lemmas: strings and NodeIds -/

theorem takeWhile_append_nul (a : List Nat) (ha : 0 ∉ a) :
    (a ++ [0]).takeWhile (fun c => c != 0) = a := by
  induction a with
  | nil => simp
  | cons x xs ih =>
      have hx : x ≠ 0 := fun h => ha (by simp [h])
      have hxs : 0 ∉ xs := fun h => ha (by simp [h])
      have hb : (x != 0) = true := by simpa using hx
      show (x :: (xs ++ [0])).takeWhile (fun c => c != 0) = x :: xs
      rw [List.takeWhile_cons, hb]
      simp only [if_true]
      rw [ih hxs]

theorem strlen_append_nul (a : List Nat) (ha : 0 ∉ a) : strlen (a ++ [0]) = some a.length := by
  unfold strlen
  have hc : (a ++ [0]).contains 0 = true := by simp
  rw [if_pos hc, takeWhile_append_nul a ha]

theorem mapM_asByte_fixed (a : List Nat) :
    (a.map UA_Value.fixed).mapM UA_Value.asByte = some a := by
  induction a with
  | nil => rfl
  | cons x xs ih =>
      rw [List.map_cons, List.mapM_cons, ih]
      rfl

theorem readBytes_fixed (a : List Nat) :
    readBytes (.mem (a.map UA_Value.fixed)) a.length = some a := by
  unfold readBytes
  have h : a.length ≤ (a.map UA_Value.fixed).length := by simp
  simp only [if_pos h]
  have e : (a.map UA_Value.fixed).take a.length = a.map UA_Value.fixed := by
    apply List.take_of_length_le
    simp
  rw [e, mapM_asByte_fixed]

theorem fromChars_spec (malloc : Nat → Bool) (a : List Nat) (ha : 0 ∉ a)
    (hm : ∀ n, malloc n = true) :
    UA_String_fromChars malloc (a ++ [0]) =
      some { length := a.length,
             data := if a.length > 0 then .mem (a.map UA_Value.fixed) else .sentinel } := by
  unfold UA_String_fromChars
  rw [strlen_append_nul a ha]
  by_cases h : a.length > 0
  · simp [h, hm]
  · simp [h]

theorem memcmpEq_fixed (a b : List Nat) (h : a.length = b.length) (hpos : a.length ≠ 0) :
    memcmpEq (.mem (a.map UA_Value.fixed)) (.mem (b.map UA_Value.fixed)) a.length =
      some (decide (a = b)) := by
  unfold memcmpEq
  rw [if_neg hpos, readBytes_fixed a]
  have hb := readBytes_fixed b
  rw [← h] at hb
  rw [hb]

theorem memcmpEq_comm (p1 p2 : UA_Ptr UA_Value) (n : Nat) :
    memcmpEq p1 p2 n = memcmpEq p2 p1 n := by
  unfold memcmpEq
  by_cases h : n = 0
  · simp [h]
  · simp only [if_neg h]
    cases h1 : readBytes p1 n <;> cases h2 : readBytes p2 n <;> simp [eq_comm]

theorem memcmpEq_self (p : UA_Ptr UA_Value) (n : Nat)
    (h : n = 0 ∨ (readBytes p n).isSome = true) : memcmpEq p p n = some true := by
  unfold memcmpEq
  by_cases hn : n = 0
  · simp [hn]
  · rcases h with h | h
    · exact absurd h hn
    · rw [if_neg hn]
      cases hr : readBytes p n with
      | none => simp [hr] at h
      | some b => simp

theorem UA_String_equal_comm (a b : UA_String) : UA_String_equal a b = UA_String_equal b a := by
  unfold UA_String_equal
  by_cases h : a.length = b.length
  · have h' : ¬ b.length ≠ a.length := by simp [h]
    have h'' : ¬ a.length ≠ b.length := by simp [h]
    rw [if_neg h', if_neg h'', memcmpEq_comm, h]
  · have h' : b.length ≠ a.length := fun e => h e.symm
    rw [if_pos h, if_pos h']

theorem UA_String_equal_self (a : UA_String) (h : stringReadable a = true) :
    UA_String_equal a a = some true := by
  unfold UA_String_equal
  simp only [ne_eq, not_true_eq_false, if_false]
  apply memcmpEq_self
  simpa [stringReadable] using h

theorem UA_Guid_equal_comm (a b : UA_Guid) : UA_Guid_equal a b = UA_Guid_equal b a := by
  unfold UA_Guid_equal
  have e1 : (a.data1 == b.data1) = (b.data1 == a.data1) := by simp [eq_comm]
  have e2 : (a.data2 == b.data2) = (b.data2 == a.data2) := by simp [eq_comm]
  have e3 : (a.data3 == b.data3) = (b.data3 == a.data3) := by simp [eq_comm]
  have e4 : (fun i => a.data4.getD i 0 == b.data4.getD i 0)
      = (fun i => b.data4.getD i 0 == a.data4.getD i 0) := by
    funext i
    simp [eq_comm]
  rw [e1, e2, e3, e4]

theorem UA_Guid_equal_self (a : UA_Guid) : UA_Guid_equal a a = true := by
  simp [UA_Guid_equal]

theorem UA_NodeId_equal_comm (a b : UA_NodeId) : UA_NodeId_equal a b = UA_NodeId_equal b a := by
  unfold UA_NodeId_equal
  by_cases h : a.namespaceIndex ≠ b.namespaceIndex ∨ a.identifierType ≠ b.identifierType
  · have h' : b.namespaceIndex ≠ a.namespaceIndex ∨ b.identifierType ≠ a.identifierType := by
      rcases h with h | h
      · exact Or.inl (fun e => h e.symm)
      · exact Or.inr (fun e => h e.symm)
    rw [if_pos h, if_pos h']
  · have h' : ¬ (b.namespaceIndex ≠ a.namespaceIndex ∨ b.identifierType ≠ a.identifierType) := by
      intro hh
      apply h
      rcases hh with hh | hh
      · exact Or.inl (fun e => hh e.symm)
      · exact Or.inr (fun e => hh e.symm)
    rw [if_neg h, if_neg h']
    have ht : a.identifierType = b.identifierType := by
      by_contra e
      exact h (Or.inr e)
    rw [← ht]
    by_cases k1 : a.identifierType = UA_NODEIDTYPE_NUMERIC
    · simp only [if_pos k1]
      cases a.identifier.asNumeric <;> cases b.identifier.asNumeric <;> simp [eq_comm]
    · simp only [if_neg k1]
      by_cases k2 : a.identifierType = UA_NODEIDTYPE_STRING
      · simp only [if_pos k2]
        cases a.identifier.asString <;> cases b.identifier.asString <;>
          simp [UA_String_equal_comm]
      · simp only [if_neg k2]
        by_cases k3 : a.identifierType = UA_NODEIDTYPE_GUID
        · simp only [if_pos k3]
          cases a.identifier.asGuid <;> cases b.identifier.asGuid <;>
            simp [UA_Guid_equal_comm]
        · simp only [if_neg k3]
          by_cases k4 : a.identifierType = UA_NODEIDTYPE_BYTESTRING
          · simp only [if_pos k4]
            cases a.identifier.asString <;> cases b.identifier.asString <;>
              simp [UA_ByteString_equal, UA_String_equal_comm]
          · simp only [if_neg k4]

theorem UA_NodeId_equal_self (a : UA_NodeId) (hr : nodeIdReadable a = true) :
    UA_NodeId_equal a a = some true := by
  unfold UA_NodeId_equal
  unfold nodeIdReadable at hr
  simp only [ne_eq, not_true_eq_false, or_self, if_false]
  by_cases k1 : a.identifierType = UA_NODEIDTYPE_NUMERIC
  · simp only [if_pos k1] at hr ⊢
    cases h : a.identifier.asNumeric with
    | none => simp [h] at hr
    | some n => simp
  · simp only [if_neg k1] at hr ⊢
    by_cases k3 : a.identifierType = UA_NODEIDTYPE_GUID
    · have k2 : a.identifierType ≠ UA_NODEIDTYPE_STRING := by
        rw [k3]; decide
      simp only [if_pos k3, if_neg k2] at hr ⊢
      cases h : a.identifier.asGuid with
      | none => simp [h] at hr
      | some g => simp [UA_Guid_equal_self]
    · simp only [if_neg k3] at hr ⊢
      by_cases k : a.identifierType = UA_NODEIDTYPE_STRING ∨
          a.identifierType = UA_NODEIDTYPE_BYTESTRING
      · simp only [if_pos k] at hr
        cases h : a.identifier.asString with
        | none => simp [h] at hr
        | some s =>
            simp only [h] at hr
            rcases k with k | k
            · simp only [if_pos k]
              exact UA_String_equal_self s hr
            · have k2 : a.identifierType ≠ UA_NODEIDTYPE_STRING := by
                rw [k]; decide
              simp only [if_neg k2, if_pos k, UA_ByteString_equal]
              exact UA_String_equal_self s hr
      · simp [if_neg k] at hr

theorem UA_NodeId_equal_stray (a : UA_NodeId) (hk : ¬ NodeIdKind a.identifierType) :
    UA_NodeId_equal a a = some false := by
  unfold NodeIdKind at hk
  unfold UA_NodeId_equal
  simp only [not_or] at hk
  obtain ⟨k1, k2, k3, k4⟩ := hk
  simp [k1, k2, k3, k4]

/-! ## Lemmas: the copy engine -/

theorem standardTypes_leaves : StandardLeaves standardTypes :=
  ⟨rfl, rfl, rfl, rfl⟩

theorem UA_copyWith_failure (fns : CopyFns) (src : UA_Value) (type : UA_DataType)
    (st : UA_StatusCode) (d : UA_Value) (h : UA_copyWith fns src type = some (st, d))
    (hst : st ≠ UA_STATUSCODE_GOOD) : d = .zeroed := by
  unfold UA_copyWith at h
  cases hc : fns.copy_noInit src type with
  | none => simp [hc] at h
  | some r =>
      obtain ⟨retval, dst⟩ := r
      simp only [hc] at h
      by_cases hr : retval ≠ UA_STATUSCODE_GOOD
      · rw [if_pos hr] at h
        simp only [Option.some.injEq, Prod.mk.injEq, UA_deleteMembers] at h
        exact h.2.symm
      · rw [if_neg hr] at h
        simp only [Option.some.injEq, Prod.mk.injEq] at h
        exact absurd (h.1 ▸ not_not.mp hr) hst

theorem readBytes_mem (p : UA_Ptr UA_Value) (n : Nat) (h : (readBytes p n).isSome = true) :
    ∃ cells, p = .mem cells ∧ n ≤ cells.length := by
  cases p with
  | mem cells =>
      refine ⟨cells, rfl, ?_⟩
      by_contra hn
      simp [readBytes, hn] at h
  | null => simp [readBytes] at h
  | sentinel => simp [readBytes] at h
  | freed => simp [readBytes] at h

theorem readBytes_take (cells : List UA_Value) (n : Nat) (h : n ≤ cells.length) :
    readBytes (.mem (cells.take n)) n = readBytes (.mem cells) n := by
  unfold readBytes
  have h1 : n ≤ (cells.take n).length := by simp [h]
  simp only [if_pos h, if_pos h1, List.take_take, Nat.min_self]

theorem memcpy_fresh (cells : List UA_Value) (n : Nat) (hn : n ≠ 0) (h : n ≤ cells.length) :
    memcpy (.mem (List.replicate n .zeroed)) 0 (.mem cells) 0 n = some (.mem (cells.take n)) := by
  unfold memcpy
  rw [if_neg hn]
  simp [h]

/-- The array copy of the bytes of a readable String. -/
theorem UA_Array_copyWith_bytes (malloc : Nat → Bool) (fns : CopyFns) (s : UA_String)
    (type : UA_DataType) (hfix : type.fixedSize = true) (hr : stringReadable s = true) :
    UA_Array_copyWith malloc fns s.data s.length .null (some type) =
      if s.length = 0 then some (UA_STATUSCODE_GOOD, emptyCopy s.data)
      else if !malloc (s.length * type.memSize) then some (UA_STATUSCODE_BADOUTOFMEMORY, .null)
      else some (UA_STATUSCODE_GOOD, .mem ((s.data.cells?.getD []).take s.length)) := by
  unfold UA_Array_copyWith
  by_cases hz : s.length = 0
  · simp only [if_pos hz, emptyCopy]
    cases s.data <;> rfl
  · simp only [if_neg hz]
    by_cases hm : malloc (s.length * type.memSize) = true
    · simp only [hm, Bool.not_true, Bool.false_eq_true, if_false, hfix, if_true]
      have hrb : (readBytes s.data s.length).isSome = true := by
        simpa [stringReadable, hz] using hr
      obtain ⟨cells, hc, hle⟩ := readBytes_mem _ _ hrb
      rw [hc, memcpy_fresh cells s.length hz hle]
      simp [UA_Ptr.cells?]
    · simp [hm]

theorem stringLike_members (T : UA_DataType) (hT : isStringLike T = true) :
    ∃ m rest, T.members = m :: rest ∧ T.membersSize = 1 ∧ m.isArray = true ∧
      m.namespaceZero = true ∧ m.memberTypeIndex = UA_TYPES_BYTE := by
  unfold isStringLike at hT
  cases hm : T.members with
  | nil => simp [hm] at hT
  | cons m rest =>
      simp only [hm, Bool.and_eq_true, beq_iff_eq] at hT
      exact ⟨m, rest, rfl, hT.1.1.1, hT.1.1.2, hT.1.2, hT.2⟩

/-- The member loop on a String cell of a string-like type: one array copy. -/
theorem copy_noInitWith_bytes (ts : UA_TypeSystem) (malloc : Nat → Bool) (fns : CopyFns)
    (T : UA_DataType) (hT : isStringLike T = true) (c : UA_Value) (s : UA_String)
    (hc : c.asString = some s) :
    copy_noInitWith ts malloc fns c T =
      match UA_Array_copyWith malloc fns s.data s.length .null
          (some (ts.UA_TYPES UA_TYPES_BYTE)) with
      | none => none
      | some (rv, p) =>
          some (rv, .string (if rv = UA_STATUSCODE_GOOD then s.length else 0) p) := by
  obtain ⟨m, rest, hmem, hsize, harr, hns, hidx⟩ := stringLike_members T hT
  have hcells : memberCells c T.membersSize = some [c] := by
    rw [hsize]
    cases c <;> simp [memberCells, UA_Value.asString] at hc ⊢
  have hlen : ¬ T.members.length < T.membersSize := by
    rw [hmem, hsize]
    simp
  have htake : T.members.take T.membersSize = [m] := by
    rw [hmem, hsize]
    simp
  have hmt : memberType ts T m = ts.UA_TYPES UA_TYPES_BYTE := by
    simp [memberType, hns, hidx]
  unfold copy_noInitWith
  rw [if_neg hlen]
  simp only [hcells, htake, copy_noInit.members, harr, Bool.not_true, Bool.false_eq_true,
    if_false, hc, hmt]
  cases hcp : UA_Array_copyWith malloc fns s.data s.length .null
      (some (ts.UA_TYPES UA_TYPES_BYTE)) with
  | none => rfl
  | some r =>
      obtain ⟨rv, p⟩ := r
      have hor : UA_STATUSCODE_GOOD ||| rv = rv := by
        simp [UA_STATUSCODE_GOOD]
      simp only [hor]
      cases c <;> simp [joinMembers, UA_Value.asString] at hc ⊢

/-- The copy of a readable String through `UA_copy` with a string-like descriptor. -/
theorem UA_copy_bytes (ts : UA_TypeSystem) (malloc : Nat → Bool) (fuel : Nat)
    (T : UA_DataType) (hT : isStringLike T = true)
    (hB : (ts.UA_TYPES UA_TYPES_BYTE).fixedSize = true) (c : UA_Value) (s : UA_String)
    (hc : c.asString = some s) (hr : stringReadable s = true) :
    UA_copyWith (copyFns ts malloc (fuel + 1)) c T =
      some (copiedString malloc (ts.UA_TYPES UA_TYPES_BYTE).memSize s) := by
  unfold UA_copyWith
  show (match copy_noInitWith ts malloc (copyFns ts malloc fuel) c T with
    | none => none
    | some (retval, dst) =>
        if retval ≠ UA_STATUSCODE_GOOD then some (retval, UA_deleteMembers dst T)
        else some (retval, dst)) = _
  rw [copy_noInitWith_bytes ts malloc _ T hT c s hc,
    UA_Array_copyWith_bytes malloc _ s _ hB hr]
  unfold copiedString
  by_cases hz : s.length = 0
  · simp [hz]
  · simp only [if_neg hz]
    by_cases hm : malloc (s.length * (ts.UA_TYPES UA_TYPES_BYTE).memSize) = true
    · simp [hm]
    · simp only [hm, Bool.not_false, if_true]
      simp [UA_deleteMembers, UA_STATUSCODE_BADOUTOFMEMORY, UA_STATUSCODE_GOOD]

/-- A copied String is equal to its source. -/
theorem copiedString_equal (malloc : Nat → Bool) (byteSize : Nat) (s : UA_String)
    (hr : stringReadable s = true) (d : UA_Value)
    (h : copiedString malloc byteSize s = (UA_STATUSCODE_GOOD, d)) :
    ∃ ds, d.asString = some ds ∧ UA_String_equal s ds = some true := by
  unfold copiedString at h
  by_cases hz : s.length = 0
  · rw [if_pos hz] at h
    simp only [Prod.mk.injEq, true_and] at h
    subst h
    refine ⟨_, rfl, ?_⟩
    simp [UA_String_equal, hz, memcmpEq]
  · rw [if_neg hz] at h
    by_cases hm : malloc (s.length * byteSize) = true
    · simp only [hm, Bool.not_true, Bool.false_eq_true, if_false, Prod.mk.injEq, true_and] at h
      subst h
      refine ⟨_, rfl, ?_⟩
      have hrb : (readBytes s.data s.length).isSome = true := by
        simpa [stringReadable, hz] using hr
      obtain ⟨cells, hc, hle⟩ := readBytes_mem _ _ hrb
      unfold UA_String_equal
      simp only [ne_eq, not_true_eq_false, if_false]
      unfold memcmpEq
      rw [if_neg hz, hc]
      simp only [UA_Ptr.cells?, Option.getD_some]
      rw [readBytes_take cells s.length hle]
      rw [hc] at hrb
      cases hb : readBytes (.mem cells) s.length with
      | none => simp [hb] at hrb
      | some b => simp
    · simp only [hm, Bool.not_false, if_true, Prod.mk.injEq] at h
      exact absurd h.1 (by decide)

/-- The copy of a Guid cell through `UA_copy` with the Guid descriptor. -/
theorem UA_copy_guid (ts : UA_TypeSystem) (malloc : Nat → Bool) (fuel : Nat)
    (hG : ts.UA_TYPES UA_TYPES_GUID = typeGuid) (c : UA_Value) (g : UA_Guid)
    (hc : c.asGuid = some g) :
    UA_copyWith (copyFns ts malloc (fuel + 1)) c (ts.UA_TYPES UA_TYPES_GUID) =
      some (UA_STATUSCODE_GOOD, c) := by
  have hG13 : ts.UA_TYPES 13 = typeGuid := hG
  rw [hG]
  unfold UA_copyWith
  show (match copy_noInitWith ts malloc (copyFns ts malloc fuel) c typeGuid with
    | none => none
    | some (retval, dst) =>
        if retval ≠ UA_STATUSCODE_GOOD then some (retval, UA_deleteMembers dst typeGuid)
        else some (retval, dst)) = _
  have hcopy : copy_noInitWith ts malloc (copyFns ts malloc fuel) c typeGuid =
      some (UA_STATUSCODE_GOOD, c) := by
    cases c <;> simp [UA_Value.asGuid] at hc <;>
      simp [copy_noInitWith, typeGuid, builtinLeaf, memberCells, copy_noInit.members,
        memberType, UA_TYPES_GUID, hG13, copyJumpTable, copyGuid, joinMembers,
        UA_STATUSCODE_GOOD]
  rw [hcopy]
  simp

theorem copyFns_zero_copy (ts : UA_TypeSystem) (malloc : Nat → Bool) (c : UA_Value)
    (T : UA_DataType) : UA_copyWith (copyFns ts malloc 0) c T = none := rfl

theorem NodeId_copy_stray (ts : UA_TypeSystem) (malloc : Nat → Bool) (fuel : Nat)
    (a : UA_NodeId) (hk : ¬ NodeIdKind a.identifierType) :
    NodeId_copy ts malloc fuel a = some (UA_STATUSCODE_BADINTERNALERROR, .zeroed) := by
  unfold NodeIdKind at hk
  simp only [not_or] at hk
  obtain ⟨k1, k2, k3, k4⟩ := hk
  simp [NodeId_copy, NodeId_copyWith, k1, k2, k3, k4]

theorem NodeId_copy_numeric (ts : UA_TypeSystem) (malloc : Nat → Bool) (fuel : Nat)
    (a : UA_NodeId) (hk : a.identifierType = UA_NODEIDTYPE_NUMERIC) :
    NodeId_copy ts malloc fuel a = some (UA_STATUSCODE_GOOD, UA_Value.ofNodeId a) := by
  simp [NodeId_copy, NodeId_copyWith, hk]

theorem NodeId_copy_string (ts : UA_TypeSystem) (malloc : Nat → Bool) (fuel : Nat)
    (a : UA_NodeId) (hts : StandardLeaves ts)
    (hk : a.identifierType = UA_NODEIDTYPE_STRING ∨
      a.identifierType = UA_NODEIDTYPE_BYTESTRING)
    (s : UA_String) (hs : a.identifier.asString = some s) (hr : stringReadable s = true) :
    NodeId_copy ts malloc (fuel + 1) a =
      some ((copiedString malloc (ts.UA_TYPES UA_TYPES_BYTE).memSize s).1,
        .nodeId a.namespaceIndex a.identifierType
          (copiedString malloc (ts.UA_TYPES UA_TYPES_BYTE).memSize s).2) := by
  have hor : ∀ rv : UA_StatusCode, UA_STATUSCODE_GOOD ||| rv = rv := by
    intro rv
    simp [UA_STATUSCODE_GOOD]
  unfold NodeId_copy NodeId_copyWith
  rcases hk with hk | hk
  · have k1 : a.identifierType ≠ UA_NODEIDTYPE_NUMERIC := by rw [hk]; decide
    simp only [if_neg k1, if_pos hk, UA_String_copyWith]
    rw [UA_copy_bytes ts malloc fuel _ hts.string_like hts.byte_fixed _ s hs hr]
    simp only [hor]
  · have k1 : a.identifierType ≠ UA_NODEIDTYPE_NUMERIC := by rw [hk]; decide
    have k2 : a.identifierType ≠ UA_NODEIDTYPE_STRING := by rw [hk]; decide
    have k3 : a.identifierType ≠ UA_NODEIDTYPE_GUID := by rw [hk]; decide
    simp only [if_neg k1, if_neg k2, if_neg k3, if_pos hk, UA_ByteString_copyWith]
    rw [UA_copy_bytes ts malloc fuel _ hts.byteString_like hts.byte_fixed _ s hs hr]
    simp only [hor]

theorem NodeId_copy_guid (ts : UA_TypeSystem) (malloc : Nat → Bool) (fuel : Nat)
    (a : UA_NodeId) (hts : StandardLeaves ts) (hk : a.identifierType = UA_NODEIDTYPE_GUID)
    (g : UA_Guid) (hg : a.identifier.asGuid = some g) :
    NodeId_copy ts malloc (fuel + 1) a =
      some (UA_STATUSCODE_GOOD, .nodeId a.namespaceIndex a.identifierType a.identifier) := by
  have k1 : a.identifierType ≠ UA_NODEIDTYPE_NUMERIC := by rw [hk]; decide
  have k2 : a.identifierType ≠ UA_NODEIDTYPE_STRING := by rw [hk]; decide
  unfold NodeId_copy NodeId_copyWith
  simp only [if_neg k1, if_neg k2, if_pos hk, UA_Guid_copyWith]
  rw [UA_copy_guid ts malloc fuel hts.guid_leaf _ g hg]
  simp [UA_STATUSCODE_GOOD]

theorem NodeId_copy_zero (ts : UA_TypeSystem) (malloc : Nat → Bool) (a : UA_NodeId)
    (hk : a.identifierType ≠ UA_NODEIDTYPE_NUMERIC) (st : UA_StatusCode) (b : UA_Value)
    (h : NodeId_copy ts malloc 0 a = some (st, b)) : st ≠ UA_STATUSCODE_GOOD := by
  unfold NodeId_copy NodeId_copyWith at h
  simp only [if_neg hk, UA_String_copyWith, UA_Guid_copyWith, UA_ByteString_copyWith,
    copyFns_zero_copy] at h
  by_cases k2 : a.identifierType = UA_NODEIDTYPE_STRING
  · simp [k2] at h
  · by_cases k3 : a.identifierType = UA_NODEIDTYPE_GUID
    · simp [k2, k3] at h
    · by_cases k4 : a.identifierType = UA_NODEIDTYPE_BYTESTRING
      · simp [k2, k3, k4] at h
      · simp only [if_neg k2, if_neg k3, if_neg k4, Option.some.injEq, Prod.mk.injEq] at h
        rw [← h.1]
        decide

/-- The readable payload of a NodeId, by kind. -/
theorem nodeIdReadable_cases (a : UA_NodeId) (hr : nodeIdReadable a = true) :
    (a.identifierType = UA_NODEIDTYPE_NUMERIC ∧ ∃ n, a.identifier.asNumeric = some n) ∨
    (a.identifierType = UA_NODEIDTYPE_GUID ∧ ∃ g, a.identifier.asGuid = some g) ∨
    ((a.identifierType = UA_NODEIDTYPE_STRING ∨ a.identifierType = UA_NODEIDTYPE_BYTESTRING) ∧
      ∃ s, a.identifier.asString = some s ∧ stringReadable s = true) := by
  unfold nodeIdReadable at hr
  by_cases k1 : a.identifierType = UA_NODEIDTYPE_NUMERIC
  · rw [if_pos k1] at hr
    exact Or.inl ⟨k1, Option.isSome_iff_exists.mp hr⟩
  · rw [if_neg k1] at hr
    by_cases k3 : a.identifierType = UA_NODEIDTYPE_GUID
    · rw [if_pos k3] at hr
      exact Or.inr (Or.inl ⟨k3, Option.isSome_iff_exists.mp hr⟩)
    · rw [if_neg k3] at hr
      by_cases k : a.identifierType = UA_NODEIDTYPE_STRING ∨
          a.identifierType = UA_NODEIDTYPE_BYTESTRING
      · rw [if_pos k] at hr
        cases hs : a.identifier.asString with
        | none => simp [hs] at hr
        | some s =>
            simp only [hs] at hr
            exact Or.inr (Or.inr ⟨k, s, rfl, hr⟩)
      · simp [if_neg k] at hr

theorem nodeIdReadable_kind (a : UA_NodeId) (hr : nodeIdReadable a = true) :
    NodeIdKind a.identifierType := by
  unfold NodeIdKind
  rcases nodeIdReadable_cases a hr with h | h | h
  · exact Or.inl h.1
  · exact Or.inr (Or.inr (Or.inl h.1))
  · rcases h.1 with k | k
    · exact Or.inr (Or.inl k)
    · exact Or.inr (Or.inr (Or.inr k))

/-- A good copy of a readable NodeId is equal to its source. -/
theorem NodeId_copy_good_equal (ts : UA_TypeSystem) (malloc : Nat → Bool) (fuel : Nat)
    (a : UA_NodeId) (hts : StandardLeaves ts) (hr : nodeIdReadable a = true) (b : UA_Value)
    (h : NodeId_copy ts malloc fuel a = some (UA_STATUSCODE_GOOD, b)) :
    ∃ b', b.asNodeId = some b' ∧ UA_NodeId_equal a b' = some true := by
  rcases nodeIdReadable_cases a hr with ⟨k, _⟩ | ⟨k, g, hg⟩ | ⟨k, s, hs, hsr⟩
  · rw [NodeId_copy_numeric ts malloc fuel a k] at h
    simp only [Option.some.injEq, Prod.mk.injEq, true_and] at h
    subst h
    exact ⟨a, rfl, UA_NodeId_equal_self a hr⟩
  · have k1 : a.identifierType ≠ UA_NODEIDTYPE_NUMERIC := by rw [k]; decide
    cases fuel with
    | zero => exact absurd rfl (NodeId_copy_zero ts malloc a k1 _ _ h)
    | succ fuel =>
        rw [NodeId_copy_guid ts malloc fuel a hts k g hg] at h
        simp only [Option.some.injEq, Prod.mk.injEq, true_and] at h
        subst h
        exact ⟨a, rfl, UA_NodeId_equal_self a hr⟩
  · have k1 : a.identifierType ≠ UA_NODEIDTYPE_NUMERIC := by
      rcases k with k | k <;> rw [k] <;> decide
    cases fuel with
    | zero => exact absurd rfl (NodeId_copy_zero ts malloc a k1 _ _ h)
    | succ fuel =>
        rw [NodeId_copy_string ts malloc fuel a hts k s hs hsr] at h
        simp only [Option.some.injEq, Prod.mk.injEq] at h
        obtain ⟨h1, h2⟩ := h
        have hcs : copiedString malloc (ts.UA_TYPES UA_TYPES_BYTE).memSize s =
            (UA_STATUSCODE_GOOD, (copiedString malloc (ts.UA_TYPES UA_TYPES_BYTE).memSize s).2) := by
          rw [← h1]
        obtain ⟨ds, hds, heq⟩ := copiedString_equal malloc _ s hsr _ hcs
        subst h2
        refine ⟨_, rfl, ?_⟩
        unfold UA_NodeId_equal
        simp only [ne_eq, not_true_eq_false, or_self, if_false, if_neg k1, hs, hds]
        rcases k with k | k
        · simp only [if_pos k]
          exact heq
        · have k2 : a.identifierType ≠ UA_NODEIDTYPE_STRING := by rw [k]; decide
          have k3 : a.identifierType ≠ UA_NODEIDTYPE_GUID := by rw [k]; decide
          simp only [if_neg k2, if_neg k3, if_pos k, UA_ByteString_equal]
          exact heq

/-- With the allocation succeeding, the copy of a readable NodeId returns good. -/
theorem NodeId_copy_returns (ts : UA_TypeSystem) (malloc : Nat → Bool) (fuel : Nat)
    (a : UA_NodeId) (hts : StandardLeaves ts) (hr : nodeIdReadable a = true)
    (hm : ∀ n, malloc n = true) :
    ∃ b, NodeId_copy ts malloc (fuel + 1) a = some (UA_STATUSCODE_GOOD, b) := by
  rcases nodeIdReadable_cases a hr with ⟨k, _⟩ | ⟨k, g, hg⟩ | ⟨k, s, hs, hsr⟩
  · exact ⟨_, NodeId_copy_numeric ts malloc _ a k⟩
  · exact ⟨_, NodeId_copy_guid ts malloc fuel a hts k g hg⟩
  · have hst : (copiedString malloc (ts.UA_TYPES UA_TYPES_BYTE).memSize s).1 =
        UA_STATUSCODE_GOOD := by
      unfold copiedString
      by_cases hz : s.length = 0
      · simp [hz]
      · simp [hz, hm]
    refine ⟨.nodeId a.namespaceIndex a.identifierType
      (copiedString malloc (ts.UA_TYPES UA_TYPES_BYTE).memSize s).2, ?_⟩
    rw [NodeId_copy_string ts malloc fuel a hts k s hs hsr, hst]

/-! ## Lemmas: the destination of a failed copyRange -/

theorem copyRange_failure_state (rt : UA_Runtime) (fuel : Nat) (orig_src : UA_Variant)
    (dst d : UA_Value) (range : UA_NumericRange) (st : UA_StatusCode)
    (h : UA_Variant_copyRange rt fuel orig_src dst range = some (st, d))
    (hst : st ≠ UA_STATUSCODE_GOOD) :
    (rangeRejected orig_src range = true → d = dst) ∧
    (rangeRejected orig_src range = false →
      UA_Array_new_ok rt (copyRange.thisrange orig_src range).length sizeof_UInt32 = true →
      d = UA_Value.ofVariant UA_Variant_init) := by
  cases fuel with
  | zero => simp [UA_Variant_copyRange] at h
  | succ fuel =>
    cases hty : orig_src.type with
    | none => simp [UA_Variant_copyRange, copyRangeBody, hty] at h
    | some type =>
      simp only [UA_Variant_copyRange, copyRangeBody, hty] at h
      unfold rangeRejected
      split at h
      · next hg =>
        simp only [Option.some.injEq, Prod.mk.injEq] at h
        rw [hg]
        simp [h.2]
      · next hg =>
        have hg' : (!UA_Variant_isScalar orig_src &&
            decide (copyRange.dims orig_src > range.length)) = false := by
          simpa using hg
        rw [hg']
        split at h
        · next e he =>
          simp only [Option.some.injEq, Prod.mk.injEq] at h
          simp [he, h.2]
        · next s hs =>
          refine ⟨fun hrej => by simp [hs] at hrej, fun _ hnew => ?_⟩
          split at h
          · simp only [Option.some.injEq, Prod.mk.injEq] at h
            exact h.2.symm
          · split at h
            · cases h
            · split at h
              · cases h
              · next fin _ =>
                split at h
                · split at h
                  · cases h
                  · simp only [Option.some.injEq, Prod.mk.injEq] at h
                    exact h.2.symm
                · split at h
                  · simp only [Option.some.injEq, Prod.mk.injEq] at h
                    exact absurd h.1.symm hst
                  · split at h
                    · split at h
                      · next hno =>
                        rw [hnew] at hno
                        simp at hno
                      · simp only [Option.some.injEq, Prod.mk.injEq] at h
                        exact absurd h.1.symm hst
                    · simp only [Option.some.injEq, Prod.mk.injEq] at h
                      exact absurd h.1.symm hst

/-! ## Lemmas: the array copy of one element -/

theorem UA_Array_copyWith_one (malloc : Nat → Bool) (fns : CopyFns) (t : UA_DataType)
    (c d : UA_Value) (rest : List UA_Value) (hm : malloc (1 * t.memSize) = true)
    (hd : if t.fixedSize then d = c else UA_copyWith fns c t = some (UA_STATUSCODE_GOOD, d)) :
    UA_Array_copyWith malloc fns (.mem (c :: rest)) 1 .null (some t) =
      some (UA_STATUSCODE_GOOD, .mem [d]) := by
  unfold UA_Array_copyWith
  simp only [one_ne_zero, if_false, hm, Bool.not_true, Bool.false_eq_true]
  by_cases hf : t.fixedSize = true
  · simp only [hf, if_true] at hd ⊢
    subst hd
    simp [memcpy]
  · simp only [hf, Bool.false_eq_true, if_false] at hd ⊢
    simp [elementLoop, loadCell, storeCell, hd, UA_STATUSCODE_GOOD]

/-! ## Lemmas: the outputs of computeStrides -/

theorem StridesSound.index_lt {arrayLength : Nat} {st : Strides}
    (h : StridesSound arrayLength st) (i j : Nat) (hi : i < st.total / st.block)
    (hj : j < st.block) : st.first + i * st.stride + j < arrayLength := by
  have hl := h.last_le
  have hi' : i ≤ st.total / st.block - 1 := by omega
  have hm : i * st.stride ≤ (st.total / st.block - 1) * st.stride :=
    Nat.mul_le_mul_right _ hi'
  omega

theorem StridesSound.blocks_apart {arrayLength : Nat} {st : Strides}
    (h : StridesSound arrayLength st) (i i' : Nat) (hi : i < i') :
    st.first + i * st.stride + st.block ≤ st.first + i' * st.stride := by
  have hb := h.block_le_stride
  have hm : (i + 1) * st.stride ≤ i' * st.stride := Nat.mul_le_mul_right _ hi
  rw [Nat.add_mul, Nat.one_mul] at hm
  omega

/-! ## Lemmas: the frame of setRange -/

theorem andThen_nil : andThen (some []) (some []) = some [] := rfl

theorem andThen_some {a b : Option (List (List UA_Value))} {r : List (List UA_Value)}
    (h : andThen a b = some r) : ∃ x y, a = some x ∧ b = some y := by
  cases a with
  | none => simp [andThen] at h
  | some x =>
      cases b with
      | none => simp [andThen] at h
      | some y => exact ⟨x, y, rfl, rfl⟩

/-- Every entry of the delete jump table that is defined on some member releases
nothing on a zeroed member. -/
theorem deleteMembersJumpTable_zeroed (fns : DeleteFns)
    (hfns : ∀ c T r, fns.deleteMembers_noInit c T = some r →
      fns.deleteMembers_noInit .zeroed T = some [])
    (fi : Nat) (c : UA_Value) (mt : UA_DataType) (r : List (List UA_Value))
    (h : deleteMembersJumpTable fns fi c mt = some r) :
    deleteMembersJumpTable fns fi .zeroed mt = some [] := by
  by_cases hfi : fi ≤ 25
  · interval_cases fi
    all_goals first
      | rfl
      | exact hfns c mt r h
  · have h26 : 26 ≤ fi := by omega
    obtain ⟨k, rfl⟩ := Nat.exists_eq_add_of_le' h26
    have hnone : deleteMembersJumpTable fns (k + 26) c mt = none := rfl
    rw [hnone] at h
    cases h

theorem UA_Array_deleteWith_null (fns : DeleteFns) (mt : UA_DataType) :
    UA_Array_deleteWith fns .null 0 mt = some [] := by
  unfold UA_Array_deleteWith
  cases mt.fixedSize <;> rfl

/-- The member loop that is defined on some cells releases nothing on zeroed cells. -/
theorem members_zeroed (ts : UA_TypeSystem) (fns : DeleteFns)
    (hfns : ∀ c T r, fns.deleteMembers_noInit c T = some r →
      fns.deleteMembers_noInit .zeroed T = some [])
    (type : UA_DataType) :
    ∀ (ms : List UA_DataTypeMember) (cells : List UA_Value) (r : List (List UA_Value)),
      deleteMembers_noInit.members ts fns type ms cells = some r →
      deleteMembers_noInit.members ts fns type ms (List.replicate ms.length .zeroed) = some []
  | [], _, _, _ => rfl
  | _ :: _, [], _, h => by simp [deleteMembers_noInit.members] at h
  | m :: ms, c :: cs, r, h => by
      simp only [deleteMembers_noInit.members] at h
      simp only [List.length_cons, List.replicate_succ, deleteMembers_noInit.members]
      by_cases harr : m.isArray = true
      · simp only [harr, Bool.not_true, Bool.false_eq_true, if_false] at h ⊢
        cases hc : c.asString with
        | none => simp [hc] at h
        | some a =>
            simp only [hc] at h
            obtain ⟨x, y, _, hy⟩ := andThen_some h
            have ih := members_zeroed ts fns hfns type ms cs y hy
            simp only [UA_Value.asString, UA_STRING_NULL, UA_Array_deleteWith_null, ih]
            rfl
      · simp only [harr, Bool.not_false, if_true] at h ⊢
        obtain ⟨x, y, hx, hy⟩ := andThen_some h
        have ih := members_zeroed ts fns hfns type ms cs y hy
        rw [deleteMembersJumpTable_zeroed fns hfns _ c _ x hx, ih]
        rfl

theorem deleteMembers_noInitWith_zeroed (ts : UA_TypeSystem) (fns : DeleteFns)
    (hfns : ∀ c T r, fns.deleteMembers_noInit c T = some r →
      fns.deleteMembers_noInit .zeroed T = some [])
    (a : UA_Value) (T : UA_DataType) (r : List (List UA_Value))
    (h : deleteMembers_noInitWith ts fns a T = some r) :
    deleteMembers_noInitWith ts fns .zeroed T = some [] := by
  unfold deleteMembers_noInitWith at h ⊢
  by_cases hlen : T.members.length < T.membersSize
  · simp [hlen] at h
  · simp only [hlen, if_false] at h ⊢
    cases hc : memberCells a T.membersSize with
    | none => simp [hc] at h
    | some cells =>
        simp only [hc] at h
        have hz := members_zeroed ts fns hfns T _ cells r h
        have hl : (T.members.take T.membersSize).length = T.membersSize := by
          rw [List.length_take]
          omega
        rw [hl] at hz
        simp only [memberCells]
        exact hz

/-- A second `deleteMembers_noInit`, on the zeroed buffer, releases nothing. -/
theorem deleteMembers_noInit_zeroed (ts : UA_TypeSystem) :
    ∀ (fuel : Nat) (a : UA_Value) (T : UA_DataType) (r : List (List UA_Value)),
      deleteMembers_noInit ts fuel a T = some r →
      deleteMembers_noInit ts fuel .zeroed T = some []
  | 0, _, _, _, h => by simp [deleteMembers_noInit, deleteFns] at h
  | fuel + 1, a, T, r, h =>
      deleteMembers_noInitWith_zeroed ts (deleteFns ts fuel)
        (fun c T r h => deleteMembers_noInit_zeroed ts fuel c T r h) a T r h

/-! ## Lemmas: DateTime and Guid -/

theorem toStruct_defined (secs_to_tm : Int → tm) (t : Int)
    (ht : INT64_MIN + UA_DATETIME_UNIX_EPOCH ≤ t) :
    ∃ tSt, UA_DateTime_toStruct secs_to_tm t = some tSt := by
  unfold UA_DateTime_toStruct
  have h : ¬ t - UA_DATETIME_UNIX_EPOCH < INT64_MIN := by omega
  rw [if_neg h]
  exact ⟨_, rfl⟩

theorem toStruct_subsecond (secs_to_tm : Int → tm) (t : Int) (ht : 0 ≤ t) :
    ∃ s, UA_DateTime_toStruct secs_to_tm t = some s ∧
      (s.nanoSec : Int) = t % 10 * 100 ∧ (s.microSec : Int) = t % 10000 / 10 ∧
      (s.milliSec : Int) = t % 10000000 / 10000 := by
  unfold UA_DateTime_toStruct
  have h : ¬ t - UA_DATETIME_UNIX_EPOCH < INT64_MIN := by
    unfold UA_DATETIME_UNIX_EPOCH UA_SEC_TO_DATETIME INT64_MIN
    omega
  rw [if_neg h]
  refine ⟨_, rfl, ?_, ?_, ?_⟩
  · simp only [u16]
    rw [Int.tmod_eq_emod ht (by decide)]
    omega
  · simp only [u16]
    rw [Int.tmod_eq_emod ht (by decide), Int.tdiv_eq_ediv (by omega) (by decide)]
    omega
  · simp only [u16]
    rw [Int.tmod_eq_emod ht (by decide), Int.tdiv_eq_ediv (by omega) (by decide)]
    omega

theorem decimalValue_append (l : List Nat) (c : Nat) :
    decimalValue (l ++ [c]) = decimalValue l * 10 + (c - 48) := by
  simp [decimalValue, List.foldl_append]

theorem zeroPadded_length : ∀ (w n : Nat), (zeroPadded w n).length = w
  | 0, _ => rfl
  | w + 1, n => by simp [zeroPadded, zeroPadded_length w]

theorem zeroPadded_digits : ∀ (w n c : Nat), c ∈ zeroPadded w n → 48 ≤ c ∧ c ≤ 57
  | 0, _, _, h => by simp [zeroPadded] at h
  | w + 1, n, c, h => by
      simp only [zeroPadded, List.mem_append, List.mem_singleton] at h
      rcases h with h | h
      · exact zeroPadded_digits w _ c h
      · have := Nat.mod_lt n (show 10 > 0 by decide)
        omega

theorem zeroPadded_value : ∀ (w n : Nat), decimalValue (zeroPadded w n) = n % 10 ^ w
  | 0, n => by simp [zeroPadded, decimalValue, Nat.mod_one]
  | w + 1, n => by
      rw [zeroPadded, decimalValue_append, zeroPadded_value w (n / 10), Nat.pow_succ,
        Nat.mul_comm (10 ^ w) 10, Nat.mod_mul]
      omega

theorem toString_layout (malloc : Nat → Bool) (secs_to_tm : Int → tm) (t : Int)
    (tSt : UA_DateTimeStruct) (hm : malloc 32 = true)
    (hs : UA_DateTime_toStruct secs_to_tm t = some tSt) :
    UA_DateTime_toString malloc secs_to_tm t =
      some { length := 31,
             data := .mem ((dateTimeLayout tSt).map UA_Value.fixed ++ [.uninit]) } := by
  unfold UA_DateTime_toString
  rw [hm, hs]
  simp [runWrites, UA_DateTime_toString.writes, printNumber, storeCell, dateTimeLayout,
    zeroPadded, List.replicate]

theorem guidOfDraws_eq {σ : Type} (rng : σ → Nat × σ) (s : σ) :
    (UA_Guid_random rng s).1 =
      guidOfDraws (rng s).1 (rng (rng s).2).1 (rng (rng (rng s).2).2).1
        (rng (rng (rng (rng s).2).2).2).1 := by
  have e : List.range 4 = [0, 1, 2, 3] := by decide
  simp only [UA_Guid_random, guidOfDraws, e, List.map_cons, List.map_nil, u32,
    Nat.shiftRight_eq_div_pow, UA_Guid.mk.injEq, List.cons_append, List.nil_append,
    List.cons.injEq, and_true]
  refine ⟨by norm_num, by norm_num, ?_, by norm_num, by norm_num, by norm_num, by norm_num,
    by norm_num, by norm_num, by norm_num, by norm_num⟩
  norm_num
  omega

/-! ## The claims -/

/-- C1 (the code at the failing input): on the UInt32 array `[100,...,107]` with
`arrayDimensions = [2,2,2]` and the in-bounds range `[{0,1},{0,0},{0,0}]`,
`UA_Variant_copyRange` returns good with the data `[100,102]`.  The multi-index
`(1,0,0)` lies in the range, its row-major position in the source is 4 (the cell
104) and its position in the destination shape `[2,1,1]` is 1, where the
destination holds the cell 102 instead. -/
theorem C1_three_dimensions_wrong_cell (fuel : Nat) (dst : UA_Value) :
    RangeWithin cubeRange cubeArray.arrayDimensions ∧
      IndexWithin cubeRange [1, 0, 0] ∧
      UA_Variant_copyRange servingRuntime (fuel + 1) cubeArray dst cubeRange
        = some (UA_STATUSCODE_GOOD, UA_Value.ofVariant
            { type := some typeUInt32, storageType := UA_VARIANT_DATA, arrayLength := 2,
              data := .mem (uint32Cells [100, 102]), arrayDimensions := [2, 1, 1] }) ∧
      (uint32Cells [100, 101, 102, 103, 104, 105, 106, 107])[rowMajor [2, 2, 2] [1, 0, 0]]?
        = some (UA_Value.fixed 104) ∧
      (uint32Cells [100, 102])[rowMajor [2, 1, 1] (relativeIndex cubeRange [1, 0, 0])]?
        = some (UA_Value.fixed 102) := by
  refine ⟨by decide, by simp [IndexWithin, cubeRange], rfl, rfl, rfl⟩

/-- C2: setRange preimage round trip.  Let `v` be an array Variant of a fixed-size
element type that satisfies the dimension-product invariant and whose data holds
`arrayLength` cells, and let `a` be a source array of `n` cells.  If
`UA_Variant_setRangeCopy(v, a, n, range)` returns good and leaves `v'`, then (with a
serving allocator, for every recursion bound and every previous content of the
destination) `UA_Variant_copyRange(v', w, range)` returns good, `w.arrayLength = n`
and the data of `w` is `a`, cell by cell. -/
theorem C2_setRange_copyRange_round_trip (rt : UA_Runtime) (hm : ∀ n, rt.UA_malloc n = true)
    (v : UA_Variant) (type : UA_DataType) (cells a : List UA_Value) (n : Nat)
    (range : UA_NumericRange) (v' : UA_Variant) (a' : UA_Ptr UA_Value) (fuel : Nat)
    (w0 : UA_Value)
    (hty : v.type = some type) (hfix : type.fixedSize = true) (hprod : DimensionProduct v)
    (hdata : v.data = .mem cells) (hcells : cells.length = v.arrayLength) (ha : a.length = n)
    (hset : UA_Variant_setRangeCopy rt v (.mem a) n range = some (UA_STATUSCODE_GOOD, v', a')) :
    ∃ w, UA_Variant_copyRange rt (fuel + 1) v' w0 range
        = some (UA_STATUSCODE_GOOD, UA_Value.ofVariant w) ∧
      w.arrayLength = n ∧ w.data = .mem a := by
  unfold UA_Variant_setRangeCopy at hset
  cases hst : computeStrides v range with
  | error e =>
      have hne := computeStrides_error_ne_good hst
      simp only [Variant_setRange, hst, Option.some.injEq, Prod.mk.injEq] at hset
      exact absurd hset.1 hne
  | ok st =>
      by_cases hn : st.total = n
      · subst hn
        obtain ⟨d', hrun, hl, hcopy, _⟩ :=
          setRange_fixed rt v range true type cells a st hty hfix hprod hdata hcells hst ha
        rw [hrun] at hset
        simp only [Option.some.injEq, Prod.mk.injEq, true_and] at hset
        obtain ⟨hv', _⟩ := hset
        subst hv'
        obtain ⟨hb1, _, _, hdvd, _⟩ := computeStrides_sound hprod hst
        obtain ⟨d'', hcr, hl2, hread⟩ :=
          copyRange_fixed rt hm fuel { v with data := .mem d' } w0 range type d' st hty hfix
            hprod rfl (by rw [hl]; exact hcells)
            ((computeStrides_congr v _ range rfl rfl).trans hst)
        refine ⟨_, hcr, rfl, ?_⟩
        show UA_Ptr.mem d'' = UA_Ptr.mem a
        congr 1
        apply List.ext_getElem?
        intro p
        by_cases hp : p < st.total
        · rw [hread p hp]
          have hi : p / st.block < st.total / st.block := by
            apply Nat.div_lt_of_lt_mul
            rw [Nat.mul_comm, Nat.div_mul_cancel hdvd]; exact hp
          have hj : p % st.block < st.block := Nat.mod_lt _ (by omega)
          rw [hcopy (p / st.block) hi (p % st.block) hj, Nat.div_add_mod']
        · rw [List.getElem?_eq_none (by omega), List.getElem?_eq_none (by omega)]
      · simp only [Variant_setRange, hst, hn, ne_eq, not_false_eq_true, if_true,
          Option.some.injEq, Prod.mk.injEq] at hset
        exact absurd hset.1 (by decide)

/-- C2 at a concrete input: four cells written through the range `[{0,1},{1,2}]` of
scenario array and read back. -/
theorem C2_round_trip_witness :
    UA_Variant_setRangeCopy servingRuntime scenarioArray (.mem (uint32Cells [1, 2, 3, 4])) 4
        [⟨0, 1⟩, ⟨1, 2⟩]
      = some (UA_STATUSCODE_GOOD,
          { scenarioArray with data := .mem (uint32Cells [10, 1, 2, 40, 3, 4]) },
          .mem (uint32Cells [1, 2, 3, 4])) ∧
    ∃ w, UA_Variant_copyRange servingRuntime 1
          { scenarioArray with data := .mem (uint32Cells [10, 1, 2, 40, 3, 4]) }
          UA_Value.uninit [⟨0, 1⟩, ⟨1, 2⟩]
        = some (UA_STATUSCODE_GOOD, UA_Value.ofVariant w) ∧
      w.arrayLength = 4 ∧ w.data = .mem (uint32Cells [1, 2, 3, 4]) :=
  ⟨rfl, C2_setRange_copyRange_round_trip servingRuntime (fun _ => rfl) scenarioArray typeUInt32
    (uint32Cells [10, 20, 30, 40, 50, 60]) (uint32Cells [1, 2, 3, 4]) 4 [⟨0, 1⟩, ⟨1, 2⟩]
    { scenarioArray with data := .mem (uint32Cells [10, 1, 2, 40, 3, 4]) }
    (.mem (uint32Cells [1, 2, 3, 4])) 0 UA_Value.uninit rfl rfl (fun _ => rfl) rfl rfl rfl rfl⟩

/-- C3 (as amended): in scenario S3 (the UInt32 array `[10,20,30,40,50,60]` with
`arrayDimensions = [2,3]`, range `[{0,0},{1,2}]`) `computeStrides` yields
total = 2, block = 2, stride = 3, first = 1, and with a serving allocator
`UA_Variant_copyRange` returns good with the data `[20,30]`, arrayLength 2 and
`arrayDimensions = [1,2]`, whatever the destination held before. -/
theorem C3_scenario_S3 (rt : UA_Runtime) (hm : ∀ n, rt.UA_malloc n = true) (fuel : Nat)
    (dst : UA_Value) :
    computeStrides scenarioArray scenarioS3Range
        = .ok { total := 2, block := 2, stride := 3, first := 1 } ∧
      UA_Variant_copyRange rt (fuel + 1) scenarioArray dst scenarioS3Range
        = some (UA_STATUSCODE_GOOD, UA_Value.ofVariant
            { type := some typeUInt32, storageType := UA_VARIANT_DATA, arrayLength := 2,
              data := .mem (uint32Cells [20, 30]), arrayDimensions := [1, 2] }) := by
  have hst : computeStrides scenarioArray scenarioS3Range
      = .ok { total := 2, block := 2, stride := 3, first := 1 } := rfl
  refine ⟨hst, ?_⟩
  simp only [UA_Variant_copyRange, copyRangeBody, UA_Array_new_ok, hm]
  rfl

/-- C3 at a concrete run-time: the serving allocator, recursion bound 1, an
uninitialised destination. -/
theorem C3_scenario_S3_witness :
    (∀ n, servingRuntime.UA_malloc n = true) ∧
      computeStrides scenarioArray scenarioS3Range
        = .ok { total := 2, block := 2, stride := 3, first := 1 } ∧
      UA_Variant_copyRange servingRuntime 1 scenarioArray UA_Value.uninit scenarioS3Range
        = some (UA_STATUSCODE_GOOD, UA_Value.ofVariant
            { type := some typeUInt32, storageType := UA_VARIANT_DATA, arrayLength := 2,
              data := .mem (uint32Cells [20, 30]), arrayDimensions := [1, 2] }) :=
  ⟨fun _ => rfl, C3_scenario_S3 servingRuntime (fun _ => rfl) 0 UA_Value.uninit⟩

/-- C3 as stated fails: in scenario S3 `computeStrides` does not yield total = 3,
block = 3, stride = 3, first = 1, and `UA_Variant_copyRange` does not yield the data
`[20,30,40]` with `arrayDimensions = [1,3]`. -/
theorem C3_stated_values_refuted :
    computeStrides scenarioArray scenarioS3Range
        ≠ .ok { total := 3, block := 3, stride := 3, first := 1 } ∧
      UA_Variant_copyRange servingRuntime 1 scenarioArray UA_Value.uninit scenarioS3Range
        ≠ some (UA_STATUSCODE_GOOD, UA_Value.ofVariant
            { type := some typeUInt32, storageType := UA_VARIANT_DATA, arrayLength := 3,
              data := .mem (uint32Cells [20, 30, 40]), arrayDimensions := [1, 3] }) := by
  constructor
  · intro h
    have h2 : computeStrides scenarioArray scenarioS3Range
        = .ok { total := 2, block := 2, stride := 3, first := 1 } := rfl
    rw [h2] at h
    injection h with h
    injection h with h
    exact absurd h (by decide)
  · intro h
    have h2 : UA_Variant_copyRange servingRuntime 1 scenarioArray UA_Value.uninit scenarioS3Range
        = some (UA_STATUSCODE_GOOD, UA_Value.ofVariant
            { type := some typeUInt32, storageType := UA_VARIANT_DATA, arrayLength := 2,
              data := .mem (uint32Cells [20, 30]), arrayDimensions := [1, 2] }) := rfl
    rw [h2] at h
    simp [UA_Value.ofVariant] at h

/-- C4 (as amended): let the source be an array Variant of a fixed-size element type
with `arrayLength ≤ UA_UINT32_MAX` that satisfies the dimension-product invariant,
holds `arrayLength` cells and has at most two dimensions (no `arrayDimensions`, or
one or two entries), and let the range lie inside its shape.  With a serving
allocator `UA_Variant_copyRange` returns good; the destination has the element
type of the source, `arrayLength` equal to the product of the range widths, that
many cells, and for every multi-index inside the range the cell at the row-major
position of (index − min) in the shape of the widths is the source cell at the
row-major position of the index.  Scenario S4 (range `[{0,1},{0,0}]` on the array
`[10,20,30,40,50,60]` with dimensions `[2,3]`): total = 2, block = 1, stride = 3,
first = 0, data `[10,40]`, `arrayDimensions = [2,1]`. -/
theorem C4_copyRange_one_or_two_dimensions (rt : UA_Runtime)
    (hm : ∀ n, rt.UA_malloc n = true) (fuel : Nat) (dst : UA_Value) :
    (∀ (src : UA_Variant) (range : UA_NumericRange) (type : UA_DataType)
        (cells : List UA_Value),
        src.type = some type → type.fixedSize = true → DimensionProduct src →
        src.data = .mem cells → cells.length = src.arrayLength →
        src.arrayLength ≤ UA_UINT32_MAX → src.arrayDimensionsSize ≤ 2 →
        RangeWithin range (dimsOf src) →
        ∃ w d', UA_Variant_copyRange rt (fuel + 1) src dst range
            = some (UA_STATUSCODE_GOOD, UA_Value.ofVariant w) ∧
          w.type = some type ∧ w.arrayLength = rangeCount range ∧ w.data = .mem d' ∧
          d'.length = rangeCount range ∧
          ∀ idx, IndexWithin range idx →
            d'[rowMajor (range.map rangeWidth) (relativeIndex range idx)]?
              = cells[rowMajor (dimsOf src) idx]?) ∧
      computeStrides scenarioArray scenarioS4Range
        = .ok { total := 2, block := 1, stride := 3, first := 0 } ∧
      UA_Variant_copyRange rt (fuel + 1) scenarioArray dst scenarioS4Range
        = some (UA_STATUSCODE_GOOD, UA_Value.ofVariant
            { type := some typeUInt32, storageType := UA_VARIANT_DATA, arrayLength := 2,
              data := .mem (uint32Cells [10, 40]), arrayDimensions := [2, 1] }) := by
  refine ⟨?_, rfl, ?_⟩
  · intro src range type cells hty hfix hprod hdata hcells hlen h2 hin
    have hst := computeStrides_of_within hlen hprod hin
    obtain ⟨d', hrun, hl, hread⟩ :=
      copyRange_fixed rt hm fuel src dst range type cells _ hty hfix hprod hdata hcells hst
    have hp := hprod.dimsOf_prod
    have hdl : (dimsOf src).length ≤ 2 := by
      rw [dimsOf_length]; split <;> omega
    refine ⟨_, d', hrun, rfl, rfl, rfl, hl, ?_⟩
    intro idx hidx
    have hlt := rowMajor_relative_lt range idx hidx
    have hpos := strideLoop_position range (dimsOf src) idx hin (by rw [hp]; exact hlen) hdl hidx
    rw [hp] at hpos
    rw [hread _ hlt]
    congr 1
  · simp only [UA_Variant_copyRange, copyRangeBody, UA_Array_new_ok, hm]
    rfl

/-- C4 at a concrete input: scenario S4 with the serving allocator; the index `(1,0)`
lies in the range, its destination position is 1 and its source position is 3. -/
theorem C4_scenario_S4_witness :
    ∃ w d', UA_Variant_copyRange servingRuntime 1 scenarioArray UA_Value.uninit scenarioS4Range
        = some (UA_STATUSCODE_GOOD, UA_Value.ofVariant w) ∧
      w.type = some typeUInt32 ∧ w.arrayLength = rangeCount scenarioS4Range ∧
      w.data = .mem d' ∧ d'.length = rangeCount scenarioS4Range ∧
      ∀ idx, IndexWithin scenarioS4Range idx →
        d'[rowMajor (scenarioS4Range.map rangeWidth) (relativeIndex scenarioS4Range idx)]?
          = (uint32Cells [10, 20, 30, 40, 50, 60])[rowMajor (dimsOf scenarioArray) idx]? :=
  (C4_copyRange_one_or_two_dimensions servingRuntime (fun _ => rfl) 0 UA_Value.uninit).1
    scenarioArray scenarioS4Range typeUInt32 (uint32Cells [10, 20, 30, 40, 50, 60])
    rfl rfl (fun _ => rfl) rfl rfl (by decide) (by decide) (by decide)

/-- C4 as stated fails: the one-dimensional UInt32 array of 4294967296 cells is an
array Variant of a fixed-size type, the range `[{0,0}]` lies inside it, and
`UA_Variant_copyRange` returns internal-error, leaving the destination untouched. -/
theorem C4_array_beyond_UInt32_refuted :
    bigArray.type = some typeUInt32 ∧ typeUInt32.fixedSize = true ∧
      bigArray.arrayDimensionsSize = 0 ∧
      (∃ cells, bigArray.data = .mem cells ∧ cells.length = bigArray.arrayLength) ∧
      RangeWithin [⟨0, 0⟩] (dimsOf bigArray) ∧
      UA_Variant_copyRange servingRuntime 1 bigArray UA_Value.uninit [⟨0, 0⟩]
        = some (UA_STATUSCODE_BADINTERNALERROR, UA_Value.uninit) :=
  ⟨rfl, rfl, rfl, ⟨_, rfl, List.length_replicate _ _⟩, by decide, rfl⟩

/-- C5 (as amended): range slice shape.  Let the source be a non-scalar Variant whose
`arrayDimensions` entries are UInt32 values, and let `UA_Variant_copyRange` return
good.  If the source has `arrayDimensions`, the destination carries
`arrayDimensions` whose size is the number of range dimensions consumed at this
level (thisrange) and whose k-th entry is `range[k].max - range[k].min + 1`; if
the source has no `arrayDimensions`, the destination has none either. -/
theorem C5_slice_shape (rt : UA_Runtime) (fuel : Nat) (src : UA_Variant) (dst d : UA_Value)
    (range : UA_NumericRange) (hns : UA_Variant_isScalar src = false)
    (htyped : ∀ x ∈ src.arrayDimensions, x ≤ UA_UINT32_MAX)
    (h : UA_Variant_copyRange rt fuel src dst range = some (UA_STATUSCODE_GOOD, d)) :
    ∃ w, d = UA_Value.ofVariant w ∧
      (src.arrayDimensionsSize > 0 →
        w.arrayDimensionsSize = (copyRange.thisrange src range).length ∧
        (copyRange.thisrange src range).length = copyRange.dims src ∧
        ∀ k < (copyRange.thisrange src range).length,
          ∃ r, range[k]? = some r ∧ w.arrayDimensions[k]? = some (r.max - r.min + 1)) ∧
      (src.arrayDimensionsSize = 0 → w.arrayDimensions = []) := by
  obtain ⟨type, st, data, _, hdims, hst, hd⟩ := copyRange_good_array rt fuel src dst d range hns h
  obtain ⟨hlen, hin⟩ := computeStrides_ok_within hst
  have hw := widthsOf_eq _ _ hin (dimsOf_le_max src hlen htyped)
  refine ⟨_, hd, ?_, ?_⟩
  · intro hpos
    rw [thisrange_array src range hns]
    simp only [if_pos hpos, hw]
    refine ⟨by simp [UA_Variant.arrayDimensionsSize], by rw [List.length_take]; omega, ?_⟩
    intro k hk
    have hk' : k < copyRange.dims src := by
      rw [List.length_take] at hk; omega
    have hkr : k < range.length := by omega
    refine ⟨range[k], List.getElem?_eq_getElem hkr, ?_⟩
    rw [List.getElem?_map, List.getElem?_take_of_lt hk', List.getElem?_eq_getElem hkr]
    rfl
  · intro hz
    simp only [if_neg (by omega : ¬ src.arrayDimensionsSize > 0)]

/-- C5 at a concrete input: scenario S3, whose source has `arrayDimensions = [2,3]`. -/
theorem C5_slice_shape_witness :
    ∃ w, UA_Value.ofVariant
          { type := some typeUInt32, storageType := UA_VARIANT_DATA, arrayLength := 2,
            data := .mem (uint32Cells [20, 30]), arrayDimensions := [1, 2] }
        = UA_Value.ofVariant w ∧
      (scenarioArray.arrayDimensionsSize > 0 →
        w.arrayDimensionsSize = (copyRange.thisrange scenarioArray scenarioS3Range).length ∧
        (copyRange.thisrange scenarioArray scenarioS3Range).length
          = copyRange.dims scenarioArray ∧
        ∀ k < (copyRange.thisrange scenarioArray scenarioS3Range).length,
          ∃ r, scenarioS3Range[k]? = some r ∧
            w.arrayDimensions[k]? = some (r.max - r.min + 1)) ∧
      (scenarioArray.arrayDimensionsSize = 0 → w.arrayDimensions = []) :=
  C5_slice_shape servingRuntime 1 scenarioArray UA_Value.uninit _ scenarioS3Range rfl
    (by decide) rfl

/-- C5 as stated fails: the array `[10,20,30,40,50,60]` without `arrayDimensions` is
not scalar, `UA_Variant_copyRange` with the range `[{1,4}]` returns good, one range
dimension is consumed, and the destination carries no `arrayDimensions`. -/
theorem C5_source_without_dimensions_refuted :
    UA_Variant_isScalar plainArray = false ∧
      (copyRange.thisrange plainArray [⟨1, 4⟩]).length = 1 ∧
      UA_Variant_copyRange servingRuntime 1 plainArray UA_Value.uninit [⟨1, 4⟩]
        = some (UA_STATUSCODE_GOOD, UA_Value.ofVariant
            { type := some typeUInt32, storageType := UA_VARIANT_DATA, arrayLength := 4,
              data := .mem (uint32Cells [20, 30, 40, 50]), arrayDimensions := [] }) :=
  ⟨rfl, rfl, rfl⟩

/-- C6: `UA_Variant_copyRange` preserves the dimension-product invariant.  Let the
source be a non-scalar Variant that satisfies the invariant and let
`UA_Variant_copyRange` return good.  Then the destination has `arrayLength` equal to
the product of the widths of the range dimensions consumed at this level, and
it satisfies the invariant itself: when it has `arrayDimensions`, their product is
its `arrayLength`. -/
theorem C6_copyRange_dimension_product (rt : UA_Runtime) (fuel : Nat) (src : UA_Variant)
    (dst d : UA_Value) (range : UA_NumericRange) (hns : UA_Variant_isScalar src = false)
    (hprod : DimensionProduct src)
    (h : UA_Variant_copyRange rt fuel src dst range = some (UA_STATUSCODE_GOOD, d)) :
    ∃ w, d = UA_Value.ofVariant w ∧
      w.arrayLength = rangeCount (copyRange.thisrange src range) ∧ DimensionProduct w := by
  obtain ⟨type, st, data, _, hdims, hst, hd⟩ := copyRange_good_array rt fuel src dst d range hns h
  obtain ⟨hlen, hin⟩ := computeStrides_ok_within hst
  have hle : ∀ x ∈ dimsOf src, x ≤ UA_UINT32_MAX := by
    intro x hx
    have := hin.dims_le_prod x hx
    rw [hprod.dimsOf_prod] at this
    omega
  have hw := widthsOf_eq _ _ hin hle
  have htot : st.total = rangeCount (range.take (copyRange.dims src)) := by
    rw [computeStrides_ok_eq hprod hst]; rfl
  refine ⟨_, hd, ?_, ?_⟩
  · rw [thisrange_array src range hns]; exact htot
  · intro hpos
    simp only [UA_Variant.arrayDimensionsSize] at hpos ⊢
    split at hpos
    · simp only [hw, htot]
      split
      · rfl
      · rfl
    · simp at hpos

/-- C6 at a concrete input: scenario S3. -/
theorem C6_dimension_product_witness :
    ∃ w, UA_Value.ofVariant
          { type := some typeUInt32, storageType := UA_VARIANT_DATA, arrayLength := 2,
            data := .mem (uint32Cells [20, 30]), arrayDimensions := [1, 2] }
        = UA_Value.ofVariant w ∧
      w.arrayLength = rangeCount (copyRange.thisrange scenarioArray scenarioS3Range) ∧
      DimensionProduct w :=
  C6_copyRange_dimension_product servingRuntime 1 scenarioArray UA_Value.uninit _
    scenarioS3Range rfl (fun _ => rfl) rfl

/-- C8 (as amended): let the source be an array Variant with
`arrayLength ≤ UA_UINT32_MAX` that satisfies the dimension-product invariant, of a
fixed-size element type that is neither Variant nor string-like, and let the
number of range dimensions differ from its dimension count (1 without
`arrayDimensions`).  Then `UA_Variant_setRange` and `UA_Variant_setRangeCopy` return
index-range-no-data and change nothing.  `UA_Variant_copyRange` returns
index-range-invalid (destination untouched) when the range has too few dimensions,
and, with a serving allocator, index-range-no-data (destination zeroed) when the
range has too many dimensions and its leading dimensions lie inside the array. -/
theorem C8_dimension_count_mismatch (rt : UA_Runtime) (hm : ∀ n, rt.UA_malloc n = true)
    (fuel : Nat) (src : UA_Variant) (dst : UA_Value) (range : UA_NumericRange)
    (type : UA_DataType) (array : UA_Ptr UA_Value) (arraySize : Nat)
    (hty : src.type = some type) (hfix : type.fixedSize = true)
    (hnv : isVariantType type = false)
    (hnstr : isStringLike type = false) (harr : UA_Variant_isScalar src = false)
    (hlen : src.arrayLength ≤ UA_UINT32_MAX) (hprod : DimensionProduct src)
    (hmis : range.length ≠ copyRange.dims src) :
    UA_Variant_setRange rt src array arraySize range
        = some (UA_STATUSCODE_BADINDEXRANGENODATA, src, array) ∧
      UA_Variant_setRangeCopy rt src array arraySize range
        = some (UA_STATUSCODE_BADINDEXRANGENODATA, src, array) ∧
      (range.length < copyRange.dims src →
        UA_Variant_copyRange rt (fuel + 1) src dst range
          = some (UA_STATUSCODE_BADINDEXRANGEINVALID, dst)) ∧
      (copyRange.dims src < range.length →
        RangeWithin (range.take (copyRange.dims src)) (dimsOf src) →
        UA_Variant_copyRange rt (fuel + 1) src dst range
          = some (UA_STATUSCODE_BADINDEXRANGENODATA, UA_Value.ofVariant UA_Variant_init)) := by
  have hcs : computeStrides src range = .error UA_STATUSCODE_BADINDEXRANGENODATA :=
    computeStrides_count_mismatch src range hlen hprod (by rw [dimsOf_length]; exact hmis)
  refine ⟨?_, ?_, ?_, ?_⟩
  · simp [UA_Variant_setRange, Variant_setRange, hcs]
  · simp [UA_Variant_setRangeCopy, Variant_setRange, hcs]
  · intro hfew
    simp [UA_Variant_copyRange, copyRangeBody, hty, harr, hfew]
  · intro hmany hin
    have hsrc : copyRange.src src = src := by simp [copyRange.src, harr]
    apply copyRange_nextrange_rejected rt hm fuel src dst range type (stridesOf src _) hty hfix
      hnv (Or.inl hnstr)
    · intro h
      have := congrArg List.length h
      simp only [copyRange.nextrange, harr, Bool.false_eq_true, if_false, List.length_drop,
        List.length_nil] at this
      omega
    · rw [hsrc, thisrange_array src range harr]
      exact computeStrides_of_within hlen hprod hin
    · rw [hsrc]; exact hprod

/-- C8 at concrete inputs: the scenario array (UInt32, two dimensions) with the
one-dimensional range `[{0,1}]`, and with the three-dimensional range
`[{0,0},{1,2},{0,0}]`, whose leading two dimensions lie inside the array. -/
theorem C8_dimension_count_mismatch_witness :
    UA_Variant_setRange servingRuntime scenarioArray (.mem (uint32Cells [1, 2])) 2 [⟨0, 1⟩]
        = some (UA_STATUSCODE_BADINDEXRANGENODATA, scenarioArray, .mem (uint32Cells [1, 2])) ∧
      UA_Variant_setRangeCopy servingRuntime scenarioArray (.mem (uint32Cells [1, 2])) 2 [⟨0, 1⟩]
        = some (UA_STATUSCODE_BADINDEXRANGENODATA, scenarioArray, .mem (uint32Cells [1, 2])) ∧
      ([⟨0, 1⟩] : UA_NumericRange).length < copyRange.dims scenarioArray ∧
      UA_Variant_copyRange servingRuntime 1 scenarioArray UA_Value.uninit [⟨0, 1⟩]
        = some (UA_STATUSCODE_BADINDEXRANGEINVALID, UA_Value.uninit) ∧
      copyRange.dims scenarioArray < ([⟨0, 0⟩, ⟨1, 2⟩, ⟨0, 0⟩] : UA_NumericRange).length ∧
      UA_Variant_copyRange servingRuntime 1 scenarioArray UA_Value.uninit
          [⟨0, 0⟩, ⟨1, 2⟩, ⟨0, 0⟩]
        = some (UA_STATUSCODE_BADINDEXRANGENODATA, UA_Value.ofVariant UA_Variant_init) :=
  have h := C8_dimension_count_mismatch servingRuntime (fun _ => rfl) 0 scenarioArray
    UA_Value.uninit [⟨0, 1⟩] typeUInt32 (.mem (uint32Cells [1, 2])) 2 rfl rfl rfl rfl rfl
    (by decide) (fun _ => rfl) (by decide)
  have h3 := C8_dimension_count_mismatch servingRuntime (fun _ => rfl) 0 scenarioArray
    UA_Value.uninit [⟨0, 0⟩, ⟨1, 2⟩, ⟨0, 0⟩] typeUInt32 (.mem (uint32Cells [1, 2])) 2 rfl rfl
    rfl rfl rfl (by decide) (fun _ => rfl) (by decide)
  ⟨h.1, h.2.1, by decide, h.2.2.1 (by decide), by decide, h3.2.2.2 (by decide) (by decide)⟩

/-- C8 as stated fails for `UA_Variant_copyRange`: on the scenario array (UInt32, two
dimensions) a range with too few dimensions, `[{0,1}]`, is answered with
index-range-invalid, and so is the range `[{1,0},{0,0},{0,0}]`, which has too many
dimensions and an inverted leading interval; neither is index-range-no-data. -/
theorem C8_copyRange_invalid_refuted :
    UA_Variant_copyRange servingRuntime 1 scenarioArray UA_Value.uninit [⟨0, 1⟩]
        = some (UA_STATUSCODE_BADINDEXRANGEINVALID, UA_Value.uninit) ∧
      UA_Variant_copyRange servingRuntime 1 scenarioArray UA_Value.uninit
          [⟨1, 0⟩, ⟨0, 0⟩, ⟨0, 0⟩]
        = some (UA_STATUSCODE_BADINDEXRANGEINVALID, UA_Value.uninit) ∧
      UA_STATUSCODE_BADINDEXRANGEINVALID ≠ UA_STATUSCODE_BADINDEXRANGENODATA :=
  ⟨rfl, rfl, by decide⟩

/-- C9 (the code at the failing input): the scalar Variant holds the String `"abcdefg"`
and the range `[{2,4},{0,0}]` leaves a remaining range of two dimensions for a
string-like element type, after `computeStrides` accepted this level.
`UA_Variant_copyRange` sets index-range-no-data and copies nothing; its clean-up
`UA_Array_delete(dst->data, count, src->type)` then runs `UA_deleteMembers` over the
destination array, which comes from `UA_malloc` and was never written.  That call is
undefined (it frees whatever the uninitialised String holds), so the function does
not return index-range-no-data.  The same happens with the array of NodeIds, an
element type that is neither Variant nor string-like.  On the UInt32 array of
scenario S3, of fixed size, the clean-up only frees the array and the call returns
index-range-no-data. -/
theorem C9_cleanup_of_unwritten_array :
    isVariantType typeString = false ∧ isStringLike typeString = true ∧
    copyRange.nextrange (scalarString scenarioS5String) [⟨2, 4⟩, ⟨0, 0⟩] =
      [⟨2, 4⟩, ⟨0, 0⟩] ∧
    computeStrides (copyRange.src (scalarString scenarioS5String))
        (copyRange.thisrange (scalarString scenarioS5String) [⟨2, 4⟩, ⟨0, 0⟩]) =
      .ok { total := 1, block := 1, stride := 1, first := 0 } ∧
    UA_Array_delete standardTypes 4 (.mem [.uninit]) 1 typeString = none ∧
    UA_Variant_copyRange (engineRuntime standardTypes servingMalloc 4) 1
        (scalarString scenarioS5String) UA_Value.uninit [⟨2, 4⟩, ⟨0, 0⟩] = none ∧
    isVariantType typeNodeId = false ∧ isStringLike typeNodeId = false ∧
    UA_Variant_copyRange (engineRuntime standardTypes servingMalloc 4) 1 nodeIdArray
        UA_Value.uninit [⟨0, 1⟩, ⟨0, 0⟩] = none ∧
    UA_Variant_copyRange (engineRuntime standardTypes servingMalloc 4) 1 scenarioArray
        UA_Value.uninit [⟨0, 0⟩, ⟨1, 2⟩, ⟨0, 0⟩] =
      some (UA_STATUSCODE_BADINDEXRANGENODATA, UA_Value.ofVariant UA_Variant_init) :=
  ⟨rfl, rfl, rfl, rfl, rfl, rfl, rfl, rfl, rfl, rfl⟩

/-- C10 (the code at the failing input): the scalar Variant that holds a String of
4294967296 bytes, with the range `[{0,4294967295}]`, which satisfies
`a ≤ b < length(s)`.  `UA_Variant_copyRange` returns good, and the single String
of the destination has length 0 and a null buffer, not the length
`b - a + 1 = 4294967296`: the length `dim->max - dim->min + 1` is computed in
`UA_UInt32` and wraps to 0. -/
theorem C10_substring_length_wraps (fuel : Nat) (dst : UA_Value) :
    UA_Variant_isScalar (scalarString hugeString) = true ∧
      (0 : Nat) ≤ 4294967295 ∧ 4294967295 < hugeString.length ∧
      UA_Variant_copyRange servingRuntime (fuel + 1) (scalarString hugeString) dst
          [⟨0, 4294967295⟩]
        = some (UA_STATUSCODE_GOOD, UA_Value.ofVariant
            { type := some typeString, storageType := UA_VARIANT_DATA, arrayLength := 0,
              data := .mem [UA_Value.string 0 .null], arrayDimensions := [] }) ∧
      4294967295 - 0 + 1 ≠ 0 :=
  ⟨rfl, by decide, by decide, rfl, by decide⟩

/-! ## Copies, NodeIds and Strings -/

/-- C11: failure atomicity of `UA_copy`: for every type descriptor, source and prior
content of the destination, if `UA_copy` returns a status that is not good then the
destination is all zero. -/
theorem C11_UA_copy_failure_leaves_zero (ts : UA_TypeSystem) (malloc : Nat → Bool) (fuel : Nat)
    (src dst : UA_Value) (type : UA_DataType) (st : UA_StatusCode) (d : UA_Value)
    (h : UA_copy ts malloc fuel src dst type = some (st, d)) (hst : st ≠ UA_STATUSCODE_GOOD) :
    d = .zeroed :=
  UA_copyWith_failure _ src type st d h hst

/-- C11 (witness): with an allocator that fails the five bytes of `"hello"`, the member
loop leaves a LocalizedText whose locale is copied and whose text is not; `UA_copy`
returns out-of-memory and the destination is all zero. -/
theorem C11_UA_copy_failure_witness :
    copy_noInit standardTypes failingMalloc 2 helloText typeLocalizedText =
      some (UA_STATUSCODE_BADOUTOFMEMORY, .localizedText (stringCell "en") .zeroed) ∧
    UA_copy standardTypes failingMalloc 2 helloText .uninit typeLocalizedText =
      some (UA_STATUSCODE_BADOUTOFMEMORY, .zeroed) ∧
    UA_Value.zeroed = .zeroed :=
  ⟨rfl, rfl,
   C11_UA_copy_failure_leaves_zero standardTypes failingMalloc 2 helloText .uninit
     typeLocalizedText UA_STATUSCODE_BADOUTOFMEMORY .zeroed rfl (by decide)⟩

/-- C12 (counterexample): a range that reaches outside the array is turned down with
index-range-no-data and the destination, which held another Variant before, is
left as it was and not zeroed. -/
theorem C12_rejected_range_untouched_refuted :
    UA_Variant_copyRange servingRuntime 1 scenarioArray (UA_Value.ofVariant plainArray)
        [⟨0, 0⟩, ⟨1, 7⟩] =
      some (UA_STATUSCODE_BADINDEXRANGENODATA, UA_Value.ofVariant plainArray) ∧
    UA_Value.ofVariant plainArray ≠ UA_Value.ofVariant UA_Variant_init := by
  refine ⟨rfl, ?_⟩
  intro h
  cases h

/-- C12 (amended): if `UA_Variant_copyRange` returns a status that is not good, then the
destination is left untouched when the range was turned down at the start (more
array dimensions than range dimensions, or rejected by `computeStrides`), and it
is left in the zeroed state (type absent, data null, `arrayLength` 0, no
`arrayDimensions`) on every later failure, the allocation of the `arrayDimensions`
of the destination succeeding. -/
theorem C12_copyRange_failure_state (rt : UA_Runtime) (fuel : Nat) (orig_src : UA_Variant)
    (dst d : UA_Value) (range : UA_NumericRange) (st : UA_StatusCode)
    (h : UA_Variant_copyRange rt fuel orig_src dst range = some (st, d))
    (hst : st ≠ UA_STATUSCODE_GOOD) :
    (rangeRejected orig_src range = true → d = dst) ∧
    (rangeRejected orig_src range = false →
      UA_Array_new_ok rt (copyRange.thisrange orig_src range).length sizeof_UInt32 = true →
      d = UA_Value.ofVariant UA_Variant_init) :=
  copyRange_failure_state rt fuel orig_src dst d range st h hst

/-- C12 (witness): on the array of scenario S3 the range `[{0,0},{1,7}]` is rejected
and the destination keeps its content; the range `[{0,1},{0,2},{0,0}]` is accepted at
this level, its remaining dimension does not fit UInt32 elements, and the
destination is left in the zeroed state. -/
theorem C12_copyRange_failure_witness :
    (UA_Variant_copyRange servingRuntime 1 scenarioArray (UA_Value.ofVariant plainArray)
        [⟨0, 0⟩, ⟨1, 7⟩] =
      some (UA_STATUSCODE_BADINDEXRANGENODATA, UA_Value.ofVariant plainArray) ∧
     rangeRejected scenarioArray [⟨0, 0⟩, ⟨1, 7⟩] = true ∧
     UA_Value.ofVariant plainArray = UA_Value.ofVariant plainArray) ∧
    (UA_Variant_copyRange servingRuntime 1 scenarioArray (UA_Value.ofVariant plainArray)
        [⟨0, 1⟩, ⟨0, 2⟩, ⟨0, 0⟩] =
      some (UA_STATUSCODE_BADINDEXRANGENODATA, UA_Value.ofVariant UA_Variant_init) ∧
     rangeRejected scenarioArray [⟨0, 1⟩, ⟨0, 2⟩, ⟨0, 0⟩] = false ∧
     UA_Value.ofVariant UA_Variant_init = UA_Value.ofVariant UA_Variant_init) :=
  ⟨⟨rfl, rfl,
    (C12_copyRange_failure_state servingRuntime 1 scenarioArray (UA_Value.ofVariant plainArray)
      (UA_Value.ofVariant plainArray) [⟨0, 0⟩, ⟨1, 7⟩] UA_STATUSCODE_BADINDEXRANGENODATA rfl
      (by decide)).1 rfl⟩,
   ⟨rfl, rfl,
    (C12_copyRange_failure_state servingRuntime 1 scenarioArray (UA_Value.ofVariant plainArray)
      (UA_Value.ofVariant UA_Variant_init) [⟨0, 1⟩, ⟨0, 2⟩, ⟨0, 0⟩]
      UA_STATUSCODE_BADINDEXRANGENODATA rfl (by decide)).2 rfl rfl⟩⟩

/-- C13: the status of an element copy is lost in `UA_Variant_copyRange`: in an array of
two NodeIds whose first element has a discriminant of no kind, `UA_copy` of the
first element returns internal-error, and the copy of the range `{0,1}` returns good
with a zeroed first element, because the status of the second copy overwrites that
of the first. -/
theorem C13_element_failure_overwritten :
    UA_copy standardTypes servingMalloc 1 (UA_Value.ofNodeId strayNodeId) .uninit typeNodeId =
      some (UA_STATUSCODE_BADINTERNALERROR, .zeroed) ∧
    UA_Variant_copyRange (engineRuntime standardTypes servingMalloc 1) 1 nodeIdArray .uninit
        [⟨0, 1⟩] =
      some (UA_STATUSCODE_GOOD, UA_Value.ofVariant
        { type := some typeNodeId, storageType := UA_VARIANT_DATA, arrayLength := 2,
          data := .mem [.zeroed, UA_Value.ofNodeId (numericNodeId 0 5)],
          arrayDimensions := [] }) :=
  ⟨rfl, rfl⟩

/-- C14: the move of `UA_Variant_setRange` zeroes only part of the source: moving the two
Strings `"a"`, `"b"` (16 bytes each) into a String array returns good, and of the
source array only the first element is zeroed; the second still holds the buffer
that the Variant owns now. -/
theorem C14_move_leaves_source_aliased :
    UA_Variant_setRange servingRuntime stringArray movedStrings 2 [⟨0, 1⟩] =
      some (UA_STATUSCODE_GOOD, { stringArray with data := movedStrings },
        .mem [.zeroed, stringCell "b"]) :=
  rfl

/-- C15 (counterexample): a NodeId whose `identifierType` is 1, none of the four kinds,
is not equal to itself: `UA_NodeId_equal` falls out of the `switch` and answers
`false`. -/
theorem C15_stray_identifierType_refuted :
    UA_NodeId_equal strayNodeId strayNodeId = some false := rfl

/-- C15 (amended): `UA_NodeId_equal` is symmetric for all NodeIds; it is reflexive on
every NodeId whose `identifierType` is Numeric, String, Guid or ByteString and
whose union holds a readable value of that kind, and it answers `false` on `(a, a)`
for every NodeId whose `identifierType` is none of the four. -/
theorem C15_NodeId_equal_symmetric (a b : UA_NodeId) :
    UA_NodeId_equal a b = UA_NodeId_equal b a ∧
    (nodeIdReadable a = true → UA_NodeId_equal a a = some true) ∧
    (¬ NodeIdKind a.identifierType → UA_NodeId_equal a a = some false) :=
  ⟨UA_NodeId_equal_comm a b, UA_NodeId_equal_self a, UA_NodeId_equal_stray a⟩

/-- C15 (witness): the String NodeId `ns=1;s=ab` is readable and equal to itself, and
the NodeId with discriminant 1 is of no kind and unequal to itself. -/
theorem C15_NodeId_equal_witness :
    UA_NodeId_equal (stringNodeId 1 "ab") (stringNodeId 1 "ab") = some true ∧
    UA_NodeId_equal strayNodeId strayNodeId = some false :=
  ⟨(C15_NodeId_equal_symmetric (stringNodeId 1 "ab") (numericNodeId 0 0)).2.1 rfl,
   (C15_NodeId_equal_symmetric strayNodeId strayNodeId).2.2 (by decide)⟩

/-- C16: for every NodeId whose union holds a readable value of the kind its
`identifierType` names (Numeric, String, Guid or ByteString), `UA_NodeId_isNull`
returns, and it returns true exactly when the namespace
index is 0 and the payload is zero or empty (numeric 0, all eleven Guid components
zero, String or ByteString of length 0). -/
theorem C16_isNull_iff_zero_payload (p : UA_NodeId) (hr : nodeIdReadable p = true) :
    UA_NodeId_isNull p = some (decide (p.namespaceIndex = 0) && payloadEmpty p) := by
  unfold UA_NodeId_isNull payloadEmpty
  unfold nodeIdReadable at hr
  by_cases hns : p.namespaceIndex = 0
  · have hns' : ¬ p.namespaceIndex ≠ 0 := by simp [hns]
    rw [if_neg hns']
    simp only [hns, decide_True, Bool.true_and]
    by_cases k1 : p.identifierType = UA_NODEIDTYPE_NUMERIC
    · simp only [if_pos k1] at hr ⊢
      cases h : p.identifier.asNumeric with
      | none => simp [h] at hr
      | some n => simp
    · simp only [if_neg k1] at hr ⊢
      by_cases k3 : p.identifierType = UA_NODEIDTYPE_GUID
      · simp only [if_pos k3] at hr ⊢
        cases h : p.identifier.asGuid with
        | none => simp [h] at hr
        | some g =>
            have e : List.range 8 = [0, 1, 2, 3, 4, 5, 6, 7] := by decide
            simp [e, Bool.and_assoc]
      · simp only [if_neg k3] at hr ⊢
        cases h : p.identifier.asString with
        | none => simp [h] at hr
        | some s => simp
  · rw [if_pos hns]
    simp [hns]

/-- C16 (witness, scenario S6): `{ns 0, numeric 0}` is null, `{ns 0, string ""}` is null,
`{ns 1, numeric 0}` is not null. -/
theorem C16_scenario_S6_witness :
    UA_NodeId_isNull (numericNodeId 0 0) = some true ∧
    UA_NodeId_isNull (stringNodeId 0 "") = some true ∧
    UA_NodeId_isNull (numericNodeId 1 0) = some false :=
  ⟨C16_isNull_iff_zero_payload (numericNodeId 0 0) rfl,
   C16_isNull_iff_zero_payload (stringNodeId 0 "") rfl,
   C16_isNull_iff_zero_payload (numericNodeId 1 0) rfl⟩

/-- C17: copy faithfulness for NodeId, the leaf descriptors of `UA_TYPES` having their
generated layout: if the copy of a NodeId with a readable payload of one of the four
kinds returns good, the copy is a NodeId that `UA_NodeId_equal` finds equal to the
source; with the allocation succeeding that copy does return good; and the copy of
a NodeId whose `identifierType` is none of the four returns internal-error. -/
theorem C17_NodeId_copy_faithful (ts : UA_TypeSystem) (malloc : Nat → Bool) (fuel : Nat)
    (a : UA_NodeId) (hts : StandardLeaves ts) :
    (nodeIdReadable a = true → ∀ b, NodeId_copy ts malloc fuel a = some (UA_STATUSCODE_GOOD, b) →
      ∃ b', b.asNodeId = some b' ∧ UA_NodeId_equal a b' = some true) ∧
    (nodeIdReadable a = true → (∀ n, malloc n = true) →
      ∃ b, NodeId_copy ts malloc (fuel + 1) a = some (UA_STATUSCODE_GOOD, b)) ∧
    (¬ NodeIdKind a.identifierType →
      NodeId_copy ts malloc fuel a = some (UA_STATUSCODE_BADINTERNALERROR, .zeroed)) :=
  ⟨fun hr b h => NodeId_copy_good_equal ts malloc fuel a hts hr b h,
   fun hr hm => NodeId_copy_returns ts malloc fuel a hts hr hm,
   fun hk => NodeId_copy_stray ts malloc fuel a hk⟩

/-- C17 (witness): the copy of the String NodeId `ns=1;s=ab` is good and equal to the
source; the copy of the NodeId with discriminant 1 returns internal-error. -/
theorem C17_NodeId_copy_witness :
    NodeId_copy standardTypes servingMalloc 1 (stringNodeId 1 "ab") =
      some (UA_STATUSCODE_GOOD, UA_Value.ofNodeId (stringNodeId 1 "ab")) ∧
    (∃ b', (UA_Value.ofNodeId (stringNodeId 1 "ab")).asNodeId = some b' ∧
      UA_NodeId_equal (stringNodeId 1 "ab") b' = some true) ∧
    NodeId_copy standardTypes servingMalloc 1 strayNodeId =
      some (UA_STATUSCODE_BADINTERNALERROR, .zeroed) :=
  ⟨rfl,
   (C17_NodeId_copy_faithful standardTypes servingMalloc 1 (stringNodeId 1 "ab")
     standardTypes_leaves).1 rfl _ rfl,
   (C17_NodeId_copy_faithful standardTypes servingMalloc 1 strayNodeId
     standardTypes_leaves).2.2 (by decide)⟩

/-- C18: for NUL-free byte strings `a` and `b`, with the allocation succeeding,
`UA_String_fromChars` returns Strings of length `|a|` and `|b|` whose bytes are those
of `a` and `b`, and `UA_String_equal` on the two is true exactly when `a = b`. -/
theorem C18_fromChars_equal_iff (malloc : Nat → Bool) (a b : List Nat) (ha : 0 ∉ a)
    (hb : 0 ∉ b) (hm : ∀ n, malloc n = true) :
    ∃ sa sb, UA_String_fromChars malloc (a ++ [0]) = some sa ∧
      UA_String_fromChars malloc (b ++ [0]) = some sb ∧
      sa.length = a.length ∧
      (∀ i (h : i < a.length), loadCell sa.data i = some (.fixed (a.get ⟨i, h⟩))) ∧
      UA_String_equal sa sb = some (decide (a = b)) := by
  refine ⟨_, _, fromChars_spec malloc a ha hm, fromChars_spec malloc b hb hm, rfl, ?_, ?_⟩
  · intro i h
    have hpos : a.length > 0 := by omega
    simp only [if_pos hpos, loadCell]
    simp [List.getElem?_map, List.getElem?_eq_getElem h]
  · unfold UA_String_equal
    by_cases hl : a.length = b.length
    · have hl' : ¬ a.length ≠ b.length := by simp [hl]
      simp only [if_neg hl']
      by_cases hz : a.length = 0
      · have hbz : b.length = 0 := by omega
        have ea : a = [] := List.length_eq_zero.mp hz
        have eb : b = [] := List.length_eq_zero.mp hbz
        subst ea
        subst eb
        simp [memcmpEq]
      · have hap : a.length > 0 := by omega
        have hbp : b.length > 0 := by omega
        simp only [if_pos hap, if_pos hbp]
        exact memcmpEq_fixed a b hl hz
    · have hne : a ≠ b := fun e => hl (by rw [e])
      simp [hl, hne]

/-- C18 (witness, scenario S1): `"hello"` has length 5 and the bytes of `hello`, it equals
`"hello"` and differs from `"hellx"`. -/
theorem C18_scenario_S1_witness :
    UA_String_fromChars servingMalloc (cstring "hello") =
      some { length := 5, data := .mem (byteCells "hello") } ∧
    (∃ sa sb, UA_String_fromChars servingMalloc (cstring "hello") = some sa ∧
      UA_String_fromChars servingMalloc (cstring "hello") = some sb ∧
      sa.length = 5 ∧
      (∀ i (h : i < 5), loadCell sa.data i =
        some (.fixed ([104, 101, 108, 108, 111].get ⟨i, h⟩))) ∧
      UA_String_equal sa sb = some true) ∧
    (∃ sa sb, UA_String_fromChars servingMalloc (cstring "hello") = some sa ∧
      UA_String_fromChars servingMalloc (cstring "hellx") = some sb ∧
      sa.length = 5 ∧
      (∀ i (h : i < 5), loadCell sa.data i =
        some (.fixed ([104, 101, 108, 108, 111].get ⟨i, h⟩))) ∧
      UA_String_equal sa sb = some false) :=
  ⟨rfl,
   C18_fromChars_equal_iff servingMalloc [104, 101, 108, 108, 111] [104, 101, 108, 108, 111]
     (by decide) (by decide) (fun _ => rfl),
   C18_fromChars_equal_iff servingMalloc [104, 101, 108, 108, 111] [104, 101, 108, 108, 120]
     (by decide) (by decide) (fun _ => rfl)⟩

/-- C19: null and the empty-array sentinel are kept apart: `UA_Array_new` of size 0 returns
the sentinel; `UA_Array_copy` of size 0 returns good with null for a null source and
with the sentinel for the sentinel; and `UA_copy` with a string-like descriptor maps
the null String to the null String and the empty String on the sentinel to the
empty String on the sentinel. -/
theorem C19_null_and_sentinel_kept_apart (ts : UA_TypeSystem) (malloc : Nat → Bool)
    (fuel : Nat) (type : UA_DataType) (elementType : Option UA_DataType)
    (dst : UA_Ptr UA_Value) (dst0 : UA_Value) (T : UA_DataType)
    (hT : isStringLike T = true) :
    UA_Array_new malloc 0 type = .sentinel ∧
    UA_Array_copy ts malloc fuel .null 0 dst elementType = some (UA_STATUSCODE_GOOD, .null) ∧
    UA_Array_copy ts malloc fuel .sentinel 0 dst elementType =
      some (UA_STATUSCODE_GOOD, .sentinel) ∧
    UA_copy ts malloc (fuel + 1) (.string 0 .null) dst0 T =
      some (UA_STATUSCODE_GOOD, .string 0 .null) ∧
    UA_copy ts malloc (fuel + 1) (.string 0 .sentinel) dst0 T =
      some (UA_STATUSCODE_GOOD, .string 0 .sentinel) := by
  refine ⟨rfl, rfl, rfl, ?_, ?_⟩
  · show (match copy_noInitWith ts malloc (copyFns ts malloc fuel) (.string 0 .null) T with
      | none => none
      | some (retval, dst) =>
          if retval ≠ UA_STATUSCODE_GOOD then some (retval, UA_deleteMembers dst T)
          else some (retval, dst)) = _
    rw [copy_noInitWith_bytes ts malloc _ T hT (.string 0 .null) ⟨0, .null⟩ rfl]
    rfl
  · show (match copy_noInitWith ts malloc (copyFns ts malloc fuel) (.string 0 .sentinel) T with
      | none => none
      | some (retval, dst) =>
          if retval ≠ UA_STATUSCODE_GOOD then some (retval, UA_deleteMembers dst T)
          else some (retval, dst)) = _
    rw [copy_noInitWith_bytes ts malloc _ T hT (.string 0 .sentinel) ⟨0, .sentinel⟩ rfl]
    rfl

/-- C19 (witness): the String descriptor of `UA_TYPES` is string-like; the null String and
the empty String on the sentinel are copied to themselves. -/
theorem C19_null_and_sentinel_witness :
    isStringLike typeString = true ∧
    UA_Array_new servingMalloc 0 typeUInt32 = .sentinel ∧
    UA_Array_copy standardTypes servingMalloc 0 .null 0 .freed (some typeUInt32) =
      some (UA_STATUSCODE_GOOD, .null) ∧
    UA_Array_copy standardTypes servingMalloc 0 .sentinel 0 .freed (some typeUInt32) =
      some (UA_STATUSCODE_GOOD, .sentinel) ∧
    UA_copy standardTypes servingMalloc 1 (.string 0 .null) .uninit typeString =
      some (UA_STATUSCODE_GOOD, .string 0 .null) ∧
    UA_copy standardTypes servingMalloc 1 (.string 0 .sentinel) .uninit typeString =
      some (UA_STATUSCODE_GOOD, .string 0 .sentinel) :=
  ⟨rfl, C19_null_and_sentinel_kept_apart standardTypes servingMalloc 0 typeUInt32
    (some typeUInt32) .freed .uninit typeString rfl⟩

/-- C20: the copy of a decoded ExtensionObject (encoding decoded or decoded-no-delete):
it returns internal-error if the type descriptor or the data pointer is absent;
otherwise, the copy of the payload returning good, the destination has the
encoding decoded, the type descriptor of the source and the copied payload; and
that payload is a fresh array of one element which holds the source element for a
type of fixed size and its `UA_copy` otherwise. -/
theorem C20_ExtensionObject_copy_decoded (ts : UA_TypeSystem) (malloc : Nat → Bool) (fuel : Nat)
    (encoding : Nat) (type : Option UA_DataType) (data : UA_Ptr UA_Value)
    (henc : encoding = UA_EXTENSIONOBJECT_DECODED ∨
      encoding = UA_EXTENSIONOBJECT_DECODED_NODELETE) :
    ((type = none ∨ data = .null) →
      ExtensionObject_copy ts malloc fuel (.extensionObjectDecoded encoding type data) =
        some (UA_STATUSCODE_BADINTERNALERROR, .zeroed)) ∧
    (∀ t p, type = some t → data ≠ .null →
      UA_Array_copy ts malloc fuel data 1 .null (some t) = some (UA_STATUSCODE_GOOD, p) →
      ExtensionObject_copy ts malloc fuel (.extensionObjectDecoded encoding type data) =
        some (UA_STATUSCODE_GOOD,
          .extensionObjectDecoded UA_EXTENSIONOBJECT_DECODED (some t) p)) ∧
    (∀ t c rest d, type = some t → data = .mem (c :: rest) → malloc (1 * t.memSize) = true →
      (if t.fixedSize then d = c
       else UA_copy ts malloc fuel c .zeroed t = some (UA_STATUSCODE_GOOD, d)) →
      UA_Array_copy ts malloc fuel data 1 .null (some t) =
        some (UA_STATUSCODE_GOOD, .mem [d])) := by
  have hsel : ∀ r : Option (UA_StatusCode × UA_Value),
      ExtensionObject_copy ts malloc fuel (.extensionObjectDecoded encoding type data) = r ↔
      (match type, data with
        | none, _ => some (UA_STATUSCODE_BADINTERNALERROR, .zeroed)
        | _, .null => some (UA_STATUSCODE_BADINTERNALERROR, .zeroed)
        | some t, _ =>
            match UA_Array_copyWith malloc (copyFns ts malloc fuel) data 1 .null (some t) with
            | none => none
            | some (retval, ddata) =>
                some (retval,
                  .extensionObjectDecoded UA_EXTENSIONOBJECT_DECODED (some t) ddata)) = r := by
    intro r
    unfold ExtensionObject_copy ExtensionObject_copyWith
    rcases henc with e | e <;> subst e <;> exact Iff.rfl
  refine ⟨?_, ?_, ?_⟩
  · intro h
    rw [hsel]
    rcases h with h | h
    · subst h
      cases data <;> rfl
    · subst h
      cases type <;> rfl
  · intro t p ht hdata hcopy
    rw [hsel]
    subst ht
    unfold UA_Array_copy at hcopy
    cases data with
    | null => exact absurd rfl hdata
    | sentinel => simp only [hcopy]
    | mem cells => simp only [hcopy]
    | freed => simp only [hcopy]
  · intro t c rest d _ hdata hm hd
    subst hdata
    exact UA_Array_copyWith_one malloc _ t c d rest hm hd

/-- C20 (witness): a decoded-no-delete ExtensionObject with a UInt32 payload 7 is copied
to a decoded one with a fresh array that holds 7; one with a String payload is
copied to a decoded one with the copied String; without a type descriptor the
copy returns internal-error. -/
theorem C20_ExtensionObject_copy_witness :
    ExtensionObject_copy standardTypes servingMalloc 1
        (.extensionObjectDecoded UA_EXTENSIONOBJECT_DECODED_NODELETE (some typeUInt32)
          (.mem [.fixed 7])) =
      some (UA_STATUSCODE_GOOD,
        .extensionObjectDecoded UA_EXTENSIONOBJECT_DECODED (some typeUInt32) (.mem [.fixed 7])) ∧
    ExtensionObject_copy standardTypes servingMalloc 1
        (.extensionObjectDecoded UA_EXTENSIONOBJECT_DECODED (some typeString)
          (.mem [stringCell "hi"])) =
      some (UA_STATUSCODE_GOOD,
        .extensionObjectDecoded UA_EXTENSIONOBJECT_DECODED (some typeString)
          (.mem [stringCell "hi"])) ∧
    ExtensionObject_copy standardTypes servingMalloc 1
        (.extensionObjectDecoded UA_EXTENSIONOBJECT_DECODED_NODELETE none (.mem [.fixed 7])) =
      some (UA_STATUSCODE_BADINTERNALERROR, .zeroed) :=
  ⟨(C20_ExtensionObject_copy_decoded standardTypes servingMalloc 1
      UA_EXTENSIONOBJECT_DECODED_NODELETE (some typeUInt32) (.mem [.fixed 7])
      (Or.inr rfl)).2.1 typeUInt32 (.mem [.fixed 7]) rfl (by simp) rfl,
   (C20_ExtensionObject_copy_decoded standardTypes servingMalloc 1
      UA_EXTENSIONOBJECT_DECODED (some typeString) (.mem [stringCell "hi"])
      (Or.inl rfl)).2.1 typeString (.mem [stringCell "hi"]) rfl (by simp) rfl,
   (C20_ExtensionObject_copy_decoded standardTypes servingMalloc 1
      UA_EXTENSIONOBJECT_DECODED_NODELETE none (.mem [.fixed 7])
      (Or.inr rfl)).1 (Or.inl rfl)⟩

/-! ## DateTime, deletion, strides and Guids -/

/-- C21: for every DateTime `t ≥ 0`, `UA_DateTime_toStruct` returns a structure with
`nanoSec = (t mod 10) * 100`, `microSec = (t mod 10000) / 10` and
`milliSec = (t mod 10000000) / 10000`; each of the three is at most 999 and
`milliSec * 10000 + microSec * 10 + nanoSec / 100 = t mod 10000000`. -/
theorem C21_toStruct_subsecond (secs_to_tm : Int → tm) (t : Int) (ht : 0 ≤ t) :
    ∃ s, UA_DateTime_toStruct secs_to_tm t = some s ∧
      (s.nanoSec : Int) = t % 10 * 100 ∧ (s.microSec : Int) = t % 10000 / 10 ∧
      (s.milliSec : Int) = t % 10000000 / 10000 ∧
      s.nanoSec ≤ 999 ∧ s.microSec ≤ 999 ∧ s.milliSec ≤ 999 ∧
      ((s.milliSec * 10000 + s.microSec * 10 + s.nanoSec / 100 : Nat) : Int) =
        t % 10000000 := by
  obtain ⟨s, hs, h1, h2, h3⟩ := toStruct_subsecond secs_to_tm t ht
  refine ⟨s, hs, h1, h2, h3, ?_, ?_, ?_, ?_⟩ <;> omega

/-- C21 (witness, scenario S2): `t = 1` gives `nanoSec = 100`, `microSec = 0`,
`milliSec = 0`. -/
theorem C21_scenario_S2_witness :
    (0 : Int) ≤ 1 ∧
    (∃ s, UA_DateTime_toStruct utcCalendar 1 = some s ∧
      (s.nanoSec : Int) = 1 % 10 * 100 ∧ (s.microSec : Int) = 1 % 10000 / 10 ∧
      (s.milliSec : Int) = 1 % 10000000 / 10000 ∧
      s.nanoSec ≤ 999 ∧ s.microSec ≤ 999 ∧ s.milliSec ≤ 999 ∧
      ((s.milliSec * 10000 + s.microSec * 10 + s.nanoSec / 100 : Nat) : Int) =
        1 % 10000000) ∧
    (UA_DateTime_toStruct utcCalendar 1).map
        (fun s => (s.nanoSec, s.microSec, s.milliSec)) = some (100, 0, 0) :=
  ⟨by decide, C21_toStruct_subsecond utcCalendar 1 (by decide), rfl⟩

/-- C22 (counterexample): for `t = -1` the field `nanoSec` of `UA_DateTime_toStruct` is 65436,
which has five digits, and the last digit group of `UA_DateTime_toString` is `436`:
the string is `01/01/1601 00:00:00.000.000.436`.  For the first tick of the year 10000 the
field `year` is 10000 and the year group is `0000`. -/
theorem C22_digit_groups_refuted :
    (UA_DateTime_toStruct utcCalendar (-1)).map (fun s => s.nanoSec) = some 65436 ∧
    UA_DateTime_toString servingMalloc utcCalendar (-1) =
      some { length := 31,
             data := .mem (byteCells "01/01/1601 00:00:00.000.000.436" ++ [.uninit]) } ∧
    decimalValue [52, 51, 54] ≠ 65436 ∧
    (UA_DateTime_toStruct utcCalendar 2650467744000000000).map (fun s => s.year) =
      some 10000 ∧
    UA_DateTime_toString servingMalloc utcCalendar 2650467744000000000 =
      some { length := 31,
             data := .mem (byteCells "01/01/0000 00:00:00.000.000.000" ++ [.uninit]) } ∧
    decimalValue [48, 48, 48, 48] ≠ 10000 :=
  ⟨rfl, rfl, by decide, rfl, rfl, by decide⟩

/-- C22 (amended): for every DateTime `t` for which `t - UA_DATETIME_UNIX_EPOCH` does not
overflow and the allocation succeeds, `UA_DateTime_toString` returns a String of
length 31 in the layout `MM/DD/YYYY HH:MM:SS.mmm.uuu.nnn`: bytes 2 and 5 are `/`, byte 10
is a blank, bytes 13 and 16 are `:`, bytes 19, 23 and 27 are `.`, and the digit groups
of widths 2, 2, 4, 2, 2, 2, 3, 3, 3 hold the low decimal digits of the fields month, day,
year, hour, min, sec, milliSec, microSec, nanoSec of `UA_DateTime_toStruct`: a group
of width `w` is made of `w` ASCII digits and stands for the field modulo `10^w`, which
is the field itself when the field is below `10^w`. -/
theorem C22_toString_layout (malloc : Nat → Bool) (secs_to_tm : Int → tm) (t : Int)
    (hm : malloc 32 = true) (ht : INT64_MIN + UA_DATETIME_UNIX_EPOCH ≤ t) :
    ∃ tSt, UA_DateTime_toStruct secs_to_tm t = some tSt ∧
      UA_DateTime_toString malloc secs_to_tm t =
        some { length := 31,
               data := .mem ((dateTimeLayout tSt).map UA_Value.fixed ++ [.uninit]) } ∧
      (dateTimeLayout tSt).length = 31 ∧
      (dateTimeLayout tSt)[2]? = some 47 ∧ (dateTimeLayout tSt)[5]? = some 47 ∧
      (dateTimeLayout tSt)[10]? = some 32 ∧
      (dateTimeLayout tSt)[13]? = some 58 ∧ (dateTimeLayout tSt)[16]? = some 58 ∧
      (dateTimeLayout tSt)[19]? = some 46 ∧ (dateTimeLayout tSt)[23]? = some 46 ∧
      (dateTimeLayout tSt)[27]? = some 46 ∧
      (∀ w n, (zeroPadded w n).length = w ∧ (∀ c ∈ zeroPadded w n, 48 ≤ c ∧ c ≤ 57) ∧
        decimalValue (zeroPadded w n) = n % 10 ^ w ∧
        (n < 10 ^ w → decimalValue (zeroPadded w n) = n)) := by
  obtain ⟨tSt, hs⟩ := toStruct_defined secs_to_tm t ht
  refine ⟨tSt, hs, toString_layout malloc secs_to_tm t tSt hm hs, ?_, ?_, ?_, ?_, ?_, ?_, ?_,
    ?_, ?_, ?_⟩
  · simp [dateTimeLayout, zeroPadded_length]
  · simp [dateTimeLayout, zeroPadded]
  · simp [dateTimeLayout, zeroPadded]
  · simp [dateTimeLayout, zeroPadded]
  · simp [dateTimeLayout, zeroPadded]
  · simp [dateTimeLayout, zeroPadded]
  · simp [dateTimeLayout, zeroPadded]
  · simp [dateTimeLayout, zeroPadded]
  · simp [dateTimeLayout, zeroPadded]
  · intro w n
    refine ⟨zeroPadded_length w n, zeroPadded_digits w n, zeroPadded_value w n, ?_⟩
    intro hn
    rw [zeroPadded_value, Nat.mod_eq_of_lt hn]

/-- C22 (witness, scenario S2): `t = 0` renders as `01/01/1601 00:00:00.000.000.000`. -/
theorem C22_scenario_S2_witness :
    servingMalloc 32 = true ∧ INT64_MIN + UA_DATETIME_UNIX_EPOCH ≤ 0 ∧
    UA_DateTime_toString servingMalloc utcCalendar 0 =
      some { length := 31,
             data := .mem (byteCells "01/01/1601 00:00:00.000.000.000" ++ [.uninit]) } ∧
    (∃ tSt, UA_DateTime_toStruct utcCalendar 0 = some tSt ∧
      UA_DateTime_toString servingMalloc utcCalendar 0 =
        some { length := 31,
               data := .mem ((dateTimeLayout tSt).map UA_Value.fixed ++ [.uninit]) } ∧
      (dateTimeLayout tSt).length = 31 ∧
      (dateTimeLayout tSt)[2]? = some 47 ∧ (dateTimeLayout tSt)[5]? = some 47 ∧
      (dateTimeLayout tSt)[10]? = some 32 ∧
      (dateTimeLayout tSt)[13]? = some 58 ∧ (dateTimeLayout tSt)[16]? = some 58 ∧
      (dateTimeLayout tSt)[19]? = some 46 ∧ (dateTimeLayout tSt)[23]? = some 46 ∧
      (dateTimeLayout tSt)[27]? = some 46 ∧
      (∀ w n, (zeroPadded w n).length = w ∧ (∀ c ∈ zeroPadded w n, 48 ≤ c ∧ c ≤ 57) ∧
        decimalValue (zeroPadded w n) = n % 10 ^ w ∧
        (n < 10 ^ w → decimalValue (zeroPadded w n) = n))) :=
  ⟨rfl, by decide, rfl, C22_toString_layout servingMalloc utcCalendar 0 rfl (by decide)⟩

/-- C23: delete idempotence: for every type descriptor `T` and every value `a` on which
`UA_deleteMembers` is defined, the buffer is all zero after the call, and a second
`UA_deleteMembers` on that buffer is defined, releases no allocation and leaves the
buffer all zero. -/
theorem C23_delete_idempotent (ts : UA_TypeSystem) (fuel : Nat) (a : UA_Value) (T : UA_DataType)
    (released : List (List UA_Value))
    (h : deleteMembers_noInit ts fuel a T = some released) :
    UA_deleteMembers a T = .zeroed ∧
    deleteMembers_noInit ts fuel (UA_deleteMembers a T) T = some [] ∧
    UA_deleteMembers (UA_deleteMembers a T) T = .zeroed :=
  ⟨rfl, deleteMembers_noInit_zeroed ts fuel a T released h, rfl⟩

/-- C23 (witness): deleting the QualifiedName `{3, "hi"}` releases the buffer of the name
and leaves the zeroed value; deleting that again releases nothing. -/
theorem C23_delete_idempotent_witness :
    deleteMembers_noInit standardTypes 2 helloName typeQualifiedName =
      some [byteCells "hi"] ∧
    (UA_deleteMembers helloName typeQualifiedName = .zeroed ∧
      deleteMembers_noInit standardTypes 2 (UA_deleteMembers helloName typeQualifiedName)
        typeQualifiedName = some [] ∧
      UA_deleteMembers (UA_deleteMembers helloName typeQualifiedName) typeQualifiedName =
        .zeroed) :=
  ⟨rfl, C23_delete_idempotent standardTypes 2 helloName typeQualifiedName [byteCells "hi"] rfl⟩

/-- C24 (the code at the failing input): the Variant has `arrayLength` 65536 and
`arrayDimensions` `[65536, 65537, 4294901761]`, whose product `2^64 + 65536` differs
from `arrayLength`; `computeStrides` multiplies in `size_t`, finds 65536, and returns good
on the range `[{0,0},{0,0},{0,0}]` instead of internal-error. -/
theorem C24_dimension_product_wraps :
    wrappedDims.arrayLength ≤ UA_UINT32_MAX ∧ wrappedDims.arrayDimensionsSize > 0 ∧
    wrappedDims.arrayDimensions.prod ≠ wrappedDims.arrayLength ∧
    computeStrides wrappedDims [⟨0, 0⟩, ⟨0, 0⟩, ⟨0, 0⟩] =
      .ok { total := 1, block := 1, stride := 4294901761, first := 0 } :=
  ⟨by decide, by decide, by decide, rfl⟩

/-- C26 (the code at the failing input): the String has 4294967296 bytes and the range
dimension is `{0, 4294967295}`, so `min ≤ max < length`; `copySubString` returns good,
and the destination has length 0 and a null buffer, not the length
`max - min + 1 = 4294967296`: the length is computed in `UA_UInt32` and wraps to 0. -/
theorem C26_copySubString_length_wraps (dst : UA_Value) :
    (0 : Nat) ≤ 4294967295 ∧ 4294967295 < hugeString.length ∧
    copySubString servingRuntime hugeString dst ⟨0, 4294967295⟩ =
      some (UA_STATUSCODE_GOOD, UA_Value.string 0 .null) ∧
    4294967295 - 0 + 1 ≠ 0 :=
  ⟨by decide, by decide, rfl, by decide⟩

/-- C27: whenever `computeStrides` returns good on a Variant whose `arrayDimensions`
multiply to `arrayLength`, `1 ≤ block ≤ stride ≤ arrayLength` and `block` divides
`total`: the quotient `total / block` of the copy loops has a non-zero divisor and
no remainder, and the block at `first + i * stride` ends before the next one
begins. -/
theorem C27_block_stride_sound (v : UA_Variant) (range : UA_NumericRange) (st : Strides)
    (hprod : DimensionProduct v) (h : computeStrides v range = .ok st) :
    1 ≤ st.block ∧ st.block ≤ st.stride ∧ st.stride ≤ v.arrayLength ∧ st.block ∣ st.total ∧
    st.block ≠ 0 ∧ st.total / st.block * st.block = st.total ∧ st.total % st.block = 0 ∧
    (∀ i i', i < i' →
      st.first + i * st.stride + st.block ≤ st.first + i' * st.stride) := by
  have hs := computeStrides_sound hprod h
  refine ⟨hs.block_pos, hs.block_le_stride, hs.stride_le, hs.block_dvd, ?_,
    Nat.div_mul_cancel hs.block_dvd, Nat.mod_eq_zero_of_dvd hs.block_dvd,
    fun i i' hi => hs.blocks_apart i i' hi⟩
  have := hs.block_pos
  omega

/-- C27 (witness): on the `2 × 3` array of scenario S3 with the range `[{0,1},{1,2}]`:
block 2, stride 3, total 4, `arrayLength` 6. -/
theorem C27_block_stride_witness :
    computeStrides scenarioArray [⟨0, 1⟩, ⟨1, 2⟩] =
      .ok { total := 4, block := 2, stride := 3, first := 1 } ∧
    (1 ≤ 2 ∧ 2 ≤ 3 ∧ 3 ≤ scenarioArray.arrayLength ∧ 2 ∣ 4 ∧ 2 ≠ 0 ∧ 4 / 2 * 2 = 4 ∧
      4 % 2 = 0 ∧ (∀ i i', i < i' → 1 + i * 3 + 2 ≤ 1 + i' * 3)) :=
  ⟨rfl, C27_block_stride_sound scenarioArray [⟨0, 1⟩, ⟨1, 2⟩]
    { total := 4, block := 2, stride := 3, first := 1 } (by decide) rfl⟩

/-- C28: whenever `computeStrides` returns good on a Variant whose `arrayDimensions`
multiply to `arrayLength`, with any number of dimensions, the last block ends inside
the array, `first + (total / block - 1) * stride + block ≤ arrayLength`, and every
index `first + i * stride + j` with `i < total / block`, `j < block` that the copy
loops of `UA_Variant_copyRange` and `Variant_setRange` visit is below `arrayLength`. -/
theorem C28_strided_access_in_bounds (v : UA_Variant) (range : UA_NumericRange) (st : Strides)
    (hprod : DimensionProduct v) (h : computeStrides v range = .ok st) :
    st.first + (st.total / st.block - 1) * st.stride + st.block ≤ v.arrayLength ∧
    (∀ i j, i < st.total / st.block → j < st.block →
      st.first + i * st.stride + j < v.arrayLength) :=
  ⟨(computeStrides_sound hprod h).last_le,
   fun i j hi hj => (computeStrides_sound hprod h).index_lt i j hi hj⟩

/-- C28 (witness): on the `2 × 2 × 2` array with the range `[{0,1},{0,0},{0,0}]`: first
0, block 1, stride 2, total 2, and `0 + (2 / 1 - 1) * 2 + 1 ≤ 8`. -/
theorem C28_strided_access_witness :
    computeStrides cubeArray cubeRange =
      .ok { total := 2, block := 1, stride := 2, first := 0 } ∧
    (0 + (2 / 1 - 1) * 2 + 1 ≤ cubeArray.arrayLength ∧
      (∀ i j, i < 2 / 1 → j < 1 → 0 + i * 2 + j < cubeArray.arrayLength)) :=
  ⟨rfl, C28_strided_access_in_bounds cubeArray cubeRange
    { total := 2, block := 1, stride := 2, first := 0 } (by decide) rfl⟩

/-- C30: `UA_Guid_random` is a fixed function of four successive draws `r0..r3` of the
generator, each cut to 32 bits: `data1 = r0`, `data2` and `data3` the low and high
halves of `r1`, `data4[i]` the low byte of `r2 >> 4i` and `data4[4+i]` the low byte of
`r3 >> 4i`.  Hence the low nibble of `data4[i+1]` is the high nibble of `data4[i]` for
`i` in `{0,1,2,4,5,6}`, the Guid depends on `r2` and `r3` through their low 20 bits only,
and it is a function of `32 + 32 + 20 + 20 = 104` bits. -/
theorem C30_Guid_random_bits {σ : Type} (rng : σ → Nat × σ) (s : σ) :
    (UA_Guid_random rng s).1 =
      guidOfDraws (rng s).1 (rng (rng s).2).1 (rng (rng (rng s).2).2).1
        (rng (rng (rng (rng s).2).2).2).1 ∧
    (UA_Guid_random rng s).2 = (rng (rng (rng (rng s).2).2).2).2 ∧
    (∀ r0 r1 r2 r3 i, i ∈ [0, 1, 2, 4, 5, 6] →
      (guidOfDraws r0 r1 r2 r3).data4.getD (i + 1) 0 % 16 =
        (guidOfDraws r0 r1 r2 r3).data4.getD i 0 / 16) ∧
    (∀ r0 r1 r2 r3, guidOfDraws r0 r1 r2 r3 =
      guidOfDraws (r0 % 2 ^ 32) (r1 % 2 ^ 32) (r2 % 2 ^ 20) (r3 % 2 ^ 20)) ∧
    (∃ f : Fin (2 ^ 32) × Fin (2 ^ 32) × Fin (2 ^ 20) × Fin (2 ^ 20) → UA_Guid,
      ∀ r0 r1 r2 r3, ∃ x, guidOfDraws r0 r1 r2 r3 = f x) ∧
    Fintype.card (Fin (2 ^ 32) × Fin (2 ^ 32) × Fin (2 ^ 20) × Fin (2 ^ 20)) = 2 ^ 104 := by
  have e : List.range 4 = [0, 1, 2, 3] := by decide
  have hdep : ∀ r0 r1 r2 r3, guidOfDraws r0 r1 r2 r3 =
      guidOfDraws (r0 % 2 ^ 32) (r1 % 2 ^ 32) (r2 % 2 ^ 20) (r3 % 2 ^ 20) := by
    intro r0 r1 r2 r3
    simp only [guidOfDraws, e, List.map_cons, List.map_nil, UA_Guid.mk.injEq,
      List.cons_append, List.nil_append, List.cons.injEq, and_true]
    norm_num
    omega
  refine ⟨guidOfDraws_eq rng s, rfl, ?_, hdep, ?_, ?_⟩
  · intro r0 r1 r2 r3 i hi
    simp only [List.mem_cons, List.mem_singleton, List.not_mem_nil, or_false] at hi
    rcases hi with rfl | rfl | rfl | rfl | rfl | rfl <;>
      simp [guidOfDraws, e] <;> omega
  · refine ⟨fun x => guidOfDraws x.1 x.2.1 x.2.2.1 x.2.2.2, ?_⟩
    intro r0 r1 r2 r3
    refine ⟨(⟨r0 % 2 ^ 32, Nat.mod_lt _ (by norm_num)⟩, ⟨r1 % 2 ^ 32, Nat.mod_lt _ (by norm_num)⟩,
      ⟨r2 % 2 ^ 20, Nat.mod_lt _ (by norm_num)⟩, ⟨r3 % 2 ^ 20, Nat.mod_lt _ (by norm_num)⟩), ?_⟩
    exact hdep r0 r1 r2 r3
  · simp only [Fintype.card_prod, Fintype.card_fin]
    norm_num

end Open62541
